import Mathlib

/-!
Verification of the receipt-extraction engine of the Necf Treasury system.

The definitions below are a shallow embedding of the Python sources
`backend/app/services/ocr_service.py`, `backend/app/services/enhanced_ocr.py`
and `backend/app/ocr.py`.  Text is modelled as `List Char`; monetary values as
exact rationals (the Python code uses IEEE floats / `Decimal`, whose rounding
is far below the two-decimal granularity of every value handled here); the
regular expressions of the source are transliterated into deterministic
matchers (each determinization step is justified in a comment at the matcher,
using the disjointness of the adjacent character classes, so the matcher
accepts exactly the strings the Python pattern does and returns the same
captured group).  Python operations that can raise (`min`/`max` of an empty
list, division by zero) are modelled in an `Except` monad; `try/except`
blocks of the source become `match` on such a fallible value.
-/

set_option maxRecDepth 10000

namespace NecfOCR

abbrev Chars := List Char

/-- Python `\s` / `str.strip` whitespace, restricted to the ASCII whitespace
characters that can occur in OCR text. -/
def isPySpace (c : Char) : Bool :=
  c = ' ' || c = '\t' || c = '\n' || c = '\r' || c = '\x0b' || c = '\x0c'

/-- Python `str.isdigit` restricted to ASCII digits (the only digits produced
by the OCR engines feeding this code). -/
def isPyDigit (c : Char) : Bool := c.isDigit

/-- The Turkish letters handled by the source (`TURKISH_CHAR_MAP` and the
explicit character classes in its regexes). -/
def turkishLower : List Char := ['ç', 'ğ', 'ı', 'ö', 'ş', 'ü']

def turkishUpper : List Char := ['Ç', 'Ğ', 'İ', 'Ö', 'Ş', 'Ü']

/-- Python `str.upper` on one character, for the ASCII and Turkish letters
that occur in receipt text (identity elsewhere, as in Python for digits and
punctuation).  Note Python maps both 'i' and 'ı' to 'I'. -/
def pyUpperChar (c : Char) : Char :=
  if 'a' ≤ c ∧ c ≤ 'z' then Char.ofNat (c.toNat - 32)
  else if c = 'ç' then 'Ç'
  else if c = 'ğ' then 'Ğ'
  else if c = 'ı' then 'I'
  else if c = 'ö' then 'Ö'
  else if c = 'ş' then 'Ş'
  else if c = 'ü' then 'Ü'
  else c

def pyUpper (cs : Chars) : Chars := cs.map pyUpperChar

/-- Python `str.isalpha` for the alphabets occurring in this code base
(ASCII letters plus the Turkish letters above). -/
def pyIsAlpha (c : Char) : Bool :=
  c.isAlpha || turkishLower.contains c || turkishUpper.contains c

/-- Python `str.strip`. -/
def pyStrip (cs : Chars) : Chars :=
  ((cs.dropWhile isPySpace).reverse.dropWhile isPySpace).reverse

/-- Python `str.split('\n')`. -/
def splitNl : Chars → List Chars
  | [] => [[]]
  | c :: cs =>
    match splitNl cs with
    | [] => [[c]]
    | h :: t => if c = '\n' then [] :: h :: t else (c :: h) :: t

/-- Python `'\n'.join`. -/
def joinNl : List Chars → Chars
  | [] => []
  | [l] => l
  | l :: ls => l ++ '\n' :: joinNl ls

/-- `needle` is a prefix of the second argument (Python `str.startswith`). -/
def startsWithL : Chars → Chars → Bool
  | [], _ => true
  | _ :: _, [] => false
  | n :: ns, h :: hs => n = h && startsWithL ns hs

/-- Python `needle in hay` (substring test). -/
def containsL (needle : Chars) : Chars → Bool
  | [] => needle.isEmpty
  | c :: cs => startsWithL needle (c :: cs) || containsL needle cs

/-- One step bound for `replaceLAux`. -/
def replaceLAux (old new : Chars) : Nat → Chars → Chars
  | 0, s => s
  | _ + 1, [] => []
  | fuel + 1, c :: cs =>
    if startsWithL old (c :: cs) then
      new ++ replaceLAux old new fuel (cs.drop (old.length - 1))
    else
      c :: replaceLAux old new fuel cs

/-- Python `str.replace(old, new)` (all non-overlapping occurrences, left to
right); only called with non-empty `old` in the sources. -/
def replaceL (old new s : Chars) : Chars := replaceLAux old new s.length s

/-- Numeric value of a digit string. -/
def digitsToNat (ds : Chars) : Nat :=
  ds.foldl (fun a c => a * 10 + (c.toNat - 48)) 0

/-- Python `float(s)` on the plain decimal literals this code can feed it:
optional surrounding whitespace, optional sign, digits with at most one dot
(exponents, inf/nan and `_` separators never occur in the matched groups).
`none` models `ValueError`. -/
def pyFloat? (s : Chars) : Option ℚ :=
  let t0 := pyStrip s
  let sign : ℚ := if t0.headD ' ' = '-' then -1 else 1
  let t := if t0.headD ' ' = '-' ∨ t0.headD ' ' = '+' then t0.tail else t0
  let d1 := t.takeWhile isPyDigit
  let r1 := t.dropWhile isPyDigit
  match r1 with
  | [] => if d1 = [] then none else some (sign * digitsToNat d1)
  | '.' :: r2 =>
    let d2 := r2.takeWhile isPyDigit
    let r3 := r2.dropWhile isPyDigit
    if r3 = [] ∧ (d1 ≠ [] ∨ d2 ≠ []) then
      some (sign * ((digitsToNat d1 : ℚ) + (digitsToNat d2 : ℚ) / (10 : ℚ) ^ d2.length))
    else none
  | _ => none

/-- First match of the fallback regex `(\d+(?:[.,]\d{1,2})?)` of
`_to_decimal`, returned as its exact rational value (the group always
parses as a float, so the source's `float(...)` on it cannot raise). -/
def fallbackNum? : Chars → Option ℚ
  | [] => none
  | c :: cs =>
    if isPyDigit c then
      -- greedy `\d+`
      let d1 := (c :: cs).takeWhile isPyDigit
      let r1 := (c :: cs).dropWhile isPyDigit
      match r1 with
      | sep :: r2 =>
        if (sep = '.' ∨ sep = ',') ∧ (r2.headD ' ').isDigit then
          -- greedy `\d{1,2}`
          let d2 := (r2.takeWhile isPyDigit).take 2
          some ((digitsToNat d1 : ℚ) + (digitsToNat d2 : ℚ) / (10 : ℚ) ^ d2.length)
        else some (digitsToNat d1)
      | [] => some (digitsToNat d1)
    else fallbackNum? cs

/-- Python `str.rfind(c)` (index of last occurrence, `-1` if absent). -/
def rfindIdx (c : Char) (s : Chars) : Int :=
  match s.reverse.findIdx? (· = c) with
  | some i => (s.length : Int) - 1 - i
  | none => -1

/-- `_to_decimal` of `ocr_service.py` (lines 287-314): strip currency tokens
and spaces, resolve the Turkish thousands/decimal convention, parse as float;
on parse failure fall back to the first number found by
`(\d+(?:[.,]\d{1,2})?)`, else 0.0. -/
def toDecimal (numStr : Chars) : ℚ :=
  if numStr = [] then 0
  else
    let s := replaceL "TL".data [] numStr
    let s := replaceL "₺".data [] s
    let s := replaceL "TRY".data [] s
    let s := pyStrip (replaceL [' '] [] s)
    let s :=
      if containsL [','] s ∧ containsL ['.'] s then
        if rfindIdx ',' s > rfindIdx '.' s then
          replaceL [','] ['.'] (replaceL ['.'] [] s)
        else
          replaceL [','] [] s
      else if containsL [','] s then replaceL [','] ['.'] s
      else s
    match pyFloat? s with
    | some v => v
    | none =>
      match fallbackNum? s with
      | some v => v
      | none => 0

/-! ### Regular-expression transliteration

Each Python pattern of `_extract_total_amount` has the shape
"keyword words separated by `\s*`, then `\s*[:=]?\s*`, optionally `\*?\s*`,
then a captured amount, then an optional/required currency suffix".  The
greedy quantifiers of those patterns are deterministic because every pair of
adjacent character classes is disjoint (`\s` vs letters/digits/`:`/`*`,
digits vs `[.,]`), and backtracking out of a greedy `\d{1,}` can never help
(the following atom `[.,]` matches no digit); so a single-pass matcher
returns exactly the leftmost Python match with the same group. -/

/-- One position of a keyword: a set of admissible characters (a regex
character class such as `[İI]`) and whether it is optional (`[İI]?`). -/
structure CSpec where
  alts : List Char
  opt : Bool
deriving DecidableEq, Repr

/-- Match one `CSpec`, consuming the character when it is admissible
(greedy, justified because in every source pattern the class of an optional
character is disjoint from the class of the following atom). -/
def matchCSpec (sp : CSpec) (cs : Chars) : Option Chars :=
  match cs with
  | [] => if sp.opt then some [] else none
  | c :: rest => if sp.alts.contains c then some rest else if sp.opt then some (c :: rest) else none

def matchWord : List CSpec → Chars → Option Chars
  | [], cs => some cs
  | sp :: sps, cs => (matchCSpec sp cs).bind (matchWord sps)

def dropSpaces (cs : Chars) : Chars := cs.dropWhile isPySpace

/-- Keyword words with `\s*` between consecutive words. -/
def matchToks : List (List CSpec) → Chars → Option Chars
  | [], cs => some cs
  | [w], cs => matchWord w cs
  | w :: ws, cs => (matchWord w cs).bind (fun r => matchToks ws (dropSpaces r))

/-- The captured amount group: `(\d{1,}\s*[.,]\s*\d{2})` when `spaced`,
`(\d{1,}[.,]\d{2})` otherwise.  Returns (group, rest). -/
def matchAmountNum (spaced : Bool) (cs : Chars) : Option (Chars × Chars) :=
  if cs.takeWhile isPyDigit = [] then none
  else
    match (if spaced then (cs.dropWhile isPyDigit).dropWhile isPySpace
           else cs.dropWhile isPyDigit) with
    | sep :: r3 =>
      if sep = '.' ∨ sep = ',' then
        match (if spaced then r3.dropWhile isPySpace else r3) with
        | a :: b :: r5 =>
          if a.isDigit ∧ b.isDigit then
            some (cs.takeWhile isPyDigit
                    ++ (if spaced then (cs.dropWhile isPyDigit).takeWhile isPySpace else [])
                    ++ sep :: ((if spaced then r3.takeWhile isPySpace else []) ++ [a, b]),
                  r5)
          else none
        | _ => none
      else none
    | [] => none

/-- Currency suffix after the amount group: absent, `\s*(?:TL|₺)?`, or
`\s*(?:TL|₺)` (required). -/
inductive TLSfx | noSfx | optSfx | reqSfx
deriving DecidableEq, Repr

def matchTLSfx : TLSfx → Chars → Option Chars
  | .noSfx, cs => some cs
  | .optSfx, cs =>
    if startsWithL "TL".data (dropSpaces cs) then some ((dropSpaces cs).drop 2)
    else if startsWithL "₺".data (dropSpaces cs) then some ((dropSpaces cs).drop 1)
    else some (dropSpaces cs)
  | .reqSfx, cs =>
    if startsWithL "TL".data (dropSpaces cs) then some ((dropSpaces cs).drop 2)
    else if startsWithL "₺".data (dropSpaces cs) then some ((dropSpaces cs).drop 1)
    else none

/-- A keyword-anchored amount pattern of `_extract_total_amount`. -/
structure KwPat where
  toks : List (List CSpec)
  ast : Bool      -- `\*?\s*` between the separator and the amount
  spaced : Bool   -- amount may contain stray spaces
  sfx : TLSfx
deriving Repr

/-- `\s*[:=]?\s*` after the keyword. -/
def matchSep (cs : Chars) : Chars :=
  match cs.dropWhile isPySpace with
  | c :: t => if c = ':' ∨ c = '=' then dropSpaces t else c :: t
  | [] => []

/-- `\*?\s*` (the rest is already space-free after `matchSep`). -/
def matchAst (cs : Chars) : Chars :=
  match cs with
  | '*' :: t => dropSpaces t
  | _ => cs

def matchKwPat (p : KwPat) (cs : Chars) : Option (Chars × Chars) := do
  let r1 ← matchToks p.toks cs
  let r2 := matchSep r1
  let r3 := if p.ast then matchAst r2 else r2
  let (g, r4) ← matchAmountNum p.spaced r3
  let r5 ← matchTLSfx p.sfx r4
  pure (g, r5)

def lit (s : String) : List CSpec := s.data.map (fun c => ⟨[c], false⟩)

/-- `NAK[İI]T` -/
def nakitWord : List CSpec :=
  [⟨['N'], false⟩, ⟨['A'], false⟩, ⟨['K'], false⟩, ⟨['İ', 'I'], false⟩, ⟨['T'], false⟩]

/-- `KRED[İI]` -/
def krediWord : List CSpec :=
  [⟨['K'], false⟩, ⟨['R'], false⟩, ⟨['E'], false⟩, ⟨['D'], false⟩, ⟨['İ', 'I'], false⟩]

/-- `KART[İI]?` -/
def kartiWord : List CSpec :=
  [⟨['K'], false⟩, ⟨['A'], false⟩, ⟨['R'], false⟩, ⟨['T'], false⟩, ⟨['İ', 'I'], true⟩]

def pToplam : KwPat := ⟨[lit "TOPLAM"], true, true, .noSfx⟩
def pGenelToplam : KwPat := ⟨[lit "GENEL", lit "TOPLAM"], true, true, .noSfx⟩
def pToplamTutar : KwPat := ⟨[lit "TOPLAM", lit "TUTAR"], true, true, .noSfx⟩
def pAraToplam : KwPat := ⟨[lit "ARA", lit "TOPLAM"], true, true, .noSfx⟩
def pGenelTop : KwPat := ⟨[lit "GENEL", lit "TOP"], true, true, .noSfx⟩
def pTopkdv : KwPat := ⟨[lit "TOPKDV"], true, true, .noSfx⟩
def pToplamTL : KwPat := ⟨[lit "TOPLAM"], false, false, .reqSfx⟩
def pGenelToplamTL : KwPat := ⟨[lit "GENEL", lit "TOPLAM"], false, false, .reqSfx⟩
def pToplamTutarTL : KwPat := ⟨[lit "TOPLAM", lit "TUTAR"], false, false, .reqSfx⟩
def pNakit : KwPat := ⟨[nakitWord], false, false, .noSfx⟩
def pKrediKarti : KwPat := ⟨[krediWord, kartiWord], false, false, .noSfx⟩
def pOdenen : KwPat := ⟨[lit "ODENEN"], false, false, .noSfx⟩
def pTotal : KwPat := ⟨[lit "TOTAL"], false, false, .optSfx⟩
def pGrandTotal : KwPat := ⟨[lit "GRAND", lit "TOTAL"], false, false, .optSfx⟩

/-- `turkish_total_patterns` (priority 1, indices 0-5). -/
def turkishTotalPats : List KwPat :=
  [pToplam, pGenelToplam, pToplamTutar, pAraToplam, pGenelTop, pTopkdv]

/-- `turkish_currency_patterns` (priority 2, indices 6-8). -/
def turkishCurrencyPats : List KwPat :=
  [pToplamTL, pGenelToplamTL, pToplamTutarTL]

/-- `payment_patterns` (priority 3, indices 9-11). -/
def paymentPats : List KwPat := [pNakit, pKrediKarti, pOdenen]

/-- `english_patterns` (priority 4, indices 12-13). -/
def englishPats : List KwPat := [pTotal, pGrandTotal]

/-! ### `re.finditer` -/

/-- Scan a text for all non-overlapping leftmost matches, continuing after
each match (`re.finditer`).  All matchers used here consume at least one
character on success and fail on the empty string, so a fuel of
`length + 1` always suffices and the attempt at the end-of-string position
never matches. -/
def scanAux (m : Chars → Option (Chars × Chars)) : Nat → Chars → List Chars
  | 0, _ => []
  | _ + 1, [] => []
  | fuel + 1, c :: cs =>
    match m (c :: cs) with
    | some (g, rest) => g :: scanAux m fuel rest
    | none => scanAux m fuel cs

def scan (m : Chars → Option (Chars × Chars)) (cs : Chars) : List Chars :=
  scanAux m (cs.length + 1) cs

/-! ### The fallback pattern (index 14)

`(?:^|\n).*?([\d]{2,}[.,]\d{2})\s*(?:TL|₺)\s*$` with `re.MULTILINE`.
The lazy `.*?` means: from a line-start anchor, the earliest start inside
that line at which the rest of the pattern matches.  `\s*` may cross
newlines; `$` matches before a `'\n'` or at the end of the text. -/

/-- `\s*$` (MULTILINE): greedily consume the longest whitespace prefix that
ends at an end-of-line position.  Returns the rest of the text and whether
the character preceding the rest is a newline (needed to know whether the
scan resumes at a line start). -/
def sfxEnd14 (cs : Chars) : Option (Chars × Bool) :=
  let w := cs.takeWhile isPySpace
  let r := cs.dropWhile isPySpace
  if r = [] then some ([], true)
  else
    match w.reverse.findIdx? (· = '\n') with
    | some j =>
      let k := w.length - 1 - j
      some (cs.drop k, decide (1 ≤ k) && (w.getD (k - 1) ' ' = '\n'))
    | none => none

/-- The part after `.*?`: `([\d]{2,}[.,]\d{2})\s*(?:TL|₺)\s*$`. -/
def try14core (s : Chars) : Option (Chars × Chars × Bool) :=
  let d1 := s.takeWhile isPyDigit
  let r1 := s.dropWhile isPyDigit
  if d1.length < 2 then none
  else
    match r1 with
    | sep :: r2 =>
      if sep = '.' ∨ sep = ',' then
        match r2 with
        | a :: b :: r3 =>
          if a.isDigit ∧ b.isDigit then
            let r4 := dropSpaces r3
            let r5? : Option Chars :=
              if startsWithL "TL".data r4 then some (r4.drop 2)
              else if startsWithL "₺".data r4 then some (r4.drop 1)
              else none
            match r5? with
            | some r5 =>
              match sfxEnd14 r5 with
              | some (rest, nl) => some (d1 ++ sep :: [a, b], rest, nl)
              | none => none
            | none => none
          else none
        | _ => none
      else none
    | [] => none

/-- The lazy `.*?` (which cannot cross a newline): earliest in-line start
position at which `try14core` succeeds. -/
def lazy14 : Chars → Option (Chars × Chars × Bool)
  | [] => none
  | c :: cs =>
    match try14core (c :: cs) with
    | some r => some r
    | none => if c = '\n' then none else lazy14 cs

/-- `re.finditer` for the fallback pattern: attempts are anchored at line
starts (`^` under MULTILINE, or the consumed `'\n'` of `(?:^|\n)`, which
yields the same match set). -/
def scan14Aux : Nat → Bool → Chars → List Chars
  | 0, _, _ => []
  | _ + 1, _, [] => []
  | fuel + 1, atLS, c :: cs =>
    if atLS then
      match lazy14 (c :: cs) with
      | some (g, rest, nl) => g :: scan14Aux fuel nl rest
      | none => scan14Aux fuel (c = '\n') cs
    else if c = '\n' then
      match lazy14 cs with
      | some (g, rest, nl) => g :: scan14Aux fuel nl rest
      | none => scan14Aux fuel true cs
    else scan14Aux fuel false cs

def scan14 (cs : Chars) : List Chars := scan14Aux (cs.length + 1) true cs

/-! ### The cascade of `_extract_total_amount` (lines 458-623) -/

/-- Exceptions the modelled Python code can raise. -/
inductive PyErr | valueError | zeroDivision | emptySeq
deriving DecidableEq, Repr

/-- Python `min` on a list (raises on empty input). -/
def pyMinE : List ℚ → Except PyErr ℚ
  | [] => .error .emptySeq
  | x :: xs => .ok (xs.foldl min x)

/-- Python `max` on a list (raises on empty input). -/
def pyMaxE : List ℚ → Except PyErr ℚ
  | [] => .error .emptySeq
  | x :: xs => .ok (xs.foldl max x)

/-- The change/refund line filter (lines 506-517): a line is dropped iff it
contains one of `UST`, `ÜST`, `İADE`, `IADE` (the outer `PARA`/... test of
the source is implied by the inner one). -/
def isChangeLine (line : Chars) : Bool :=
  if containsL "PARA".data line || containsL "UST".data line || containsL "ÜST".data line
      || containsL "İADE".data line || containsL "IADE".data line then
    containsL "UST".data line || containsL "ÜST".data line
      || containsL "İADE".data line || containsL "IADE".data line
  else false

def removeChangeLines (upper : Chars) : List Chars :=
  (splitNl upper).filter (fun line => !isChangeLine line)

def removeSpacesL (cs : Chars) : Chars := cs.filter (· ≠ ' ')

/-- The group lists of all 15 patterns, in priority order. -/
def patternScans (search : Chars) : List (List Chars) :=
  ((turkishTotalPats ++ turkishCurrencyPats ++ paymentPats ++ englishPats).map
    (fun p => scan (matchKwPat p) search)) ++ [scan14 search]

structure AmountLists where
  found : List ℚ
  toplam : List ℚ
  payment : List ℚ
deriving DecidableEq, Repr

/-- The collection loop (lines 519-545): each matched group is cleaned of
spaces, converted, and appended to `found_amounts` when positive, and in
addition to `toplam_amounts` (pattern index < 9) or `payment_amounts`
(9 ≤ index < 12). -/
def collectStep (idx : Nat) (a : AmountLists) (g : Chars) : AmountLists :=
  let amount := toDecimal (removeSpacesL g)
  if amount > 0 then
    { found := a.found ++ [amount]
      toplam := if idx < 9 then a.toplam ++ [amount] else a.toplam
      payment := if 9 ≤ idx ∧ idx < 12 then a.payment ++ [amount] else a.payment }
  else a

/-- The `enumerate` loop over the pattern list: process each pattern's
group list with its index. -/
def collectAll : Nat → List (List Chars) → AmountLists → AmountLists
  | _, [], a => a
  | idx, gs :: rest, a => collectAll (idx + 1) rest (gs.foldl (collectStep idx) a)

def collectAmounts (search : Chars) : AmountLists :=
  collectAll 0 (patternScans search) ⟨[], [], []⟩

/-- `([\d]{1,}[.,]\d{2})\s*(?:TL|₺)` of the trailing phase (line 562). -/
def trailMatcher (cs : Chars) : Option (Chars × Chars) := do
  let (g, r) ← matchAmountNum false cs
  let r' ← matchTLSfx .reqSfx r
  pure (g, r')

/-- The trailing phase (lines 558-569): last 10 lines of the unfiltered
text, bottom-up, all `amount TL` occurrences with positive value. -/
def trailingAmounts (upper : Chars) : List ℚ :=
  let lines := splitNl upper
  ((lines.drop (lines.length - 10)).reverse).foldl
    (fun acc line =>
      (scan trailMatcher line).foldl
        (fun a g => let amount := toDecimal g
                    if amount > 0 then a ++ [amount] else a) acc)
    []

/-- `^[\s]*\*?\s*(\d{1,}\s*[.,]\s*\d{2})[\s]*$` (line 585), anchored on a
whole line. -/
def fullLineAmount? (line : Chars) : Option Chars :=
  let r := dropSpaces line
  let r := match r with
           | '*' :: t => dropSpaces t
           | _ => r
  match matchAmountNum true r with
  | some (g, rest) => if dropSpaces rest = [] then some g else none
  | none => none

/-- Offsets 0..3 after a keyword line (lines 580-595). -/
def nearbyOffsets (all : List Chars) (i : Nat) : List Nat → Option ℚ
  | [] => none
  | off :: rest =>
    match (all.drop (i + off)).head? with
    | none => nearbyOffsets all i rest
    | some check =>
      match fullLineAmount? check with
      | none => nearbyOffsets all i rest
      | some g =>
        let amount := toDecimal (removeSpacesL g)
        if 0 < amount ∧ amount < 10000 then some amount else nearbyOffsets all i rest

/-- The keyword-on-separate-line phase (lines 574-595). -/
def nearbyScan (all : List Chars) : Nat → List Chars → Option ℚ
  | _, [] => none
  | i, line :: rest =>
    if containsL "TOPLAM".data line || containsL "GENEL".data line
        || containsL "TOPKDV".data line then
      match nearbyOffsets all i [0, 1, 2, 3] with
      | some a => some a
      | none => nearbyScan all (i + 1) rest
    else nearbyScan all (i + 1) rest

def nearbyAmount? (lines : List Chars) : Option ℚ := nearbyScan lines 0 lines

/-- `\*(\d{1,}[.,]\d{2})` of the item-sum phase (line 606). -/
def astMatcher (cs : Chars) : Option (Chars × Chars) :=
  match cs with
  | '*' :: r => matchAmountNum false r
  | _ => none

/-- The item-sum phase (lines 597-621): sum the asterisk prices, skipping a
price already seen with the same 20-character line context and prices
outside (0, 1000). -/
def asteriskSum (lines : List Chars) : ℚ :=
  (lines.foldl
    (fun (st : List (ℚ × Chars) × ℚ) line =>
      (scan astMatcher line).foldl
        (fun st g =>
          let price := toDecimal g
          let key := (price, line.take 20)
          if ¬ st.1.contains key ∧ 0 < price ∧ price < 1000 then
            (st.1 ++ [key], st.2 + price)
          else st)
        st)
    ([], 0)).2

/-- `_extract_total_amount` (lines 458-623), on the uppercased joined text.
The `Except` monad carries the raise-sites of the source (`min`/`max` of a
possibly empty list); every other fallible operation is caught locally in
the source and modelled by its handled result. -/
def extractTotalAmountE (upper : Chars) : Except PyErr ℚ :=
  let search := joinNl (removeChangeLines upper)
  let ls := collectAmounts search
  if ls.toplam ≠ [] then pyMinE ls.toplam
  else if ls.found ≠ [] then pyMaxE ls.found
  else
    let found2 := trailingAmounts upper
    if found2 ≠ [] then pyMaxE found2
    else
      let lines := splitNl upper
      match nearbyAmount? lines with
      | some a => .ok a
      | none =>
        let s := asteriskSum lines
        .ok (if s > 0 then s else 0)

def extractTotalAmount (upper : Chars) : ℚ :=
  ((extractTotalAmountE upper).toOption).getD 0

/-! ### Date extraction (`_extract_purchase_date`, `_parse_date_string`) -/

structure YMD where
  year : Nat
  month : Nat
  day : Nat
deriving DecidableEq, Repr

def isLeap (y : Nat) : Bool := y % 4 = 0 && (y % 100 ≠ 0 || y % 400 = 0)

def daysInMonth (y m : Nat) : Nat :=
  if m = 2 then (if isLeap y then 29 else 28)
  else if m = 4 ∨ m = 6 ∨ m = 9 ∨ m = 11 then 30
  else 31

/-- the `re.split` of the source at the separator class dot, slash, dash. -/
def splitSeps : Chars → List Chars
  | [] => [[]]
  | c :: cs =>
    match splitSeps cs with
    | [] => [[c]]
    | h :: t => if c = '.' ∨ c = '/' ∨ c = '-' then [] :: h :: t else (c :: h) :: t

/-- Python `int(p)` on the split parts (`ValueError`, modelled as `none`,
unless the part is a non-empty digit string). -/
def parseIntDigits? (p : Chars) : Option Nat :=
  if p ≠ [] ∧ p.all isPyDigit then some (digitsToNat p) else none

/-- `_parse_date_string` (lines 441-456): remove whitespace, split at
the dot/slash/dash separators, read day-month-year with the <50 two-digit-year pivot, require
1 ≤ dd ≤ 31, 1 ≤ mm ≤ 12, 1900 ≤ yyyy ≤ 2100 and a constructible
`datetime` (a real calendar date); any failure yields `none`. -/
def parseDateString (raw : Chars) : Option YMD :=
  let s := raw.filter (fun c => !isPySpace c)
  match splitSeps s with
  | [pd, pm, py] => do
    let dd ← parseIntDigits? pd
    let mm ← parseIntDigits? pm
    let yy ← parseIntDigits? py
    let yyyy := if yy < 100 then (if yy < 50 then 2000 + yy else 1900 + yy) else yy
    if 1 ≤ dd ∧ dd ≤ 31 ∧ 1 ≤ mm ∧ mm ≤ 12 ∧ 1900 ≤ yyyy ∧ yyyy ≤ 2100
        ∧ dd ≤ daysInMonth yyyy mm then
      some ⟨yyyy, mm, dd⟩
    else none
  | _ => none

/-- `TAR[İI]H` -/
def tarihWord : List CSpec :=
  [⟨['T'], false⟩, ⟨['A'], false⟩, ⟨['R'], false⟩, ⟨['İ', 'I'], false⟩, ⟨['H'], false⟩]

/-- The captured date group `\d{dMin,2} sep \d{dMin,2} sep [\s*] \d{yMin,yMax}`.
`\d{dMin,2}` succeeds exactly when the maximal digit run has length between
`dMin` and 2 (a longer run puts a digit where the separator class must
match, and backtracking to fewer digits leaves a digit there too); the year
takes `min yMax` digits greedily and needs at least `yMin` (nothing follows
the year, so its greediness never backtracks). -/
def matchDateGroup (sepOk : Char → Bool) (spY : Bool) (dMin yMin yMax : Nat)
    (cs : Chars) : Option Chars :=
  let d1 := cs.takeWhile isPyDigit
  if d1.length < dMin ∨ 2 < d1.length then none
  else
    match cs.drop d1.length with
    | s1 :: r1 =>
      if sepOk s1 then
        let d2 := r1.takeWhile isPyDigit
        if d2.length < dMin ∨ 2 < d2.length then none
        else
          match r1.drop d2.length with
          | s2 :: r2 =>
            if sepOk s2 then
              let sp := if spY then r2.takeWhile isPySpace else []
              let r3 := if spY then r2.dropWhile isPySpace else r2
              let dy := (r3.takeWhile isPyDigit).take yMax
              if dy.length < yMin then none
              else some (d1 ++ s1 :: (d2 ++ s2 :: (sp ++ dy)))
            else none
          | [] => none
      else none
    | [] => none

def dmySep (c : Char) : Bool := c = '.' ∨ c = '/' ∨ c = '-'

/-- One keyword-anchored date pattern
of the source (keyword, separator glue, then the date group with the dot/slash/dash separator class). -/
def matchKwDate (kw : List CSpec) (spY : Bool) (cs : Chars) : Option Chars := do
  let r1 ← matchWord kw cs
  matchDateGroup dmySep spY 1 2 4 (matchSep r1)

/-- The seven patterns of `_extract_purchase_date` (lines 414-424), in
priority order. -/
def datePatterns : List (Chars → Option Chars) :=
  [ matchKwDate tarihWord true,
    matchKwDate tarihWord false,
    matchKwDate (lit "DATE") false,
    matchDateGroup (· = '.') true 1 4 4,
    matchDateGroup (· = '.') false 1 4 4,
    matchDateGroup (· = '/') false 1 4 4,
    matchDateGroup (· = '-') false 1 4 4 ]

/-- `re.search`: the first (leftmost) match. -/
def searchFirst (m : Chars → Option Chars) : Chars → Option Chars
  | [] => m []
  | c :: cs =>
    match m (c :: cs) with
    | some r => some r
    | none => searchFirst m cs

/-- `_extract_purchase_date` (lines 412-439): first pattern whose first
match parses to a valid date wins; a match that fails to parse moves on to
the next pattern. -/
def firstDate : List (Chars → Option Chars) → Chars → Option YMD
  | [], _ => none
  | p :: ps, t =>
    match (searchFirst p t).bind parseDateString with
    | some d => some d
    | none => firstDate ps t

def extractPurchaseDate (upper : Chars) : Option YMD := firstDate datePatterns upper

/-! ### Vendor extraction (`_extract_vendor_name`, lines 361-410) -/

def badVendorStarts : List String :=
  ["TARİH", "TARIH", "SAAT", "FİŞ", "FIS", "KDV", "VERGİ", "VERGI",
   "ÜRÜN", "URUN", "TOPLAM", "GENEL", "SUBTOTAL", "NAKİT", "NAKIT",
   "KART", "TESEKKUR", "TEŞEKKÜR", "TEL:", "ADRES", "ADDRESS",
   "FATURA", "INVOICE", "UNABLE", "ERROR", "HOŞGELDIN", "HOSGELDIN",
   "İYİ", "IYI", "GÜNLER", "GUNLER", "TEŞEKKÜRLER", "TESEKKURLER"]

def storeIndicators : List String :=
  ["MARKET", "SÜPERMARKET", "SUPERMARKET", "MAĞAZA", "MAGAZA",
   "ECZANE", "ECZ", "BAKKAL", "MANAV", "KASAP", "FIRIN",
   "RESTAURANT", "RESTORAN", "KAFE", "CAFE", "LOKANTA",
   "LTD", "A.Ş", "A.S", "İNC", "INC", "GIDA", "TİCARET", "TICARET",
   "SHOP", "STORE", "CENTER", "MERKEZ", "ŞUBE", "SUBE"]

/-- `is_candidate_vendor`: ratio comparisons are exact here (the Python
floats involved are quotients of line lengths ≤ a few hundred, far from the
2⁻⁵² rounding of the literals 0.3/0.6). -/
def isCandidateVendor (ln : Chars) : Bool :=
  let up := pyUpper ln
  if badVendorStarts.any (fun bp => startsWithL bp.data up) then false
  else if ln.any isPyDigit &&
      decide ((ln.countP isPyDigit : ℚ) / (max 1 ln.length : ℚ) > 3 / 10) then false
  else if storeIndicators.any (fun ind => containsL ind.data up) then true
  else
    let letters := ln.filter pyIsAlpha
    if letters = [] then false
    else
      decide ((letters.countP (fun c => pyUpperChar c = c) : ℚ)
                / (max 1 letters.length : ℚ) > 3 / 5)
        && decide (3 ≤ ln.length ∧ ln.length ≤ 50)

def extractVendorName (lines : List Chars) : Chars :=
  let v := match (lines.take 10).find? isCandidateVendor with
           | some ln => pyStrip ln
           | none => "Unknown Vendor".data
  if v = "Unknown Vendor".data ∧ lines ≠ [] then lines.headD [] else v

/-! ### `_extract_all_amounts` (lines 625-651) -/

/-- `(?:[.,]\d{3})*` (thousands groups), greedy. -/
def thouLoop : Nat → Chars → (Chars × Chars)
  | 0, r => ([], r)
  | fuel + 1, r =>
    match r with
    | sep :: a :: b :: c :: rest =>
      if (sep = '.' ∨ sep = ',') ∧ a.isDigit ∧ b.isDigit ∧ c.isDigit then
        let (more, r') := thouLoop fuel rest
        (sep :: a :: b :: c :: more, r')
      else ([], r)
    | _ => ([], r)

/-- `(\d{1,3}(?:[.,]\d{3})*(?:[.,]\d{2})?)\s*(?:TL|₺|LIRA)?`: all later
atoms are optional so the greedy `\d{1,3}` never backtracks. -/
def allAmountsMatcher (cs : Chars) : Option (Chars × Chars) :=
  let d1 := (cs.takeWhile isPyDigit).take 3
  if d1 = [] then none
  else
    let r := cs.drop d1.length
    let (thous, r1) := thouLoop r.length r
    let (frac, r2) : Chars × Chars :=
      match r1 with
      | sep :: a :: b :: rest =>
        if (sep = '.' ∨ sep = ',') ∧ a.isDigit ∧ b.isDigit then ([sep, a, b], rest)
        else ([], r1)
      | _ => ([], r1)
    let r3 := dropSpaces r2
    let r4 :=
      if startsWithL "TL".data r3 then r3.drop 2
      else if startsWithL "₺".data r3 then r3.drop 1
      else if startsWithL "LIRA".data r3 then r3.drop 4
      else r3
    some (d1 ++ thous ++ frac, r4)

structure AllAmt where
  amount : ℚ
  line : Nat
  context : Chars
  raw : Chars
deriving DecidableEq, Repr

/-- Stable descending insertion (Python `sort(key=amount, reverse=True)`,
which keeps the original order of equal keys). -/
def insDesc (x : AllAmt) : List AllAmt → List AllAmt
  | [] => [x]
  | y :: ys => if y.amount < x.amount then x :: y :: ys else y :: insDesc x ys

def extractAllAmounts (text : Chars) : List AllAmt :=
  let collected :=
    ((splitNl text).enum).foldl
      (fun acc il =>
        (scan allAmountsMatcher (pyUpper il.2)).foldl
          (fun a g =>
            let v := toDecimal g
            if v > 0 then a ++ [⟨v, il.1 + 1, pyStrip il.2, g⟩] else a)
          acc)
      []
  collected.foldl (fun s x => insDesc x s) []

/-! ### `_extract_line_items` (lines 653-804) -/

structure LineItem where
  name : Chars
  quantity : Nat
  unit_price : ℚ
  total_price : ℚ
  line_number : Nat
deriving DecidableEq, Repr

def lineItemSkipWords : List String :=
  ["TOPLAM", "GENEL", "TOTAL", "TAX", "KDV", "VERGİ", "VERGI",
   "NAKİT", "NAKIT", "KART", "CHANGE",
   "PARA", "USTU", "ÜSTÜ", "İADE", "IADE",
   "TARİH", "TARIH", "SAAT", "FİŞ", "FIS",
   "TEŞEKKÜR", "TESEKKUR", "TEŞEKKÜRLER", "TESEKKURLER",
   "KASIY", "KASIYER", "KASA", "NO:", "EKÜ", "YAC", "V ,D",
   "HOŞ", "HOS", "GELDİN", "GELDIN", "İYİ", "IYI", "GÜNLER", "GUNLER",
   "BİZİ", "BIZI", "TERCİH", "TERCIH", "ETTİĞİNİZ", "ETTIGINIZ"]

/-- Python float division; zero divisor raises `ZeroDivisionError`. -/
def pyDivE (p q : ℚ) : Except PyErr ℚ :=
  if q = 0 then .error .zeroDivision else .ok (p / q)

/-- Rest of pattern 1 after the lazy name: `\s+%?\d*\s*\*(\d{1,}[.,]\d{2})`
(every adjacent pair of classes is disjoint, so single-pass). -/
def p1Rest (rest : Chars) : Option Chars :=
  match rest with
  | c :: _ =>
    if isPySpace c then
      let r := dropSpaces rest
      let r := match r with
               | '%' :: t => t
               | _ => r
      let r := r.dropWhile isPyDigit
      let r := dropSpaces r
      match r with
      | '*' :: t => (matchAmountNum false t).map (·.1)
      | _ => none
    else none
  | [] => none

/-- Lazy `(.+?)` search: shortest non-empty name prefix whose remainder
matches `k`. -/
def lazyName (k : Chars → Option Chars) : Chars → Chars → Option (Chars × Chars)
  | _, [] => none
  | acc, c :: rest =>
    let nm := acc ++ [c]
    match k rest with
    | some g => some (nm, g)
    | none => lazyName k nm rest

/-- `^(.+?)\s+%?\d*\s*\*(\d{1,}[.,]\d{2})` (asterisk price, line 684). -/
def p1Match (line : Chars) : Option (Chars × Chars) := lazyName p1Rest [] line

/-- `\d+(?:ML|L|G|KG|GR)` somewhere in the name. -/
def hasUnitSuffix : Chars → Bool
  | [] => false
  | c :: cs =>
    (isPyDigit c &&
      (["ML", "L", "G", "KG", "GR"].any
        (fun u => startsWithL u.data ((c :: cs).dropWhile isPyDigit))))
    || hasUnitSuffix cs

/-- `re.sub(r'\d+$', '', s)` (strip the trailing digit run). -/
def dropTrailingDigits (cs : Chars) : Chars :=
  (cs.reverse.dropWhile isPyDigit).reverse

/-- `\s+([\d.,]+)\s*(?:TL|₺)?$` — the tail shared by the quantity pattern
and the name-price pattern. -/
def p2RestMatch (rest : Chars) : Option Chars :=
  match rest with
  | c :: _ =>
    if isPySpace c then
      let r := dropSpaces rest
      let g := r.takeWhile (fun c => isPyDigit c || c = '.' || c = ',')
      if g = [] then none
      else
        let r2 := dropSpaces (r.drop g.length)
        let r3 :=
          if startsWithL "TL".data r2 then r2.drop 2
          else if startsWithL "₺".data r2 then r2.drop 1
          else r2
        if r3 = [] then some g else none
    else none
  | [] => none

def headSpace : Chars → Bool
  | c :: _ => isPySpace c
  | [] => false

/-- The alternation bodies of `(?:ADET|AD|X|x)?` after `(\d+)\s*`, in the
backtracking order of the engine (each keyword must be followed by the
mandatory `\s+`; the keyword-less alternative needs at least one space in
total).  A body whose lazy-name continuation fails falls through to the
next body, as the engine does.  (Matches whose name consists of whitespace
are not produced; the source discards them anyway via `len(name) >= 3`.) -/
def p2Bodies (sp : Chars) (r1 : Chars) : List Chars :=
  (if startsWithL "ADET".data r1 ∧ headSpace (r1.drop 4) then [dropSpaces (r1.drop 4)] else [])
  ++ (if startsWithL "AD".data r1 ∧ headSpace (r1.drop 2) then [dropSpaces (r1.drop 2)] else [])
  ++ (if startsWithL "X".data r1 ∧ headSpace (r1.drop 1) then [dropSpaces (r1.drop 1)] else [])
  ++ (if startsWithL "x".data r1 ∧ headSpace (r1.drop 1) then [dropSpaces (r1.drop 1)] else [])
  ++ (if sp ≠ [] then [r1] else [])

def firstNameMatch (k : Chars → Option Chars) : List Chars → Option (Chars × Chars)
  | [] => none
  | b :: bs =>
    match lazyName k [] b with
    | some r => some r
    | none => firstNameMatch k bs

/-- `^(\d+)\s*(?:ADET|AD|X|x)?\s+(.+?)\s+([\d.,]+)\s*(?:TL|₺)?$`
(quantity pattern, line 716): returns (quantity digits, name, price). -/
def p2Match (line : Chars) : Option (Chars × Chars × Chars) :=
  let d := line.takeWhile isPyDigit
  if d = [] then none
  else
    let r := line.drop d.length
    let sp := r.takeWhile isPySpace
    let r1 := r.drop sp.length
    (firstNameMatch p2RestMatch (p2Bodies sp r1)).map (fun ng => (d, ng.1, ng.2))

/-- Rest of `^(.+?)\s+(\d+)\s*[xX*]\s*([\d.,]+)` after the lazy name:
returns (quantity digits, price). -/
def p3Rest (rest : Chars) : Option (Chars × Chars) :=
  if headSpace rest then
    let r := dropSpaces rest
    let d := r.takeWhile isPyDigit
    if d = [] then none
    else
      match dropSpaces (r.drop d.length) with
      | c :: t =>
        if c = 'x' ∨ c = 'X' ∨ c = '*' then
          let g := (dropSpaces t).takeWhile (fun c => isPyDigit c || c = '.' || c = ',')
          if g = [] then none else some (d, g)
        else none
      | [] => none
  else none

def lazyName3 : Chars → Chars → Option (Chars × Chars × Chars)
  | _, [] => none
  | acc, c :: rest =>
    let nm := acc ++ [c]
    match p3Rest rest with
    | some (d, g) => some (nm, d, g)
    | none => lazyName3 nm rest

/-- `^(.+?)\s+(\d+)\s*[xX*]\s*([\d.,]+)` (line 739). -/
def p3Match (line : Chars) : Option (Chars × Chars × Chars) := lazyName3 [] line

def p4Class (c : Char) : Bool :=
  c.isAlpha || isPyDigit c || isPySpace c || c = '-' || c = '.'
    || turkishLower.contains c || turkishUpper.contains c

/-- `^([A-Za-zçÇğĞıİöÖşŞüÜ0-9\s\-\.]+?)\s+([\d.,]+)\s*(?:TL|₺)?$`
(line 758): lazy class-restricted name; stops (fails) at the first
character outside the class. -/
def p4Loop : Chars → Chars → Option (Chars × Chars)
  | _, [] => none
  | acc, c :: rest =>
    if p4Class c then
      let nm := acc ++ [c]
      match p2RestMatch rest with
      | some g => some (nm, g)
      | none => p4Loop nm rest
    else none

def p4Match (line : Chars) : Option (Chars × Chars) := p4Loop [] line

def letterClass (c : Char) : Bool :=
  c.isAlpha || turkishLower.contains c || turkishUpper.contains c

/-- `[A-Za-zçÇğĞıİöÖşŞüÜ]{3,}` somewhere in the line. -/
def has3Letters : Chars → Bool
  | a :: b :: c :: rest =>
    (letterClass a && letterClass b && letterClass c) || has3Letters (b :: c :: rest)
  | _ => false

/-- `re.sub(r'[\d.,]+\s*(?:TL|₺)?', '', line)` — each match also swallows
the trailing whitespace run (the greedy `\s*` consumes it whether or not a
currency token follows). -/
def subNumTL : Nat → Chars → Chars
  | 0, s => s
  | _ + 1, [] => []
  | fuel + 1, c :: cs =>
    if isPyDigit c || c = '.' || c = ',' then
      let run := (c :: cs).takeWhile (fun c => isPyDigit c || c = '.' || c = ',')
      let r := (c :: cs).drop run.length
      let r2 := dropSpaces r
      let r3 :=
        if startsWithL "TL".data r2 then r2.drop 2
        else if startsWithL "₺".data r2 then r2.drop 1
        else r2
      subNumTL fuel r3
    else c :: subNumTL fuel cs

/-- Line-item extraction for one line (`line_num` is 0-based here; the
stored `line_number` is 1-based as in the source).  Returns the items this
line contributes, in order. -/
def lineItemsForLine (line : Chars) (lineNum : Nat) : List LineItem :=
  let upperLine := pyUpper line
  if lineItemSkipWords.any (fun w => containsL w.data upperLine) then []
  else if (pyStrip line).length < 3 then []
  else
    -- PRIORITY 1: asterisk prices
    let p1Result : Option (List LineItem) :=
      match p1Match line with
      | some (rawName, priceG) =>
        let name0 := pyStrip rawName
        let name :=
          if !hasUnitSuffix (pyUpper name0) then pyStrip (dropTrailingDigits name0)
          else name0
        if name.length < 2 then some []   -- `continue`: line contributes nothing
        else
          let price := toDecimal priceG
          if 0 < price ∧ price < 10000 then
            some [⟨name, 1, price, price, lineNum + 1⟩]
          else none                        -- fall through
      | none => none
    match p1Result with
    | some items => items
    | none =>
      -- PRIORITY 2: quantity pattern (division caught by the `try`)
      let p2Result : Option (List LineItem) :=
        match p2Match line with
        | some (qtyD, rawName, priceG) =>
          let quantity := digitsToNat qtyD
          let name := pyStrip rawName
          if 3 ≤ name.length then
            let price := toDecimal priceG
            if 0 < price ∧ price < 10000 then
              match pyDivE price (quantity : ℚ) with
              | .ok u => some [⟨name, quantity, u, price, lineNum + 1⟩]
              | .error _ => none   -- `except: pass`, fall through
            else none
          else none
        | none => none
      match p2Result with
      | some items => items
      | none =>
        -- Pattern 1 of the source comments: name qty x price
        match p3Match line with
        | some (rawName, qtyD, priceG) =>
          let name := pyStrip rawName
          let quantity := digitsToNat qtyD
          let unit := toDecimal priceG
          [⟨name, quantity, unit, (quantity : ℚ) * unit, lineNum + 1⟩]
        | none =>
          -- Pattern 2: name then price at end.  Its `if` has no `continue`
          -- after the append, so execution always falls into pattern 3,
          -- whose `line_number` check then blocks a second append for the
          -- same line; only the bad-name `continue` skips pattern 3.
          let p4Step : Option (List LineItem) :=
            match p4Match line with
            | some (rawName, priceG) =>
              let name := pyStrip rawName
              if name.length < 3 ∨ (name.filter (· ≠ ' ') ≠ [] ∧
                  (name.filter (· ≠ ' ')).all isPyDigit) then
                none           -- `continue`: pattern 3 not reached
              else
                let price := toDecimal priceG
                if 0 < price ∧ price < 10000 then
                  some [⟨name, 1, price, price, lineNum + 1⟩]
                else some []
            | none => some []
          match p4Step with
          | none => []
          | some p4Appended =>
            -- Pattern 3: any line with 3 letters and an amount
            let p5Items : List LineItem :=
              if has3Letters line then
                let amounts := scan (matchAmountNum false) line
                if amounts ≠ [] then
                  let name := pyStrip (subNumTL line.length line)
                  if 3 ≤ name.length then
                    let price := toDecimal (amounts.getLastD [])
                    if 0 < price ∧ price < 10000 ∧ p4Appended = [] then
                      [⟨name, 1, price, price, lineNum + 1⟩]
                    else []
                  else []
                else []
              else []
            p4Appended ++ p5Items

def extractLineItems (lines : List Chars) : List LineItem :=
  (lines.enum).foldl (fun acc il => acc ++ lineItemsForLine il.2 il.1) []

/-! ### `_extract_purchased_items` (lines 806-832) -/

def purchasedSkipWords : List String :=
  ["TOPLAM", "TOTAL", "TAX", "KDV", "NAKİT", "KART", "TARIH", "SAAT",
   "FİŞ", "TEŞEKKÜR", "THANK", "ADRES", "TEL", "UNABLE", "ERROR"]

/-- `re.sub(r'\d+[.,]\d+.*$', '', line)`: cut from the first
digits-separator-digit occurrence to the end of the line. -/
def cutNumTail : Chars → Chars
  | [] => []
  | c :: cs =>
    let r := (c :: cs).dropWhile isPyDigit
    if isPyDigit c && (match r with
                       | s :: d :: _ => (s = '.' || s = ',') && isPyDigit d
                       | _ => false) then []
    else c :: cutNumTail cs

/-- `re.sub(r'\s+x\s+\d+.*$', '', s)`. -/
def cutXQty : Chars → Chars
  | [] => []
  | c :: cs =>
    let r := (c :: cs).dropWhile isPySpace
    if isPySpace c && (match r with
                       | 'x' :: t =>
                         headSpace t && (match t.dropWhile isPySpace with
                                         | d :: _ => isPyDigit d
                                         | [] => false)
                       | _ => false) then []
    else c :: cutXQty cs

def extractPurchasedItems (lines : List Chars) : List Chars :=
  (lines.foldl
    (fun acc line =>
      let upperLine := pyUpper line
      if purchasedSkipWords.any (fun w => containsL w.data upperLine) then acc
      else if line.any letterClass ∧ 2 < (pyStrip line).length ∧ (pyStrip line).length < 50
          ∧ ¬ ((pyStrip line) ≠ [] ∧ (pyStrip line).all isPyDigit) then
        let itemName := pyStrip (cutXQty (pyStrip (cutNumTail line)))
        if 2 < itemName.length then acc ++ [itemName] else acc
      else acc)
    []).take 10

/-! ### `_parse_receipt_comprehensive` (lines 272-359) -/

structure ReceiptData where
  vendor_name : String
  total_amount : ℚ
  currency : String
  date : Option YMD
  items : List String
  all_amounts : List AllAmt
  line_items : List LineItem
  confidence : ℚ
  raw_text : String
deriving Repr

instance : Inhabited ReceiptData :=
  ⟨⟨"", 0, "", none, [], [], [], 0, ""⟩⟩

def parseLines (text : Chars) : List Chars :=
  ((splitNl text).map pyStrip).filter (· ≠ [])

def upperText (text : Chars) : Chars := pyUpper (joinNl (parseLines text))

/-- `_parse_receipt_comprehensive`: the `Except` layer carries the only
uncaught raise-sites of the whole pipeline (`min`/`max` of the candidate
lists inside `_extract_total_amount`; the quantity division of
`_extract_line_items` sits inside a `try` and is already handled in
`lineItemsForLine`). -/
def parseReceiptComprehensiveE (text : Chars) : Except PyErr ReceiptData := do
  let lines := parseLines text
  let upper := upperText text
  let vendor := extractVendorName lines
  let dateRes := extractPurchaseDate upper
  let total ← extractTotalAmountE upper
  let allAmts := extractAllAmounts text
  let lineItems := extractLineItems lines
  let items := extractPurchasedItems lines
  let conf : ℚ := if total > 0 ∧ vendor ≠ "Unknown Vendor".data then 95 / 100 else 7 / 10
  pure { vendor_name := ⟨vendor⟩, total_amount := total, currency := "TL",
         date := dateRes, items := items.map (⟨·⟩), all_amounts := allAmts,
         line_items := lineItems, confidence := conf, raw_text := ⟨text⟩ }

def parseReceiptComprehensive (s : String) : ReceiptData :=
  ((parseReceiptComprehensiveE s.data).toOption).getD default

/-! ### `ReceiptParser.calculate_confidence` (`app/ocr.py`, lines 348-373) -/

def daysBeforeMonth (y m : Nat) : Nat :=
  ((List.range (m - 1)).map (fun i => daysInMonth y (i + 1))).sum

/-- Proleptic-Gregorian day ordinal, used only to model
`(date.today() - date).days` as a difference of ordinals. -/
def ymdOrdinal (d : YMD) : Nat :=
  365 * (d.year - 1) + (d.year - 1) / 4 - (d.year - 1) / 100 + (d.year - 1) / 400
    + daysBeforeMonth d.year d.month + d.day

/-- `calculate_confidence(vendor, amount, date)`: Python truthiness makes an
empty-string vendor and a 0.0 amount count as absent; the float additions of
the source (0.3/0.4/0.1/0.2 steps, capped by `min(…, 1.0)`) are modelled
exactly in ℚ — every comparison of the source is far from the 2⁻⁵² rounding
of those literals. -/
def calculateConfidence (vendor : Option String) (amount : Option ℚ)
    (d : Option YMD) (today : YMD) : ℚ :=
  let c1 : ℚ :=
    match vendor with
    | some v =>
      if v.length ≠ 0 then
        (3 : ℚ) / 10 + (if 3 < v.length ∧ v.length < 30 then (1 : ℚ) / 10 else 0)
      else 0
    | none => 0
  let c2 : ℚ :=
    match amount with
    | some a =>
      if a ≠ 0 then
        (4 : ℚ) / 10 + (if (1 : ℚ) / 100 ≤ a ∧ a ≤ 10000 then (1 : ℚ) / 10 else 0)
      else 0
    | none => 0
  let c3 : ℚ :=
    match d with
    | some dd =>
      (2 : ℚ) / 10 + (if (ymdOrdinal today : ℤ) - (ymdOrdinal dd : ℤ) ≤ 30 then (1 : ℚ) / 10 else 0)
    | none => 0
  min (c1 + c2 + c3) 1

/-! ### MD5 (Python `hashlib.md5`, used by `generate_mock_data`) -/

def md5S : List Nat :=
  [7, 12, 17, 22, 7, 12, 17, 22, 7, 12, 17, 22, 7, 12, 17, 22,
   5, 9, 14, 20, 5, 9, 14, 20, 5, 9, 14, 20, 5, 9, 14, 20,
   4, 11, 16, 23, 4, 11, 16, 23, 4, 11, 16, 23, 4, 11, 16, 23,
   6, 10, 15, 21, 6, 10, 15, 21, 6, 10, 15, 21, 6, 10, 15, 21]

def md5K : List Nat :=
  [3614090360, 3905402710, 606105819, 3250441966,
   4118548399, 1200080426, 2821735955, 4249261313,
   1770035416, 2336552879, 4294925233, 2304563134,
   1804603682, 4254626195, 2792965006, 1236535329,
   4129170786, 3225465664, 643717713, 3921069994,
   3593408605, 38016083, 3634488961, 3889429448,
   568446438, 3275163606, 4107603335, 1163531501,
   2850285829, 4243563512, 1735328473, 2368359562,
   4294588738, 2272392833, 1839030562, 4259657740,
   2763975236, 1272893353, 4139469664, 3200236656,
   681279174, 3936430074, 3572445317, 76029189,
   3654602809, 3873151461, 530742520, 3299628645,
   4096336452, 1126891415, 2878612391, 4237533241,
   1700485571, 2399980690, 4293915773, 2240044497,
   1873313359, 4264355552, 2734768916, 1309151649,
   4149444226, 3174756917, 718787259, 3951481745]

/-- 32-bit left rotation; the two shifted parts occupy disjoint bit ranges,
so their sum is their bitwise or. -/
def rotl32 (x s : Nat) : Nat := (x <<< s) % 4294967296 + x >>> (32 - s)

/-- UTF-8 encoding of one character (Python `str.encode()`). -/
def utf8Bytes (c : Char) : List Nat :=
  let n := c.toNat
  if n < 128 then [n]
  else if n < 2048 then [192 + n / 64, 128 + n % 64]
  else if n < 65536 then [224 + n / 4096, 128 + n / 64 % 64, 128 + n % 64]
  else [240 + n / 262144, 128 + n / 4096 % 64, 128 + n / 64 % 64, 128 + n % 64]

def encodeUtf8 (cs : Chars) : List Nat := cs.foldr (fun c acc => utf8Bytes c ++ acc) []

def md5Pad (msg : List Nat) : List Nat :=
  let padLen := (56 + 64 - (msg.length + 1) % 64) % 64
  let bitLen := msg.length * 8
  msg ++ 128 :: List.replicate padLen 0
      ++ (List.range 8).map (fun i => bitLen >>> (8 * i) % 256)

/-- Little-endian 32-bit word `g` of a 64-byte block. -/
def leWord (block : List Nat) (g : Nat) : Nat :=
  block.getD (4 * g) 0 + 256 * block.getD (4 * g + 1) 0
    + 65536 * block.getD (4 * g + 2) 0 + 16777216 * block.getD (4 * g + 3) 0

/-- One of the 64 MD5 operations (`~x` on a 32-bit word is `2³² - 1 - x`). -/
def md5Op (block : List Nat) (st : Nat × Nat × Nat × Nat) (i : Nat) :
    Nat × Nat × Nat × Nat :=
  let (a, b, c, d) := st
  let fg : Nat × Nat :=
    if i < 16 then ((b &&& c) ||| ((4294967295 - b) &&& d), i)
    else if i < 32 then ((d &&& b) ||| ((4294967295 - d) &&& c), (5 * i + 1) % 16)
    else if i < 48 then (b ^^^ c ^^^ d, (3 * i + 5) % 16)
    else (c ^^^ (b ||| (4294967295 - d)), 7 * i % 16)
  let f := (fg.1 + a + md5K.getD i 0 + leWord block fg.2) % 4294967296
  (d, (b + rotl32 f (md5S.getD i 0)) % 4294967296, b, c)

def md5Block (st : Nat × Nat × Nat × Nat) (block : List Nat) :
    Nat × Nat × Nat × Nat :=
  let r := (List.range 64).foldl (md5Op block) st
  ((st.1 + r.1) % 4294967296, (st.2.1 + r.2.1) % 4294967296,
   (st.2.2.1 + r.2.2.1) % 4294967296, (st.2.2.2 + r.2.2.2) % 4294967296)

def chunks64 : Nat → List Nat → List (List Nat)
  | 0, _ => []
  | _ + 1, [] => []
  | fuel + 1, l => l.take 64 :: chunks64 fuel (l.drop 64)

def md5Digest (msg : List Nat) : Nat × Nat × Nat × Nat :=
  (chunks64 (msg.length + 64) (md5Pad msg)).foldl md5Block
    (1732584193, 4023233417, 2562383102, 271733878)

/-- `int(hashlib.md5(receipt_id.encode()).hexdigest()[:8], 16)`: the first
eight hex digits are the four leading digest bytes, i.e. the bytes of the
final `A` word in little-endian order, read back as a big-endian number. -/
def md5HeadInt (idStr : Chars) : Nat :=
  let a := (md5Digest (encodeUtf8 idStr)).1
  a % 256 * 16777216 + a >>> 8 % 256 * 65536 + a >>> 16 % 256 * 256 + a >>> 24 % 256

/-! ### `enhanced_ocr.py` -/

structure EnhItem where
  descr : Chars
  amount : ℚ
deriving DecidableEq, Repr

structure EnhancedData where
  vendor : Option Chars
  total : Option ℚ
  purchase_date : Option YMD
  items : List EnhItem
deriving DecidableEq, Repr

/-- Python `str.lower` for the characters of this code base.  (Python
lowers 'İ' to 'i' plus a combining dot; that two-character result matters
only for substring tests, which is how it is used here.) -/
def pyLowerChar (c : Char) : Chars :=
  if 'A' ≤ c ∧ c ≤ 'Z' then [Char.ofNat (c.toNat + 32)]
  else if c = 'Ç' then ['ç']
  else if c = 'Ğ' then ['ğ']
  else if c = 'İ' then ['i', '̇']
  else if c = 'Ö' then ['ö']
  else if c = 'Ş' then ['ş']
  else if c = 'Ü' then ['ü']
  else [c]

def pyLower (cs : Chars) : Chars := cs.foldr (fun c acc => pyLowerChar c ++ acc) []

/-- Case-insensitive character comparison (`re.IGNORECASE`), via the common
upper case. -/
def charCI (a b : Char) : Bool := pyUpperChar a = pyUpperChar b

/-- Case-insensitively match a literal, returning the rest. -/
def matchCIWord : Chars → Chars → Option Chars
  | [], cs => some cs
  | _ :: _, [] => none
  | k :: ks, c :: cs => if charCI k c then matchCIWord ks cs else none

def startsWithCI (kw : Chars) (cs : Chars) : Bool := (matchCIWord kw cs).isSome

def isAsciiUpper (c : Char) : Bool := 'A' ≤ c && c ≤ 'Z'
def isAsciiLower (c : Char) : Bool := 'a' ≤ c && c ≤ 'z'

/-- `extract_vendor_name` strategy-1 exclusions (anchored `re.match`,
IGNORECASE). -/
def enhExcluded (first : Chars) : Bool :=
  (first ≠ [] && first.all isPyDigit)
  || (matchCIWord "receipt".data first = some [])
  || (matchCIWord "customer copy".data first = some [])
  || startsWithCI "date:".data first
  || startsWithCI "time:".data first

/-- `([A-Z][a-z]+ [A-Z][a-z]+)` at one position. -/
def b1At (cs : Chars) : Option Chars :=
  match cs with
  | c1 :: r1 =>
    if isAsciiUpper c1 then
      let l1 := r1.takeWhile isAsciiLower
      if l1 = [] then none
      else
        match r1.drop l1.length with
        | ' ' :: (c2 :: r2) =>
          if isAsciiUpper c2 then
            let l2 := r2.takeWhile isAsciiLower
            if l2 = [] then none
            else some (c1 :: l1 ++ ' ' :: c2 :: l2)
          else none
        | _ => none
    else none
  | [] => none

/-- `([A-Z]{2,})` at one position (greedy maximal run of ≥ 2). -/
def b2At (cs : Chars) : Option Chars :=
  let run := cs.takeWhile isAsciiUpper
  if 2 ≤ run.length then some run else none

def b3Suffixes : List String :=
  ["INC", "LLC", "CORP", "CO", "STORE", "SHOP", "MARKET", "RESTAURANT", "CAFE"]

def b3Class (c : Char) : Bool :=
  isAsciiUpper c || isAsciiLower c || isPySpace c || c = '&'

/-- backtracking of `[A-Za-z\s&]+(?:INC|…)`: the greedy `+` gives
characters back from the right, so the rightmost split at which one of the
suffix alternatives (tried in order) matches wins. -/
def b3Split (run : Chars) : Option Chars :=
  (List.range run.length).reverse.foldl
    (fun acc k =>
      match acc with
      | some r => some r
      | none =>
        if 1 ≤ k then
          match b3Suffixes.find? (fun u => startsWithL u.data (run.drop k)) with
          | some u => some (run.take k ++ u.data)
          | none => none
        else none)
    none

/-- `((?:THE |THE\s+)?[A-Z][A-Za-z\s&]+(?:INC|…))` at one position. -/
def b3At (cs : Chars) : Option Chars :=
  let core : Chars → Option Chars := fun r =>
    match r with
    | c0 :: r0 =>
      if isAsciiUpper c0 then
        (b3Split (r0.takeWhile b3Class)).map (fun body => c0 :: body)
      else none
    | [] => none
  if startsWithL "THE ".data cs then
    match core (cs.drop 4) with
    | some g => some ("THE ".data ++ g)
    | none =>
      -- second alternative `THE\s+`, then the keyword-less one
      (match core (dropSpaces (cs.drop 3)) with
       | some g => some ("THE".data ++ (cs.drop 3).takeWhile isPySpace ++ g)
       | none => core cs)
  else if startsWithL "THE".data cs ∧ headSpace (cs.drop 3) then
    match core (dropSpaces (cs.drop 3)) with
    | some g => some ("THE".data ++ (cs.drop 3).takeWhile isPySpace ++ g)
    | none => core cs
  else core cs

/-- `extract_vendor_name` of `enhanced_ocr.py` (lines 54-94). -/
def enhExtractVendor (lines : List Chars) (fullText : Chars) : Option Chars :=
  let strat1 : Option Chars :=
    match lines with
    | first :: _ =>
      let f := pyStrip first
      if ¬ enhExcluded f ∧ 2 < f.length ∧ f.length < 50 then some f else none
    | [] => none
  match strat1 with
  | some v => some v
  | none =>
    let strat2 :=
      [b1At, b2At, b3At].foldl
        (fun acc m =>
          match acc with
          | some v => some v
          | none =>
            match searchFirst m fullText with
            | some g =>
              let v := pyStrip g
              if 3 ≤ v.length ∧ v.length ≤ 40 then some v else none
            | none => none)
        none
    match strat2 with
    | some v => some v
    | none =>
      let kws : List String := ["store", "shop", "market", "restaurant", "cafe", "inc", "llc", "corp"]
      (lines.take 5).find? (fun line =>
        kws.any (fun k => containsL k.data (pyLower line))
          && decide (3 ≤ line.length ∧ line.length ≤ 40))

/-- The amount group `([0-9]+\.?[0-9]{0,2})` (greedy; the `[0-9]{0,2}` can
only be non-empty after the optional dot, since `[0-9]+` is maximal). -/
def enhAmountGroup (cs : Chars) : Option (Chars × Chars) :=
  let d1 := cs.takeWhile isPyDigit
  if d1 = [] then none
  else
    match cs.drop d1.length with
    | '.' :: r2 =>
      let d2 := (r2.takeWhile isPyDigit).take 2
      some (d1 ++ '.' :: d2, r2.drop d2.length)
    | r => some (d1, r)

/-- `kw₁\s+kw₂…[:\s]*\$?\s*([0-9]+\.?[0-9]{0,2})` at one position
(IGNORECASE; `grand\s+total` is the only multi-word keyword). -/
def enhKwAmountAt (words : List String) (cs : Chars) : Option (Chars × Chars) := do
  let rec goWords : List String → Chars → Option Chars
    | [], r => some r
    | [w], r => matchCIWord w.data r
    | w :: ws, r => do
      let r1 ← matchCIWord w.data r
      let sp := r1.takeWhile isPySpace
      if sp = [] then none else goWords ws (r1.drop sp.length)
  let r1 ← goWords words cs
  let r2 := r1.dropWhile (fun c => c = ':' || isPySpace c)
  let r3 := match r2 with
            | '$' :: t => dropSpaces t
            | _ => dropSpaces r2
  enhAmountGroup r3

/-- `(?:^|\s)\$([0-9]+\.[0-9]{2})(?:\s|$)`: needs a fixed-form dollar
amount; the anchor consumes a whitespace character unless at the start. -/
def enhDollarAt (cs : Chars) : Option (Chars × Chars) :=
  match cs with
  | '$' :: r =>
    let d1 := r.takeWhile isPyDigit
    if d1 = [] then none
    else
      match r.drop d1.length with
      | '.' :: a :: b :: rest =>
        if a.isDigit ∧ b.isDigit then
          match rest with
          | [] => some (d1 ++ '.' :: [a, b], [])
          | c :: rest' => if isPySpace c then some (d1 ++ '.' :: [a, b], rest') else none
        else none
      | _ => none
  | _ => none

def scanE6Aux : Nat → Bool → Chars → List Chars
  | 0, _, _ => []
  | _ + 1, _, [] => []
  | fuel + 1, atStart, c :: cs =>
    if atStart then
      match enhDollarAt (c :: cs) with
      | some (g, rest) => g :: scanE6Aux fuel false rest
      | none => scanE6Aux fuel false cs
    else if isPySpace c then
      match enhDollarAt cs with
      | some (g, rest) => g :: scanE6Aux fuel false rest
      | none => scanE6Aux fuel false cs
    else scanE6Aux fuel false cs

def scanE6 (cs : Chars) : List Chars := scanE6Aux (cs.length + 1) true cs

/-- `([0-9]+\.[0-9]{2})\s*(?:total|amount|balance)` (IGNORECASE). -/
def enhTrailKwAt (cs : Chars) : Option (Chars × Chars) :=
  let d1 := cs.takeWhile isPyDigit
  if d1 = [] then none
  else
    match cs.drop d1.length with
    | '.' :: a :: b :: rest =>
      if a.isDigit ∧ b.isDigit then
        let r := dropSpaces rest
        match ["total", "amount", "balance"].findSome?
            (fun k => matchCIWord k.data r) with
        | some r' => some (d1 ++ '.' :: [a, b], r')
        | none => none
      else none
    | _ => none

/-- `extract_total_amount` of `enhanced_ocr.py` (lines 96-127): collect the
pattern-major list of in-range amounts and return the first. -/
def enhExtractTotal (text : Chars) : Option ℚ :=
  let pats : List (Chars → Option (Chars × Chars)) :=
    [ enhKwAmountAt ["total"],
      enhKwAmountAt ["amount"],
      enhKwAmountAt ["balance"],
      enhKwAmountAt ["grand", "total"],
      enhKwAmountAt ["subtotal"] ]
  let groups :=
    (pats.map (fun m => scan m text)).foldr (· ++ ·) []
      ++ scanE6 text
      ++ scan enhTrailKwAt text
  let validated := (groups.map (fun g => (pyFloat? g).getD 0)).filter
    (fun a => (1 : ℚ) / 100 ≤ a ∧ a ≤ (999999 : ℚ) / 100)
  validated.head?

/-! #### `extract_purchase_date` of `enhanced_ocr.py` (lines 129-165) -/

/-- A `strptime` format directive. -/
inductive FTok
  | dm    -- %m (the strptime month alternation)
  | dd    -- %d
  | dY    -- %Y (exactly four digits)
  | dy    -- %y (exactly two digits, 69 pivot)
  | monB  -- %b
  | litc (c : Char)  -- a literal; a space matches a whitespace run
deriving Repr

def monthAbbrevs : List String :=
  ["JAN", "FEB", "MAR", "APR", "MAY", "JUN", "JUL", "AUG", "SEP", "OCT", "NOV", "DEC"]

/-- strptime `%m`: the alternation `1[0-2]|0[1-9]|[1-9]` — two digits when
they form 10-12 or 01-09, else one digit 1-9. -/
def takeMonth (cs : Chars) : Option (Nat × Chars) :=
  match cs with
  | a :: b :: rest =>
    if a.isDigit ∧ b.isDigit then
      let v := (a.toNat - 48) * 10 + (b.toNat - 48)
      if (10 ≤ v ∧ v ≤ 12) ∨ (a = '0' ∧ 1 ≤ v ∧ v ≤ 9) then some (v, rest)
      else if 1 ≤ a.toNat - 48 then some (a.toNat - 48, b :: rest) else none
    else if a.isDigit ∧ 1 ≤ a.toNat - 48 then some (a.toNat - 48, b :: rest)
    else none
  | [a] => if a.isDigit ∧ 1 ≤ a.toNat - 48 then some (a.toNat - 48, []) else none
  | [] => none

/-- strptime `%d`: `3[01]|[12]\d|0[1-9]|[1-9]`. -/
def takeDay (cs : Chars) : Option (Nat × Chars) :=
  match cs with
  | a :: b :: rest =>
    if a.isDigit ∧ b.isDigit then
      let v := (a.toNat - 48) * 10 + (b.toNat - 48)
      if (30 ≤ v ∧ v ≤ 31) ∨ (10 ≤ v ∧ v ≤ 29) ∨ (a = '0' ∧ 1 ≤ v ∧ v ≤ 9) then some (v, rest)
      else if 1 ≤ a.toNat - 48 then some (a.toNat - 48, b :: rest) else none
    else if a.isDigit ∧ 1 ≤ a.toNat - 48 then some (a.toNat - 48, b :: rest)
    else none
  | [a] => if a.isDigit ∧ 1 ≤ a.toNat - 48 then some (a.toNat - 48, []) else none
  | [] => none

def takeY4 (cs : Chars) : Option (Nat × Chars) :=
  match cs with
  | a :: b :: c :: d :: rest =>
    if a.isDigit ∧ b.isDigit ∧ c.isDigit ∧ d.isDigit then
      some (digitsToNat [a, b, c, d], rest)
    else none
  | _ => none

def takeY2 (cs : Chars) : Option (Nat × Chars) :=
  match cs with
  | a :: b :: rest =>
    if a.isDigit ∧ b.isDigit then
      let v := digitsToNat [a, b]
      some (if v < 69 then 2000 + v else 1900 + v, rest)
    else none
  | _ => none

def takeMonB (cs : Chars) : Option (Nat × Chars) :=
  match (monthAbbrevs.enum).findSome?
      (fun im => (matchCIWord im.2.data cs).map (fun r => (im.1 + 1, r))) with
  | some (m, r) => some (m, r)
  | none => none

/-- A miniature `datetime.strptime` over the format directives used by
`extract_purchase_date`: parse the tokens, require the whole string
consumed, and validate the resulting calendar date (year default 1900). -/
def strptime (fmt : List FTok) (cs : Chars) : Option YMD := do
  let st ← fmt.foldlM
    (fun (st : Chars × Nat × Nat × Nat) tok => do
      let (r, y, m, d) := st
      match tok with
      | .dm => let (v, r') ← takeMonth r; pure (r', y, v, d)
      | .dd => let (v, r') ← takeDay r; pure (r', y, m, v)
      | .dY => let (v, r') ← takeY4 r; pure (r', v, m, d)
      | .dy => let (v, r') ← takeY2 r; pure (r', v, m, d)
      | .monB => let (v, r') ← takeMonB r; pure (r', y, v, d)
      | .litc c =>
        if isPySpace c then
          let sp := r.takeWhile isPySpace
          if sp = [] then none else pure (r.drop sp.length, y, m, d)
        else
          match r with
          | c' :: r' => if c' = c then pure (r', y, m, d) else none
          | [] => none)
    (cs, 1900, 1, 1)
  let (rest, y, m, d) := st
  if rest = [] ∧ 1 ≤ m ∧ m ≤ 12 ∧ 1 ≤ d ∧ d ≤ daysInMonth y m then
    some ⟨y, m, d⟩
  else none

def isWordChar (c : Char) : Bool := pyIsAlpha c || isPyDigit c || c = '_'

/-- `(\w{3}\s+\d{1,2},?\s+\d{4})`. -/
def enhD5At (cs : Chars) : Option Chars :=
  match cs with
  | a :: b :: c :: rest =>
    if isWordChar a ∧ isWordChar b ∧ isWordChar c then do
      let sp1 := rest.takeWhile isPySpace
      if sp1 = [] then none
      else
        let r1 := rest.drop sp1.length
        let d := r1.takeWhile isPyDigit
        if d = [] ∨ 2 < d.length then none
        else
          let r2 := r1.drop d.length
          let (com, r3) : Chars × Chars :=
            match r2 with
            | ',' :: t => ([','], t)
            | _ => ([], r2)
          let sp2 := r3.takeWhile isPySpace
          if sp2 = [] then none
          else
            let r4 := r3.drop sp2.length
            let dy := r4.takeWhile isPyDigit
            if dy.length < 4 then none
            else some ([a, b, c] ++ sp1 ++ d ++ com ++ sp2 ++ dy.take 4)
    else none
  | _ => none

/-- `(\d{1,2}\s+\w{3}\s+\d{4})`. -/
def enhD6At (cs : Chars) : Option Chars :=
  let d := cs.takeWhile isPyDigit
  if d = [] ∨ 2 < d.length then none
  else
    let r1 := cs.drop d.length
    let sp1 := r1.takeWhile isPySpace
    if sp1 = [] then none
    else
      match r1.drop sp1.length with
      | a :: b :: c :: rest =>
        if isWordChar a ∧ isWordChar b ∧ isWordChar c then
          let sp2 := rest.takeWhile isPySpace
          if sp2 = [] then none
          else
            let dy := (rest.drop sp2.length).takeWhile isPyDigit
            if dy.length < 4 then none
            else some (d ++ sp1 ++ [a, b, c] ++ sp2 ++ dy.take 4)
        else none
      | _ => none

/-- `(\w{3}\s+\d{1,2})`. -/
def enhD7At (cs : Chars) : Option Chars :=
  match cs with
  | a :: b :: c :: rest =>
    if isWordChar a ∧ isWordChar b ∧ isWordChar c then
      let sp := rest.takeWhile isPySpace
      if sp = [] then none
      else
        let d := ((rest.drop sp.length).takeWhile isPyDigit).take 2
        if d = [] then none else some ([a, b, c] ++ sp ++ d)
    else none
  | _ => none

/-- `(\d{4}-\d{2}-\d{2})` (exact widths; a longer run at any field leaves a
digit where `-` must match). -/
def enhD2At (cs : Chars) : Option Chars :=
  let d1 := cs.takeWhile isPyDigit
  if d1.length ≠ 4 then none
  else
    match cs.drop 4 with
    | '-' :: r1 =>
      let d2 := r1.takeWhile isPyDigit
      if d2.length ≠ 2 then none
      else
        match r1.drop 2 with
        | '-' :: r2 =>
          let d3 := r2.takeWhile isPyDigit
          if d3.length ≠ 2 then none
          else some (d1 ++ '-' :: (d2 ++ '-' :: d3))
        | _ => none
    | _ => none

/-- The seven (pattern, formats) pairs of `extract_purchase_date`
(lines 133-141). -/
def enhDatePatterns : List ((Chars → Option Chars) × List (List FTok)) :=
  [ (matchDateGroup (· = '/') false 1 4 4,
      [[.dm, .litc '/', .dd, .litc '/', .dY], [.dd, .litc '/', .dm, .litc '/', .dY]]),
    (enhD2At, [[.dY, .litc '-', .dm, .litc '-', .dd]]),
    (matchDateGroup (· = '/') false 1 2 2,
      [[.dm, .litc '/', .dd, .litc '/', .dy], [.dd, .litc '/', .dm, .litc '/', .dy]]),
    (matchDateGroup (· = '/') false 2 4 4,
      [[.dm, .litc '/', .dd, .litc '/', .dY], [.dd, .litc '/', .dm, .litc '/', .dY]]),
    (enhD5At,
      [[.monB, .litc ' ', .dd, .litc ',', .litc ' ', .dY], [.monB, .litc ' ', .dd, .litc ' ', .dY]]),
    (enhD6At, [[.dd, .litc ' ', .monB, .litc ' ', .dY]]),
    (enhD7At, [[.monB, .litc ' ', .dd]]) ]

/-- All matches of a pattern, in order (`re.finditer`): these date patterns
consist solely of their capture group, so the scan continues right after
the returned group. -/
def scanGroupsAux (m : Chars → Option Chars) : Nat → Chars → List Chars
  | 0, _ => []
  | _ + 1, [] => []
  | fuel + 1, c :: cs =>
    match m (c :: cs) with
    | some g => g :: scanGroupsAux m fuel ((c :: cs).drop (max 1 g.length))
    | none => scanGroupsAux m fuel cs

def scanGroups (m : Chars → Option Chars) (cs : Chars) : List Chars :=
  scanGroupsAux m (cs.length + 1) cs

/-- `extract_purchase_date` of `enhanced_ocr.py`: first match of the first
pattern that parses under one of its formats and lands in
`[2020, current_year + 1]` after the year-1900 → current-year default. -/
def enhExtractPurchaseDate (text : Chars) (currentYear : Nat) : Option YMD :=
  enhDatePatterns.findSome? (fun pf =>
    (scanGroups pf.1 text).findSome? (fun g =>
      pf.2.findSome? (fun fmt =>
        match strptime fmt g with
        | some d =>
          let d := if d.year = 1900 then { d with year := currentYear } else d
          if 2020 ≤ d.year ∧ d.year ≤ currentYear + 1 then some d else none
        | none => none)))

/-! #### `extract_line_items` of `enhanced_ocr.py` (lines 167-190) -/

/-- First match of `\$?([0-9]+\.?[0-9]*)`: its group always starts at the
first digit of the line (a leading `\$?` does not change the group). -/
def enhPriceGroup? : Chars → Option Chars
  | [] => none
  | c :: cs =>
    if isPyDigit c then
      let d1 := (c :: cs).takeWhile isPyDigit
      match (c :: cs).drop d1.length with
      | '.' :: r2 => some (d1 ++ '.' :: r2.takeWhile isPyDigit)
      | _ => some d1
    else enhPriceGroup? cs

/-- `re.sub(r'\$?[0-9]+\.?[0-9]*.*$', '', line)`: cut at the first digit
(or dollar-sign-then-digit) position. -/
def cutPriceTail : Chars → Chars
  | [] => []
  | c :: cs =>
    if isPyDigit c || (c = '$' && (match cs with
                                   | d :: _ => isPyDigit d
                                   | [] => false)) then []
    else c :: cutPriceTail cs

def enhExtractLineItems (lines : List Chars) : List EnhItem :=
  ((lines.drop 1).foldl
    (fun acc line =>
      match enhPriceGroup? line with
      | some g =>
        let descr := pyStrip (cutPriceTail line)
        if 2 < descr.length then
          let amount := (pyFloat? g).getD 0   -- `Decimal(group)`, exact
          if (1 : ℚ) / 100 ≤ amount ∧ amount ≤ (99999 : ℚ) / 100 then
            acc ++ [⟨descr.take 50, amount⟩]
          else acc
        else acc
      | none => acc)
    []).take 10

/-! #### `generate_mock_data` and `extract_receipt_data_enhanced` -/

def mockVendors : List String :=
  ["Target", "Walmart", "Costco", "Office Depot", "Starbucks",
   "Shell Gas Station", "Home Depot", "Best Buy", "Amazon Fresh",
   "FedEx Office", "CVS Pharmacy", "Subway", "McDonald's",
   "Kroger", "Safeway", "Whole Foods", "Dollar General"]

def mockAmounts : List ℚ :=
  [1599/100, 2550/100, 4567/100, 7890/100, 1234/100, 8945/100, 15678/100,
   23456/100, 6789/100, 9876/100, 2345/100, 13467/100, 5678/100, 18790/100]

/-- `generate_mock_data` (lines 192-226): deterministic mock values keyed
by the md5 of the receipt id; the mock date shifts `today` back by
`hash % 30` days within the month (clamped to day 1). -/
def generateMockData (receiptId : Chars) (today : YMD) : EnhancedData :=
  let h := md5HeadInt receiptId
  let vendor := (mockVendors.getD (h % 17) "").data
  let amount := mockAmounts.getD (h % 14) 0
  let daysAgo := h % 30
  let day := if today.day > daysAgo then today.day - daysAgo else 1
  { vendor := some vendor, total := some amount,
    purchase_date := some ⟨today.year, today.month, day⟩,
    items := [⟨"Item from ".data ++ vendor, amount⟩] }

/-- `extract_receipt_data_enhanced` (lines 12-52): run the four extractors;
when the vendor or the total is missing, `data.update(mock_data)`
overwrites all four fields with the mock values. -/
def extractReceiptDataEnhanced (text receiptId : Chars) (today : YMD) : EnhancedData :=
  let lines := ((splitNl (pyStrip text)).map pyStrip).filter (· ≠ [])
  let vendor := enhExtractVendor lines text
  let total := enhExtractTotal text
  let purchaseDate := enhExtractPurchaseDate text today.year
  let items := enhExtractLineItems lines
  let base : EnhancedData :=
    { vendor := vendor, total := total, purchase_date := purchaseDate, items := items }
  if vendor.isNone || total.isNone then
    generateMockData receiptId today
  else base

/-! ### Statement helpers -/

/-- The exact value of a receipt amount written `ds,ab` (comma decimal). -/
def amtVal (ds : Chars) (a b : Char) : ℚ :=
  digitsToNat ds + (((a.toNat - 48) * 10 + (b.toNat - 48) : ℕ) : ℚ) / 100

/-- A receipt line of the shape `KW…ds,ab TL` (the keyword part `kw`
includes its separator, e.g. `TOPLAM: `). -/
def kwAmtLine (kw : String) (ds : Chars) (a b : Char) : Chars :=
  kw.data ++ ds ++ ',' :: a :: b :: " TL".data

/-! ## Lemmas -/

/-! ### Generic list and scan lemmas -/

theorem takeWhile_append_all {p : Char → Bool} {l r : Chars}
    (h : ∀ c ∈ l, p c = true) :
    (l ++ r).takeWhile p = l ++ r.takeWhile p := by
  induction l with
  | nil => rfl
  | cons c cs ih =>
    simp only [List.cons_append, List.takeWhile_cons, h c (by simp)]
    simp [ih fun c hc => h c (by simp [hc])]

theorem dropWhile_append_all {p : Char → Bool} {l r : Chars}
    (h : ∀ c ∈ l, p c = true) :
    (l ++ r).dropWhile p = r.dropWhile p := by
  induction l with
  | nil => rfl
  | cons c cs ih =>
    simp only [List.cons_append, List.dropWhile_cons, h c (by simp)]
    exact ih fun c hc => h c (by simp [hc])

theorem takeWhile_eq_nil_of_head {p : Char → Bool} {c : Char} {cs : Chars}
    (h : p c = false) : (c :: cs).takeWhile p = [] := by
  simp [List.takeWhile_cons, h]

theorem dropWhile_cons_of_neg {p : Char → Bool} {c : Char} {cs : Chars}
    (h : p c = false) : (c :: cs).dropWhile p = c :: cs := by
  simp [List.dropWhile_cons, h]

theorem takeWhile_eq_self_of_all {p : Char → Bool} {l : Chars}
    (h : ∀ c ∈ l, p c = true) : l.takeWhile p = l := by
  have := takeWhile_append_all (r := ([] : Chars)) h
  simpa using this

theorem dropWhile_eq_self_of_all_neg {p : Char → Bool} {l : Chars}
    (h : ∀ c ∈ l, p c = false) : l.dropWhile p = l := by
  cases l with
  | nil => rfl
  | cons c cs => exact dropWhile_cons_of_neg (h c (by simp))

theorem filter_eq_self_of_all {p : Char → Bool} {l : Chars}
    (h : ∀ c ∈ l, p c = true) : l.filter p = l :=
  List.filter_eq_self.2 h

theorem startsWithL_append_of (w t r : Chars) (h : startsWithL w t = true) :
    startsWithL w (t ++ r) = true := by
  induction w generalizing t with
  | nil => rfl
  | cons x xs ih =>
    cases t with
    | nil => simp [startsWithL] at h
    | cons c cs =>
      simp only [startsWithL, Bool.and_eq_true, decide_eq_true_eq] at h
      simp only [List.cons_append, startsWithL, Bool.and_eq_true, decide_eq_true_eq]
      exact ⟨h.1, ih cs h.2⟩

theorem containsL_append_left {w t : Chars} (r : Chars)
    (h : containsL w t = true) : containsL w (t ++ r) = true := by
  induction t with
  | nil =>
    simp only [containsL, List.isEmpty_iff] at h
    subst h; cases r <;> simp [containsL, startsWithL]
  | cons c cs ih =>
    simp only [containsL, Bool.or_eq_true] at h
    rcases h with h | h
    · have := startsWithL_append_of w (c :: cs) r h
      simp only [List.cons_append] at this
      simp [containsL, this]
    · simp [containsL, ih h]

theorem startsWithL_subset {w t : Chars} (h : startsWithL w t = true) :
    ∀ c ∈ w, c ∈ t := by
  induction w generalizing t with
  | nil => simp
  | cons x xs ih =>
    cases t with
    | nil => simp [startsWithL] at h
    | cons c cs =>
      simp only [startsWithL, Bool.and_eq_true, decide_eq_true_eq] at h
      intro a ha
      rcases List.mem_cons.1 ha with rfl | ha
      · simp [h.1]
      · exact List.mem_cons_of_mem _ (ih h.2 a ha)

theorem containsL_subset {w t : Chars} (h : containsL w t = true) :
    ∀ c ∈ w, c ∈ t := by
  induction t with
  | nil =>
    simp only [containsL, List.isEmpty_iff] at h
    subst h; simp
  | cons c cs ih =>
    simp only [containsL, Bool.or_eq_true] at h
    rcases h with h | h
    · exact startsWithL_subset h
    · intro a ha; exact List.mem_cons_of_mem _ (ih h a ha)

theorem containsL_eq_false_of_missing {w t : Chars} {ch : Char}
    (hw : ch ∈ w) (ht : ch ∉ t) : containsL w t = false := by
  by_contra h
  exact ht (containsL_subset (by simpa using h) ch hw)

/-- A matcher that always consumes at least one character on success. -/
def Consumes (m : Chars → Option (Chars × Chars)) : Prop :=
  ∀ cs g r, m cs = some (g, r) → r.length < cs.length

/-- A matcher that fails whenever the first character is outside `S`. -/
def HeadSet (m : Chars → Option (Chars × Chars)) (S : List Char) : Prop :=
  ∀ c cs, c ∉ S → m (c :: cs) = none

theorem scanAux_fuel_inv {m : Chars → Option (Chars × Chars)} (hm : Consumes m) :
    ∀ f₁ f₂ cs, cs.length + 1 ≤ f₁ → cs.length + 1 ≤ f₂ →
      scanAux m f₁ cs = scanAux m f₂ cs := by
  intro f₁
  induction f₁ with
  | zero => intro f₂ cs h; omega
  | succ f ih =>
    intro f₂ cs h1 h2
    cases f₂ with
    | zero => omega
    | succ f' =>
      cases cs with
      | nil => rfl
      | cons c cs =>
        simp only [scanAux]
        cases hmc : m (c :: cs) with
        | none =>
          exact ih f' cs (by simp at h1; omega) (by simp at h2; omega)
        | some gr =>
          have := hm _ _ _ hmc
          simp only at this ⊢
          rw [ih f' gr.2 (by simp at h1 this; omega) (by simp at h2 this; omega)]

theorem scan_nil (m : Chars → Option (Chars × Chars)) : scan m [] = [] := rfl

theorem scan_cons_none {m : Chars → Option (Chars × Chars)} {c : Char} {cs : Chars}
    (h : m (c :: cs) = none) : scan m (c :: cs) = scan m cs := by
  simp [scan, scanAux, h]

theorem scan_cons_some {m : Chars → Option (Chars × Chars)} (hm : Consumes m)
    {c : Char} {cs g r : Chars} (h : m (c :: cs) = some (g, r)) :
    scan m (c :: cs) = g :: scan m r := by
  have hr := hm _ _ _ h
  simp only [scan, List.length_cons, scanAux, h]
  congr 1
  exact scanAux_fuel_inv hm _ _ _ (by simp at hr ⊢; omega) (by omega)

theorem scan_skip {m : Chars → Option (Chars × Chars)} {S : List Char}
    (hh : HeadSet m S) (pre : Chars) (rest : Chars)
    (h : ∀ c ∈ pre, c ∉ S) : scan m (pre ++ rest) = scan m rest := by
  induction pre with
  | nil => rfl
  | cons c cs ih =>
    rw [List.cons_append, scan_cons_none (hh c _ (h c (by simp)))]
    exact ih fun c hc => h c (by simp [hc])

theorem scan_eq_nil {m : Chars → Option (Chars × Chars)} {S : List Char}
    (hh : HeadSet m S) (cs : Chars) (h : ∀ c ∈ cs, c ∉ S) : scan m cs = [] := by
  have := scan_skip hh cs [] h
  simpa using this

/-! ### Character class facts -/

theorem digit_not_space {c : Char} (h : isPyDigit c = true) : isPySpace c = false := by
  by_contra hs
  rw [Bool.not_eq_false] at hs
  have hd : c = ' ' ∨ c = '\t' ∨ c = '\n' ∨ c = '\r' ∨ c = '\x0b' ∨ c = '\x0c' := by
    simpa [isPySpace, or_assoc] using hs
  rcases hd with rfl | rfl | rfl | rfl | rfl | rfl <;> exact absurd h (by decide)

theorem digit_ne {c x : Char} (h : isPyDigit c = true) (hx : isPyDigit x = false) :
    c ≠ x := by
  rintro rfl
  rw [h] at hx
  simp at hx

/-! ### Matcher consumption -/

theorem dropSpaces_length (cs : Chars) : (dropSpaces cs).length ≤ cs.length := by
  induction cs with
  | nil => simp [dropSpaces]
  | cons c cs ih =>
    simp only [dropSpaces, List.dropWhile_cons]
    split
    · exact le_trans ih (by simp)
    · simp

theorem matchCSpec_some_length {sp : CSpec} {cs r : Chars}
    (h : matchCSpec sp cs = some r) : r.length ≤ cs.length := by
  cases cs with
  | nil =>
    simp only [matchCSpec] at h
    split at h
    · simp only [Option.some_inj] at h; subst h; simp
    · exact absurd h (by simp)
  | cons c cs' =>
    simp only [matchCSpec] at h
    split at h
    · simp only [Option.some_inj] at h; subst h; simp
    · split at h
      · simp only [Option.some_inj] at h; subst h; simp
      · exact absurd h (by simp)

theorem matchCSpec_some_length_strict {sp : CSpec} {cs r : Chars}
    (ho : sp.opt = false) (h : matchCSpec sp cs = some r) : r.length < cs.length := by
  cases cs with
  | nil => simp [matchCSpec, ho] at h
  | cons c cs' =>
    simp only [matchCSpec] at h
    split at h
    · simp only [Option.some_inj] at h; subst h; simp
    · rw [ho] at h; simp at h

theorem matchWord_some_length : ∀ (w : List CSpec) (cs r : Chars),
    matchWord w cs = some r → r.length ≤ cs.length := by
  intro w
  induction w with
  | nil => intro cs r h; simp [matchWord] at h; simp [← h]
  | cons sp sps ih =>
    intro cs r h
    simp only [matchWord, Option.bind_eq_some] at h
    obtain ⟨mid, hm, hr⟩ := h
    exact le_trans (ih mid r hr) (matchCSpec_some_length hm)

theorem matchWord_some_length_strict {sp : CSpec} {sps : List CSpec} {cs r : Chars}
    (ho : sp.opt = false) (h : matchWord (sp :: sps) cs = some r) :
    r.length < cs.length := by
  simp only [matchWord, Option.bind_eq_some] at h
  obtain ⟨mid, hm, hr⟩ := h
  exact lt_of_le_of_lt (matchWord_some_length sps mid r hr)
    (matchCSpec_some_length_strict ho hm)

theorem matchToks_some_length : ∀ (toks : List (List CSpec)) (cs r : Chars),
    matchToks toks cs = some r → r.length ≤ cs.length := by
  intro toks
  induction toks with
  | nil => intro cs r h; simp [matchToks] at h; simp [← h]
  | cons w ws ih =>
    intro cs r h
    cases ws with
    | nil => exact matchWord_some_length w cs r h
    | cons w' ws' =>
      simp only [matchToks, Option.bind_eq_some] at h
      obtain ⟨mid, hm, hr⟩ := h
      calc r.length ≤ (dropSpaces mid).length := ih _ _ hr
        _ ≤ mid.length := dropSpaces_length mid
        _ ≤ cs.length := matchWord_some_length w cs mid hm

theorem matchToks_some_length_strict {sp : CSpec} {w : List CSpec}
    {toks' : List (List CSpec)} {cs r : Chars} (ho : sp.opt = false)
    (h : matchToks ((sp :: w) :: toks') cs = some r) : r.length < cs.length := by
  cases toks' with
  | nil => exact matchWord_some_length_strict ho h
  | cons w' ws' =>
    simp only [matchToks, Option.bind_eq_some] at h
    obtain ⟨mid, hm, hr⟩ := h
    calc r.length ≤ (dropSpaces mid).length := matchToks_some_length _ _ _ hr
      _ ≤ mid.length := dropSpaces_length mid
      _ < cs.length := matchWord_some_length_strict ho hm

theorem dropWhile_length_le (p : Char → Bool) (cs : Chars) :
    (cs.dropWhile p).length ≤ cs.length := by
  induction cs with
  | nil => simp
  | cons c cs ih =>
    rw [List.dropWhile_cons]
    split
    · exact le_trans ih (by simp)
    · simp

theorem matchSep_length (cs : Chars) : (matchSep cs).length ≤ cs.length := by
  have hds := dropWhile_length_le isPySpace cs
  unfold matchSep
  split
  case h_1 c t heq =>
    rw [heq] at hds
    simp only [List.length_cons] at hds
    split
    · have h2 := dropSpaces_length t
      omega
    · simpa using hds
  case h_2 => simp

theorem matchAst_length (cs : Chars) : (matchAst cs).length ≤ cs.length := by
  unfold matchAst
  split
  case h_1 t =>
    have := dropSpaces_length t
    simp only [List.length_cons]
    omega
  case h_2 => simp

theorem matchAmountNum_some_length {spaced : Bool} {cs g r : Chars}
    (h : matchAmountNum spaced cs = some (g, r)) : r.length ≤ cs.length := by
  have base : (cs.dropWhile isPyDigit).length ≤ cs.length := dropWhile_length_le _ cs
  unfold matchAmountNum at h
  split at h
  · exact absurd h (by simp)
  · split at h
    case h_2 => exact absurd h (by simp)
    case h_1 sep r3 heq =>
      have er3 : r3.length + 1 ≤ cs.length := by
        have : ((if spaced then (cs.dropWhile isPyDigit).dropWhile isPySpace
            else cs.dropWhile isPyDigit)).length ≤ (cs.dropWhile isPyDigit).length := by
          split
          · exact dropWhile_length_le _ _
          · exact le_refl _
        rw [heq] at this
        simp only [List.length_cons] at this
        omega
      split at h
      · split at h
        case h_2 => exact absurd h (by simp)
        case h_1 a b r5 heq2 =>
          have er5 : r5.length + 2 ≤ r3.length + 2 := by
            have : ((if spaced then r3.dropWhile isPySpace else r3)).length ≤ r3.length := by
              split
              · exact dropWhile_length_le _ _
              · exact le_refl _
            rw [heq2] at this
            simp only [List.length_cons] at this
            omega
          split at h
          · simp only [Option.some_inj, Prod.mk.injEq] at h
            rw [← h.2]
            omega
          · exact absurd h (by simp)
      · exact absurd h (by simp)

theorem matchTLSfx_length {sfx : TLSfx} {cs r : Chars}
    (h : matchTLSfx sfx cs = some r) : r.length ≤ cs.length := by
  have hds := dropSpaces_length cs
  have hd2 := List.length_drop 2 (dropSpaces cs)
  have hd1 := List.length_drop 1 (dropSpaces cs)
  cases sfx
  · simp only [matchTLSfx, Option.some_inj] at h; subst h; exact le_refl _
  · simp only [matchTLSfx] at h
    split at h
    · simp only [Option.some_inj] at h; subst h; omega
    · split at h
      · simp only [Option.some_inj] at h; subst h; omega
      · simp only [Option.some_inj] at h; subst h; exact hds
  · simp only [matchTLSfx] at h
    split at h
    · simp only [Option.some_inj] at h; subst h; omega
    · split at h
      · simp only [Option.some_inj] at h; subst h; omega
      · exact absurd h (by simp)

/-- The shape check for the consumption lemma: the first character of the
first keyword word is mandatory. -/
def kwHeadOk : KwPat → Bool
  | ⟨(sp :: _) :: _, _, _, _⟩ => !sp.opt
  | _ => false

theorem consumes_matchKwPat (p : KwPat) (hp : kwHeadOk p = true) :
    Consumes (matchKwPat p) := by
  obtain ⟨toks, ast, spaced, sfx⟩ := p
  cases toks with
  | nil => simp [kwHeadOk] at hp
  | cons w ws =>
    cases w with
    | nil => simp [kwHeadOk] at hp
    | cons sp sps =>
      have ho : sp.opt = false := by simpa [kwHeadOk] using hp
      intro cs g r h
      unfold matchKwPat at h
      cases hm1 : matchToks ((sp :: sps) :: ws) cs with
      | none => rw [hm1] at h; exact absurd h (by simp)
      | some r1 =>
        rw [hm1] at h
        dsimp only [Bind.bind, Option.bind] at h
        cases hm2 : matchAmountNum spaced
            (if ast = true then matchAst (matchSep r1) else matchSep r1) with
        | none => rw [hm2] at h; exact absurd h (by simp)
        | some gr4 =>
          obtain ⟨g', r4⟩ := gr4
          rw [hm2] at h
          dsimp only [Bind.bind, Option.bind] at h
          cases hm3 : matchTLSfx sfx r4 with
          | none => rw [hm3] at h; exact absurd h (by simp)
          | some r5 =>
            rw [hm3] at h
            dsimp only [Bind.bind, Option.bind, Pure.pure] at h
            obtain ⟨rfl, rfl⟩ : g' = g ∧ r5 = r := by
              simpa using h
            have l1 : r1.length < cs.length := matchToks_some_length_strict ho hm1
            have l2 : ((if ast = true then matchAst (matchSep r1)
                else matchSep r1)).length ≤ r1.length := by
              split
              · exact le_trans (matchAst_length _) (matchSep_length _)
              · exact matchSep_length _
            have l3 := matchAmountNum_some_length hm2
            have l4 := matchTLSfx_length hm3
            simp only at l3 l4 ⊢
            omega

theorem headset_matchKwPat (p : KwPat) (alts : List Char) (w : List CSpec)
    (toks' : List (List CSpec)) (hp : p.toks = (⟨alts, false⟩ :: w) :: toks') :
    HeadSet (matchKwPat p) alts := by
  intro c cs hc
  unfold matchKwPat
  rw [hp]
  have hcs : matchCSpec ⟨alts, false⟩ (c :: cs) = none := by
    simp only [matchCSpec]
    rw [if_neg, if_neg] <;> simp [hc]
  cases toks' with
  | nil => simp [matchToks, matchWord, hcs]
  | cons w' ws' => simp [matchToks, matchWord, hcs]

/-! ### Success-path lemmas for the keyword-amount patterns -/

theorem matchSep_colon_space {d : Char} (rest : Chars) (hd : isPySpace d = false) :
    matchSep (':' :: ' ' :: d :: rest) = d :: rest := by
  unfold matchSep
  rw [dropWhile_cons_of_neg (by decide)]
  have hsp : isPySpace ' ' = true := by decide
  simp only [if_pos (Or.inl rfl), dropSpaces, List.dropWhile_cons, hsp, if_true]
  simp [hd]

theorem matchAst_digit {d : Char} (rest : Chars) (hd : isPyDigit d = true) :
    matchAst (d :: rest) = d :: rest := by
  have hne : d ≠ '*' := digit_ne hd (by decide)
  unfold matchAst
  split
  case h_1 t heq =>
    injection heq with h1 _
    exact absurd h1 hne
  case h_2 => rfl

theorem matchAmountNum_comma (spaced : Bool) {D : Chars} {a b : Char} (rest : Chars)
    (hD : D ≠ []) (hDd : ∀ c ∈ D, isPyDigit c = true)
    (ha : isPyDigit a = true) (hb : isPyDigit b = true) :
    matchAmountNum spaced (D ++ ',' :: a :: b :: rest)
      = some (D ++ ',' :: [a, b], rest) := by
  have htake : (D ++ ',' :: a :: b :: rest).takeWhile isPyDigit = D := by
    rw [takeWhile_append_all hDd, takeWhile_eq_nil_of_head (by decide)]
    simp
  have hdrop : (D ++ ',' :: a :: b :: rest).dropWhile isPyDigit
      = ',' :: a :: b :: rest := by
    rw [dropWhile_append_all hDd, dropWhile_cons_of_neg (by decide)]
  have h1 : (',' :: a :: b :: rest).dropWhile isPySpace = ',' :: a :: b :: rest :=
    dropWhile_cons_of_neg (by decide)
  have h2 : (',' :: a :: b :: rest).takeWhile isPySpace = [] :=
    takeWhile_eq_nil_of_head (by decide)
  have h3 : (a :: b :: rest).dropWhile isPySpace = a :: b :: rest :=
    dropWhile_cons_of_neg (digit_not_space ha)
  have h4 : (a :: b :: rest).takeWhile isPySpace = [] :=
    takeWhile_eq_nil_of_head (digit_not_space ha)
  have ha' : a.isDigit = true := ha
  have hb' : b.isDigit = true := hb
  unfold matchAmountNum
  rw [htake, hdrop, if_neg hD]
  cases spaced <;>
    simp [h1, h2, h3, h4, ha', hb']

theorem matchWord_lit_self : ∀ (l rest : Chars),
    matchWord (l.map (fun c => CSpec.mk [c] false)) (l ++ rest) = some rest := by
  intro l
  induction l with
  | nil => intro rest; rfl
  | cons c cs ih =>
    intro rest
    simp only [List.map_cons, List.cons_append, matchWord, matchCSpec]
    rw [if_pos (by simp)]
    exact ih rest

/-- `matchKwPat` of a single-literal-word pattern on `keyword: d…`:
the keyword, `: `, then the amount. -/
theorem matchKwPat_single_success (s : String) (ast spaced : Bool) {D : Chars}
    {a b : Char} (rest : Chars) (hD : D ≠ []) (hDd : ∀ c ∈ D, isPyDigit c = true)
    (ha : isPyDigit a = true) (hb : isPyDigit b = true) :
    matchKwPat ⟨[lit s], ast, spaced, .noSfx⟩
        (s.data ++ ':' :: ' ' :: (D ++ ',' :: a :: b :: rest))
      = some (D ++ ',' :: [a, b], rest) := by
  obtain ⟨d, D', rfl⟩ : ∃ d D', D = d :: D' := by
    cases D with
    | nil => exact absurd rfl hD
    | cons d D' => exact ⟨d, D', rfl⟩
  have hd : isPyDigit d = true := hDd d (by simp)
  unfold matchKwPat
  rw [show matchToks [lit s] (s.data ++ ':' :: ' ' :: (d :: D' ++ ',' :: a :: b :: rest))
      = some (':' :: ' ' :: (d :: D' ++ ',' :: a :: b :: rest)) from
    matchWord_lit_self s.data _]
  dsimp only [Bind.bind, Option.bind]
  rw [show (':' :: ' ' :: (d :: D' ++ ',' :: a :: b :: rest) : Chars)
      = ':' :: ' ' :: d :: (D' ++ ',' :: a :: b :: rest) from by simp]
  rw [matchSep_colon_space _ (digit_not_space hd)]
  have hamt : matchAmountNum spaced (d :: (D' ++ ',' :: a :: b :: rest))
      = some (d :: D' ++ ',' :: [a, b], rest) := by
    have := matchAmountNum_comma spaced (D := d :: D') (a := a) (b := b) rest
      (by simp) hDd ha hb
    simpa using this
  cases ast
  · rw [if_neg (by simp)]
    rw [hamt]
    rfl
  · rw [if_pos rfl, matchAst_digit _ hd]
    rw [hamt]
    rfl

/-- Same, for the required-`TL` currency pattern. -/
theorem matchKwPat_single_reqTL (s : String) {D : Chars} {a b : Char}
    (rest : Chars) (hD : D ≠ []) (hDd : ∀ c ∈ D, isPyDigit c = true)
    (ha : isPyDigit a = true) (hb : isPyDigit b = true) :
    matchKwPat ⟨[lit s], false, false, .reqSfx⟩
        (s.data ++ ':' :: ' ' :: (D ++ ',' :: a :: b :: ' ' :: 'T' :: 'L' :: rest))
      = some (D ++ ',' :: [a, b], rest) := by
  obtain ⟨d, D', rfl⟩ : ∃ d D', D = d :: D' := by
    cases D with
    | nil => exact absurd rfl hD
    | cons d D' => exact ⟨d, D', rfl⟩
  have hd : isPyDigit d = true := hDd d (by simp)
  unfold matchKwPat
  rw [show matchToks [lit s]
        (s.data ++ ':' :: ' ' :: (d :: D' ++ ',' :: a :: b :: ' ' :: 'T' :: 'L' :: rest))
      = some (':' :: ' ' :: (d :: D' ++ ',' :: a :: b :: ' ' :: 'T' :: 'L' :: rest)) from
    matchWord_lit_self s.data _]
  dsimp only [Bind.bind, Option.bind]
  rw [show (':' :: ' ' :: (d :: D' ++ ',' :: a :: b :: ' ' :: 'T' :: 'L' :: rest) : Chars)
      = ':' :: ' ' :: d :: (D' ++ ',' :: a :: b :: ' ' :: 'T' :: 'L' :: rest) from by simp]
  rw [matchSep_colon_space _ (digit_not_space hd)]
  rw [if_neg (by simp)]
  have hamt : matchAmountNum false (d :: (D' ++ ',' :: a :: b :: ' ' :: 'T' :: 'L' :: rest))
      = some (d :: D' ++ ',' :: [a, b], ' ' :: 'T' :: 'L' :: rest) := by
    have := matchAmountNum_comma false (D := d :: D') (a := a) (b := b)
      (' ' :: 'T' :: 'L' :: rest) (by simp) hDd ha hb
    simpa using this
  rw [hamt]
  rfl

/-! ### Character and pipeline plumbing facts -/

theorem notin_of_digit {c : Char} {S : List Char} (h : isPyDigit c = true)
    (hS : ∀ x ∈ S, isPyDigit x = false) : c ∉ S := by
  intro hmem
  have := hS c hmem
  rw [h] at this
  exact absurd this (by simp)

theorem digit_toNat_bounds {c : Char} (h : isPyDigit c = true) :
    48 ≤ c.toNat ∧ c.toNat ≤ 57 := by
  have h' : ('0' ≤ c ∧ c ≤ '9') := by
    simpa [isPyDigit, Char.isDigit, decide_eq_true_eq] using h
  exact ⟨h'.1, h'.2⟩

theorem pyUpperChar_digit {c : Char} (h : isPyDigit c = true) :
    pyUpperChar c = c := by
  obtain ⟨h1, h2⟩ := digit_toNat_bounds h
  unfold pyUpperChar
  rw [if_neg, if_neg, if_neg, if_neg, if_neg, if_neg, if_neg]
  · rintro rfl; simp at h2
  · rintro rfl; simp at h2
  · rintro rfl; simp at h2
  · rintro rfl; simp at h2
  · rintro rfl; simp at h2
  · rintro rfl; simp at h2
  · rintro ⟨hl, _⟩
    have : 97 ≤ c.toNat := hl
    omega

theorem pyUpper_fix {cs : Chars} (h : ∀ c ∈ cs, pyUpperChar c = c) :
    pyUpper cs = cs := by
  unfold pyUpper
  exact List.map_congr_left h |>.trans (List.map_id cs)

theorem splitNl_ne_nil (cs : Chars) : splitNl cs ≠ [] := by
  induction cs with
  | nil => simp [splitNl]
  | cons c cs ih =>
    simp only [splitNl]
    cases hq : splitNl cs with
    | nil => simp
    | cons h t =>
      show ¬(if c = '\n' then [] :: h :: t else (c :: h) :: t) = []
      split <;> simp

theorem splitNl_single {cs : Chars} (h : ∀ c ∈ cs, c ≠ '\n') :
    splitNl cs = [cs] := by
  induction cs with
  | nil => rfl
  | cons c cs ih =>
    have hih := ih (fun x hx => h x (by simp [hx]))
    simp only [splitNl, hih]
    rw [if_neg (h c (by simp))]

theorem splitNl_append {A : Chars} (B : Chars) (h : ∀ c ∈ A, c ≠ '\n') :
    splitNl (A ++ '\n' :: B) = A :: splitNl B := by
  induction A with
  | nil =>
    simp only [List.nil_append, splitNl]
    cases hq : splitNl B with
    | nil => exact absurd hq (splitNl_ne_nil B)
    | cons h t => simp
  | cons a A ih =>
    have hih := ih (fun x hx => h x (by simp [hx]))
    simp only [List.cons_append, splitNl, List.append_eq, hih]
    rw [if_neg (h a (by simp))]

theorem pyStrip_eq_self {cs : Chars} (h1 : cs.dropWhile isPySpace = cs)
    (h2 : cs.reverse.dropWhile isPySpace = cs.reverse) : pyStrip cs = cs := by
  unfold pyStrip
  rw [h1, h2, List.reverse_reverse]

theorem replaceLAux_id {old new : Chars} (_hold : old ≠ []) :
    ∀ (f : Nat) (s : Chars), containsL old s = false → replaceLAux old new f s = s := by
  intro f
  induction f with
  | zero => intro s _; rfl
  | succ f ih =>
    intro s hs
    cases s with
    | nil => rfl
    | cons c cs =>
      have hsplit : startsWithL old (c :: cs) = false ∧ containsL old cs = false := by
        have : (startsWithL old (c :: cs) || containsL old cs) = false := hs
        simpa [Bool.or_eq_false_iff] using this
      simp only [replaceLAux, hsplit.1, Bool.false_eq_true, if_false]
      rw [ih cs hsplit.2]

theorem replaceL_id {old new s : Chars} (hold : old ≠ [])
    (h : containsL old s = false) : replaceL old new s = s :=
  replaceLAux_id hold _ s h

theorem replaceLAux_single_id {x : Char} {y : Chars} :
    ∀ (f : Nat) (s : Chars), (∀ c ∈ s, c ≠ x) → replaceLAux [x] y f s = s := by
  intro f
  induction f with
  | zero => intro s _; rfl
  | succ f ih =>
    intro s hs
    cases s with
    | nil => rfl
    | cons c cs =>
      have hx : startsWithL [x] (c :: cs) = false := by
        have : x ≠ c := fun hxc => hs c (by simp) hxc.symm
        simp [startsWithL, this]
      simp only [replaceLAux, hx, Bool.false_eq_true, if_false]
      rw [ih cs (fun c hc => hs c (by simp [hc]))]

theorem replaceLAux_single_once {x : Char} {y : Chars} :
    ∀ (f : Nat) (pre post : Chars), pre.length + 1 ≤ f →
      (∀ c ∈ pre, c ≠ x) → (∀ c ∈ post, c ≠ x) →
      replaceLAux [x] y f (pre ++ x :: post) = pre ++ y ++ post := by
  intro f
  induction f with
  | zero => intro pre post h; omega
  | succ f ih =>
    intro pre post hf hpre hpost
    cases pre with
    | nil =>
      have hx : startsWithL [x] (x :: post) = true := by simp [startsWithL]
      simp only [List.nil_append, replaceLAux, hx, if_true]
      rw [show ([x] : Chars).length - 1 = 0 from rfl, List.drop_zero,
        replaceLAux_single_id f post hpost]
    | cons c pre =>
      have hx : startsWithL [x] (c :: (pre ++ x :: post)) = false := by
        have : x ≠ c := fun hxc => hpre c (by simp) hxc.symm
        simp [startsWithL, this]
      simp only [List.cons_append, replaceLAux, List.append_eq, hx, Bool.false_eq_true,
        if_false]
      rw [ih pre post (by simp at hf; omega) (fun c hc => hpre c (by simp [hc])) hpost]

theorem replaceL_single_once {x : Char} {y pre post : Chars}
    (hpre : ∀ c ∈ pre, c ≠ x) (hpost : ∀ c ∈ post, c ≠ x) :
    replaceL [x] y (pre ++ x :: post) = pre ++ y ++ post := by
  unfold replaceL
  exact replaceLAux_single_once _ pre post (by simp) hpre hpost

theorem replaceL_single_id {x : Char} {y s : Chars} (h : ∀ c ∈ s, c ≠ x) :
    replaceL [x] y s = s :=
  replaceLAux_single_id _ s h

theorem containsL_single_of_mem {x : Char} {s : Chars} (h : x ∈ s) :
    containsL [x] s = true := by
  induction s with
  | nil => simp at h
  | cons c cs ih =>
    simp only [containsL, Bool.or_eq_true]
    rcases List.mem_cons.mp h with rfl | hmem
    · exact Or.inl (by simp [startsWithL])
    · exact Or.inr (ih hmem)

theorem digitsToNat_two (a b : Char) :
    digitsToNat [a, b] = (a.toNat - 48) * 10 + (b.toNat - 48) := by
  show (0 * 10 + (a.toNat - 48)) * 10 + (b.toNat - 48) = _
  omega

/-- `float("D.ab")` for a digit string `D` and digit characters `a`, `b`. -/
theorem pyFloat_dot {d : Char} {D' : Chars} {a b : Char}
    (hDd : ∀ c ∈ d :: D', isPyDigit c = true)
    (ha : isPyDigit a = true) (hb : isPyDigit b = true) :
    pyFloat? ((d :: D') ++ '.' :: [a, b])
      = some ((digitsToNat (d :: D') : ℚ) + (digitsToNat [a, b] : ℚ) / 100) := by
  have hd : isPyDigit d = true := hDd d (by simp)
  have h1 : ((d :: D') ++ '.' :: [a, b]).dropWhile isPySpace
      = (d :: D') ++ '.' :: [a, b] := dropWhile_cons_of_neg (digit_not_space hd)
  have h2 : ((d :: D') ++ '.' :: [a, b]).reverse.dropWhile isPySpace
      = ((d :: D') ++ '.' :: [a, b]).reverse := by
    rw [show ((d :: D') ++ '.' :: [a, b]).reverse = b :: a :: '.' :: (d :: D').reverse
      from by simp]
    exact dropWhile_cons_of_neg (digit_not_space hb)
  have hps : pyStrip ((d :: D') ++ '.' :: [a, b]) = (d :: D') ++ '.' :: [a, b] :=
    pyStrip_eq_self h1 h2
  have htake : ((d :: D') ++ '.' :: [a, b]).takeWhile isPyDigit = d :: D' := by
    rw [takeWhile_append_all hDd, takeWhile_eq_nil_of_head (by decide)]
    simp
  have hdrop : ((d :: D') ++ '.' :: [a, b]).dropWhile isPyDigit = '.' :: [a, b] := by
    rw [dropWhile_append_all hDd, dropWhile_cons_of_neg (by decide)]
  have hne1 : d ≠ '-' := digit_ne hd (by decide)
  have hne2 : d ≠ '+' := digit_ne hd (by decide)
  unfold pyFloat?
  dsimp only
  rw [hps]
  rw [if_neg (show ¬(((d :: D') ++ '.' :: [a, b] : Chars).headD ' ' = '-') from by
      simpa using hne1),
    if_neg (show ¬(((d :: D') ++ '.' :: [a, b] : Chars).headD ' ' = '-'
        ∨ ((d :: D') ++ '.' :: [a, b] : Chars).headD ' ' = '+') from by
      simp only [List.cons_append, List.headD_cons]
      rintro (h | h)
      · exact hne1 h
      · exact hne2 h)]
  rw [hdrop]
  have hta : ([a, b] : Chars).takeWhile isPyDigit = [a, b] := by
    simp [List.takeWhile_cons, ha, hb]
  have hda : ([a, b] : Chars).dropWhile isPyDigit = [] := by
    simp [List.dropWhile_cons, ha, hb]
  rw [htake]
  show (if List.dropWhile isPyDigit [a, b] = []
        ∧ (d :: D' ≠ [] ∨ List.takeWhile isPyDigit [a, b] ≠ []) then
      some ((1 : ℚ) * ((digitsToNat (d :: D') : ℚ)
        + (digitsToNat (List.takeWhile isPyDigit [a, b]) : ℚ)
          / 10 ^ (List.takeWhile isPyDigit [a, b]).length))
    else none) = _
  rw [hta, hda]
  rw [if_pos (by exact ⟨rfl, Or.inl (by simp)⟩)]
  norm_num

/-- `_to_decimal` on a matched group `D,ab`: the comma is read as the
decimal separator. -/
theorem toDecimal_comma {D : Chars} {a b : Char} (hD : D ≠ [])
    (hDd : ∀ c ∈ D, isPyDigit c = true)
    (ha : isPyDigit a = true) (hb : isPyDigit b = true) :
    toDecimal (D ++ ',' :: [a, b]) = amtVal D a b := by
  have hdig : ∀ c ∈ D ++ ',' :: [a, b],
      isPyDigit c = true ∨ c = ',' := by
    intro c hc
    rcases List.mem_append.mp hc with hc | hc
    · exact Or.inl (hDd c hc)
    · rcases List.mem_cons.mp hc with rfl | hc
      · exact Or.inr rfl
      · rcases List.mem_cons.mp hc with rfl | hc
        · exact Or.inl ha
        · rcases List.mem_cons.mp hc with rfl | hc
          · exact Or.inl hb
          · simp at hc

  have hnoT : ∀ c ∈ D ++ ',' :: [a, b], c ≠ 'T' := by
    intro c hc
    rcases hdig c hc with h | rfl
    · exact digit_ne h (by decide)
    · decide
  have hnoTS : ∀ c ∈ D ++ ',' :: [a, b], c ≠ '₺' := by
    intro c hc
    rcases hdig c hc with h | rfl
    · exact digit_ne h (by decide)
    · decide
  have hnoSp : ∀ c ∈ D ++ ',' :: [a, b], c ≠ ' ' := by
    intro c hc
    rcases hdig c hc with h | rfl
    · exact digit_ne h (by decide)
    · decide
  have hnoDot : ('.' : Char) ∉ D ++ ',' :: [a, b] := by
    intro hc
    rcases hdig _ hc with h | h
    · exact absurd h (by decide)
    · exact absurd h (by decide)
  obtain ⟨d, D', rfl⟩ : ∃ d D', D = d :: D' := by
    cases D with
    | nil => exact absurd rfl hD
    | cons d D' => exact ⟨d, D', rfl⟩
  have hd : isPyDigit d = true := hDd d (by simp)
  unfold toDecimal
  rw [if_neg (by simp)]
  dsimp only
  rw [replaceL_id (by decide) (containsL_eq_false_of_missing (show 'T' ∈ "TL".data by decide)
    (fun hc => hnoT _ hc rfl))]
  rw [replaceL_id (by decide) (containsL_eq_false_of_missing (show '₺' ∈ "₺".data by decide)
    (fun hc => hnoTS _ hc rfl))]
  rw [replaceL_id (by decide) (containsL_eq_false_of_missing (show 'T' ∈ "TRY".data by decide)
    (fun hc => hnoT _ hc rfl))]
  rw [replaceL_single_id hnoSp]
  have hstrip : pyStrip ((d :: D') ++ ',' :: [a, b]) = (d :: D') ++ ',' :: [a, b] := by
    have hr2 : ((d :: D') ++ ',' :: [a, b]).reverse.dropWhile isPySpace
        = ((d :: D') ++ ',' :: [a, b]).reverse := by
      rw [show ((d :: D') ++ ',' :: [a, b]).reverse = b :: a :: ',' :: (d :: D').reverse
        from by simp]
      exact dropWhile_cons_of_neg (digit_not_space hb)
    exact pyStrip_eq_self (dropWhile_cons_of_neg (digit_not_space hd)) hr2
  rw [hstrip]
  rw [if_neg (by
    rw [containsL_eq_false_of_missing (show '.' ∈ ['.'] by decide) hnoDot]
    simp)]
  rw [if_pos (containsL_single_of_mem (by simp))]
  rw [replaceL_single_once (fun c hc => digit_ne (hDd c hc) (by decide)) (by
      intro c hc
      rcases List.mem_cons.mp hc with rfl | hc
      · exact digit_ne ha (by decide)
      · rcases List.mem_cons.mp hc with rfl | hc
        · exact digit_ne hb (by decide)
        · simp at hc)]
  have hshape : ((d :: D') ++ ['.'] ++ [a, b] : Chars) = (d :: D') ++ '.' :: [a, b] := by
    simp
  rw [hshape, pyFloat_dot hDd ha hb]
  show (digitsToNat (d :: D') : ℚ) + (digitsToNat [a, b] : ℚ) / 100 = amtVal (d :: D') a b
  rw [digitsToNat_two]
  simp [amtVal]

/-! ### Failure of the keyword matchers at the character positions occurring
in the claim texts.  Each lemma holds definitionally: the matcher walks the
concrete prefix and fails before reaching the symbolic tail. -/

theorem pToplamTutar_fail_colon (rest : Chars) :
    matchKwPat pToplamTutar ('T' :: 'O' :: 'P' :: 'L' :: 'A' :: 'M' :: ':' :: rest) = none := rfl

theorem pToplamTutarTL_fail_colon (rest : Chars) :
    matchKwPat pToplamTutarTL ('T' :: 'O' :: 'P' :: 'L' :: 'A' :: 'M' :: ':' :: rest) = none := rfl

theorem pTopkdv_fail_TOPL (rest : Chars) :
    matchKwPat pTopkdv ('T' :: 'O' :: 'P' :: 'L' :: rest) = none := rfl

theorem pTotal_fail_TOP (rest : Chars) :
    matchKwPat pTotal ('T' :: 'O' :: 'P' :: rest) = none := rfl

theorem pToplam_fail_TL (rest : Chars) :
    matchKwPat pToplam ('T' :: 'L' :: rest) = none := rfl

theorem pToplamTutar_fail_TL (rest : Chars) :
    matchKwPat pToplamTutar ('T' :: 'L' :: rest) = none := rfl

theorem pToplamTutarTL_fail_TL (rest : Chars) :
    matchKwPat pToplamTutarTL ('T' :: 'L' :: rest) = none := rfl

theorem pToplamTL_fail_TL (rest : Chars) :
    matchKwPat pToplamTL ('T' :: 'L' :: rest) = none := rfl

theorem pTopkdv_fail_TL (rest : Chars) :
    matchKwPat pTopkdv ('T' :: 'L' :: rest) = none := rfl

theorem pTotal_fail_TL (rest : Chars) :
    matchKwPat pTotal ('T' :: 'L' :: rest) = none := rfl

theorem pAraToplam_fail_AM (rest : Chars) :
    matchKwPat pAraToplam ('A' :: 'M' :: rest) = none := rfl

theorem pOdenen_fail_OP (rest : Chars) :
    matchKwPat pOdenen ('O' :: 'P' :: rest) = none := rfl

theorem pToplam_fail_TOPK (rest : Chars) :
    matchKwPat pToplam ('T' :: 'O' :: 'P' :: 'K' :: rest) = none := rfl

theorem pToplamTL_fail_TOPK (rest : Chars) :
    matchKwPat pToplamTL ('T' :: 'O' :: 'P' :: 'K' :: rest) = none := rfl

theorem pToplamTutar_fail_TOPK (rest : Chars) :
    matchKwPat pToplamTutar ('T' :: 'O' :: 'P' :: 'K' :: rest) = none := rfl

theorem pToplamTutarTL_fail_TOPK (rest : Chars) :
    matchKwPat pToplamTutarTL ('T' :: 'O' :: 'P' :: 'K' :: rest) = none := rfl

theorem pKrediKarti_fail_KD (rest : Chars) :
    matchKwPat pKrediKarti ('K' :: 'D' :: rest) = none := rfl

/-! ### HeadSet and Consumes instances for the fifteen patterns -/

theorem hsToplam : HeadSet (matchKwPat pToplam) ['T'] :=
  headset_matchKwPat _ _ _ _ rfl

theorem hsGenelToplam : HeadSet (matchKwPat pGenelToplam) ['G'] :=
  headset_matchKwPat _ _ _ _ rfl

theorem hsToplamTutar : HeadSet (matchKwPat pToplamTutar) ['T'] :=
  headset_matchKwPat _ _ _ _ rfl

theorem hsAraToplam : HeadSet (matchKwPat pAraToplam) ['A'] :=
  headset_matchKwPat _ _ _ _ rfl

theorem hsGenelTop : HeadSet (matchKwPat pGenelTop) ['G'] :=
  headset_matchKwPat _ _ _ _ rfl

theorem hsTopkdv : HeadSet (matchKwPat pTopkdv) ['T'] :=
  headset_matchKwPat _ _ _ _ rfl

theorem hsToplamTL : HeadSet (matchKwPat pToplamTL) ['T'] :=
  headset_matchKwPat _ _ _ _ rfl

theorem hsGenelToplamTL : HeadSet (matchKwPat pGenelToplamTL) ['G'] :=
  headset_matchKwPat _ _ _ _ rfl

theorem hsToplamTutarTL : HeadSet (matchKwPat pToplamTutarTL) ['T'] :=
  headset_matchKwPat _ _ _ _ rfl

theorem hsNakit : HeadSet (matchKwPat pNakit) ['N'] :=
  headset_matchKwPat _ _ _ _ rfl

theorem hsKrediKarti : HeadSet (matchKwPat pKrediKarti) ['K'] :=
  headset_matchKwPat _ _ _ _ rfl

theorem hsOdenen : HeadSet (matchKwPat pOdenen) ['O'] :=
  headset_matchKwPat _ _ _ _ rfl

theorem hsTotal : HeadSet (matchKwPat pTotal) ['T'] :=
  headset_matchKwPat _ _ _ _ rfl

theorem hsGrandTotal : HeadSet (matchKwPat pGrandTotal) ['G'] :=
  headset_matchKwPat _ _ _ _ rfl

theorem csToplam : Consumes (matchKwPat pToplam) := consumes_matchKwPat _ rfl

theorem csToplamTL : Consumes (matchKwPat pToplamTL) := consumes_matchKwPat _ rfl

theorem csTopkdv : Consumes (matchKwPat pTopkdv) := consumes_matchKwPat _ rfl

/-! ### Scans of the keyword patterns over the line `TOPLAM: D,ab TL` -/

theorem kwAmtLine_mem {kw : String} {D : Chars} {a b c : Char}
    (hDd : ∀ x ∈ D, isPyDigit x = true) (ha : isPyDigit a = true)
    (hb : isPyDigit b = true) (hc : c ∈ kwAmtLine kw D a b) :
    c ∈ kw.data ∨ isPyDigit c = true ∨ c = ',' ∨ c = ' ' ∨ c = 'T' ∨ c = 'L' := by
  unfold kwAmtLine at hc
  rcases List.mem_append.mp hc with hc | hc
  · rcases List.mem_append.mp hc with hc | hc
    · exact Or.inl hc
    · exact Or.inr (Or.inl (hDd c hc))
  · rcases List.mem_cons.mp hc with rfl | hc
    · exact Or.inr (Or.inr (Or.inl rfl))
    · rcases List.mem_cons.mp hc with rfl | hc
      · exact Or.inr (Or.inl ha)
      · rcases List.mem_cons.mp hc with rfl | hc
        · exact Or.inr (Or.inl hb)
        · rcases List.mem_cons.mp hc with rfl | hc
          · exact Or.inr (Or.inr (Or.inr (Or.inl rfl)))
          · rcases List.mem_cons.mp hc with rfl | hc
            · exact Or.inr (Or.inr (Or.inr (Or.inr (Or.inl rfl))))
            · rcases List.mem_cons.mp hc with rfl | hc
              · exact Or.inr (Or.inr (Or.inr (Or.inr (Or.inr rfl))))
              · simp at hc

theorem scan_T1_pToplam {D : Chars} {a b : Char} (hD : D ≠ [])
    (hDd : ∀ c ∈ D, isPyDigit c = true) (ha : isPyDigit a = true)
    (hb : isPyDigit b = true) :
    scan (matchKwPat pToplam) (kwAmtLine "TOPLAM: " D a b) = [D ++ ',' :: [a, b]] := by
  have hm0 : matchKwPat pToplam (kwAmtLine "TOPLAM: " D a b)
      = some (D ++ ',' :: [a, b], [' ', 'T', 'L']) :=
    matchKwPat_single_success "TOPLAM" true true ([' ', 'T', 'L'] : Chars) hD hDd ha hb
  have e : kwAmtLine "TOPLAM: " D a b
      = 'T' :: ('O' :: 'P' :: 'L' :: 'A' :: 'M' :: ':' :: ' '
          :: (D ++ ',' :: a :: b :: (' ' :: 'T' :: 'L' :: []))) := rfl
  rw [e] at hm0 ⊢
  rw [scan_cons_some csToplam hm0]
  rw [scan_cons_none (hsToplam ' ' _ (by decide)),
    scan_cons_none (pToplam_fail_TL _),
    scan_cons_none (hsToplam 'L' _ (by decide))]
  rfl

theorem scan_T1_pToplamTL {D : Chars} {a b : Char} (hD : D ≠ [])
    (hDd : ∀ c ∈ D, isPyDigit c = true) (ha : isPyDigit a = true)
    (hb : isPyDigit b = true) :
    scan (matchKwPat pToplamTL) (kwAmtLine "TOPLAM: " D a b) = [D ++ ',' :: [a, b]] := by
  have hm0 : matchKwPat pToplamTL (kwAmtLine "TOPLAM: " D a b)
      = some (D ++ ',' :: [a, b], ([] : Chars)) :=
    matchKwPat_single_reqTL "TOPLAM" ([] : Chars) hD hDd ha hb
  have e : kwAmtLine "TOPLAM: " D a b
      = 'T' :: ('O' :: 'P' :: 'L' :: 'A' :: 'M' :: ':' :: ' '
          :: (D ++ ',' :: a :: b :: (' ' :: 'T' :: 'L' :: []))) := rfl
  rw [e] at hm0 ⊢
  rw [scan_cons_some csToplamTL hm0]
  rfl

theorem scan_T1_pToplamTutar {D : Chars} {a b : Char}
    (hDd : ∀ c ∈ D, isPyDigit c = true) (ha : isPyDigit a = true)
    (hb : isPyDigit b = true) :
    scan (matchKwPat pToplamTutar) (kwAmtLine "TOPLAM: " D a b) = [] := by
  rw [show kwAmtLine "TOPLAM: " D a b
      = 'T' :: ('O' :: 'P' :: 'L' :: 'A' :: 'M' :: ':' :: ' '
          :: (D ++ ',' :: a :: b :: (' ' :: 'T' :: 'L' :: []))) from rfl]
  rw [scan_cons_none (pToplamTutar_fail_colon _)]
  rw [show ('O' :: 'P' :: 'L' :: 'A' :: 'M' :: ':' :: ' '
        :: (D ++ ',' :: a :: b :: (' ' :: 'T' :: 'L' :: [])) : Chars)
      = (['O', 'P', 'L', 'A', 'M', ':', ' '] ++ D)
          ++ (',' :: a :: b :: (' ' :: 'T' :: 'L' :: [])) from by simp]
  rw [scan_skip hsToplamTutar _ _ (by
    intro c hc
    rcases List.mem_append.mp hc with hc | hc
    · fin_cases hc <;> decide
    · exact notin_of_digit (hDd c hc) (by decide))]
  rw [scan_cons_none (hsToplamTutar ',' _ (by decide)),
    scan_cons_none (hsToplamTutar a _ (notin_of_digit ha (by decide))),
    scan_cons_none (hsToplamTutar b _ (notin_of_digit hb (by decide))),
    scan_cons_none (hsToplamTutar ' ' _ (by decide)),
    scan_cons_none (pToplamTutar_fail_TL _),
    scan_cons_none (hsToplamTutar 'L' _ (by decide))]
  rfl

theorem scan_T1_pToplamTutarTL {D : Chars} {a b : Char}
    (hDd : ∀ c ∈ D, isPyDigit c = true) (ha : isPyDigit a = true)
    (hb : isPyDigit b = true) :
    scan (matchKwPat pToplamTutarTL) (kwAmtLine "TOPLAM: " D a b) = [] := by
  rw [show kwAmtLine "TOPLAM: " D a b
      = 'T' :: ('O' :: 'P' :: 'L' :: 'A' :: 'M' :: ':' :: ' '
          :: (D ++ ',' :: a :: b :: (' ' :: 'T' :: 'L' :: []))) from rfl]
  rw [scan_cons_none (pToplamTutarTL_fail_colon _)]
  rw [show ('O' :: 'P' :: 'L' :: 'A' :: 'M' :: ':' :: ' '
        :: (D ++ ',' :: a :: b :: (' ' :: 'T' :: 'L' :: [])) : Chars)
      = (['O', 'P', 'L', 'A', 'M', ':', ' '] ++ D)
          ++ (',' :: a :: b :: (' ' :: 'T' :: 'L' :: [])) from by simp]
  rw [scan_skip hsToplamTutarTL _ _ (by
    intro c hc
    rcases List.mem_append.mp hc with hc | hc
    · fin_cases hc <;> decide
    · exact notin_of_digit (hDd c hc) (by decide))]
  rw [scan_cons_none (hsToplamTutarTL ',' _ (by decide)),
    scan_cons_none (hsToplamTutarTL a _ (notin_of_digit ha (by decide))),
    scan_cons_none (hsToplamTutarTL b _ (notin_of_digit hb (by decide))),
    scan_cons_none (hsToplamTutarTL ' ' _ (by decide)),
    scan_cons_none (pToplamTutarTL_fail_TL _),
    scan_cons_none (hsToplamTutarTL 'L' _ (by decide))]
  rfl

theorem scan_T1_pTopkdv {D : Chars} {a b : Char}
    (hDd : ∀ c ∈ D, isPyDigit c = true) (ha : isPyDigit a = true)
    (hb : isPyDigit b = true) :
    scan (matchKwPat pTopkdv) (kwAmtLine "TOPLAM: " D a b) = [] := by
  rw [show kwAmtLine "TOPLAM: " D a b
      = 'T' :: ('O' :: 'P' :: 'L' :: 'A' :: 'M' :: ':' :: ' '
          :: (D ++ ',' :: a :: b :: (' ' :: 'T' :: 'L' :: []))) from rfl]
  rw [scan_cons_none (pTopkdv_fail_TOPL _)]
  rw [show ('O' :: 'P' :: 'L' :: 'A' :: 'M' :: ':' :: ' '
        :: (D ++ ',' :: a :: b :: (' ' :: 'T' :: 'L' :: [])) : Chars)
      = (['O', 'P', 'L', 'A', 'M', ':', ' '] ++ D)
          ++ (',' :: a :: b :: (' ' :: 'T' :: 'L' :: [])) from by simp]
  rw [scan_skip hsTopkdv _ _ (by
    intro c hc
    rcases List.mem_append.mp hc with hc | hc
    · fin_cases hc <;> decide
    · exact notin_of_digit (hDd c hc) (by decide))]
  rw [scan_cons_none (hsTopkdv ',' _ (by decide)),
    scan_cons_none (hsTopkdv a _ (notin_of_digit ha (by decide))),
    scan_cons_none (hsTopkdv b _ (notin_of_digit hb (by decide))),
    scan_cons_none (hsTopkdv ' ' _ (by decide)),
    scan_cons_none (pTopkdv_fail_TL _),
    scan_cons_none (hsTopkdv 'L' _ (by decide))]
  rfl

theorem scan_T1_pAraToplam {D : Chars} {a b : Char}
    (hDd : ∀ c ∈ D, isPyDigit c = true) (ha : isPyDigit a = true)
    (hb : isPyDigit b = true) :
    scan (matchKwPat pAraToplam) (kwAmtLine "TOPLAM: " D a b) = [] := by
  rw [show kwAmtLine "TOPLAM: " D a b
      = ['T', 'O', 'P', 'L'] ++ ('A' :: 'M' :: ':' :: ' '
          :: (D ++ ',' :: a :: b :: (' ' :: 'T' :: 'L' :: []))) from rfl]
  rw [scan_skip hsAraToplam _ _ (by decide)]
  rw [scan_cons_none (pAraToplam_fail_AM _)]
  rw [show ('M' :: ':' :: ' ' :: (D ++ ',' :: a :: b :: (' ' :: 'T' :: 'L' :: [])) : Chars)
      = (['M', ':', ' '] ++ D) ++ (',' :: a :: b :: (' ' :: 'T' :: 'L' :: [])) from by simp]
  rw [scan_skip hsAraToplam _ _ (by
    intro c hc
    rcases List.mem_append.mp hc with hc | hc
    · fin_cases hc <;> decide
    · exact notin_of_digit (hDd c hc) (by decide))]
  rw [scan_cons_none (hsAraToplam ',' _ (by decide)),
    scan_cons_none (hsAraToplam a _ (notin_of_digit ha (by decide))),
    scan_cons_none (hsAraToplam b _ (notin_of_digit hb (by decide))),
    scan_cons_none (hsAraToplam ' ' _ (by decide)),
    scan_cons_none (hsAraToplam 'T' _ (by decide)),
    scan_cons_none (hsAraToplam 'L' _ (by decide))]
  rfl

theorem scan_T1_pOdenen {D : Chars} {a b : Char}
    (hDd : ∀ c ∈ D, isPyDigit c = true) (ha : isPyDigit a = true)
    (hb : isPyDigit b = true) :
    scan (matchKwPat pOdenen) (kwAmtLine "TOPLAM: " D a b) = [] := by
  rw [show kwAmtLine "TOPLAM: " D a b
      = 'T' :: ('O' :: 'P' :: 'L' :: 'A' :: 'M' :: ':' :: ' '
          :: (D ++ ',' :: a :: b :: (' ' :: 'T' :: 'L' :: []))) from rfl]
  rw [scan_cons_none (hsOdenen 'T' _ (by decide))]
  rw [scan_cons_none (pOdenen_fail_OP _)]
  rw [show ('P' :: 'L' :: 'A' :: 'M' :: ':' :: ' '
        :: (D ++ ',' :: a :: b :: (' ' :: 'T' :: 'L' :: [])) : Chars)
      = (['P', 'L', 'A', 'M', ':', ' '] ++ D)
          ++ (',' :: a :: b :: (' ' :: 'T' :: 'L' :: [])) from by simp]
  rw [scan_skip hsOdenen _ _ (by
    intro c hc
    rcases List.mem_append.mp hc with hc | hc
    · fin_cases hc <;> decide
    · exact notin_of_digit (hDd c hc) (by decide))]
  rw [scan_cons_none (hsOdenen ',' _ (by decide)),
    scan_cons_none (hsOdenen a _ (notin_of_digit ha (by decide))),
    scan_cons_none (hsOdenen b _ (notin_of_digit hb (by decide))),
    scan_cons_none (hsOdenen ' ' _ (by decide)),
    scan_cons_none (hsOdenen 'T' _ (by decide)),
    scan_cons_none (hsOdenen 'L' _ (by decide))]
  rfl

theorem scan_T1_pTotal {D : Chars} {a b : Char}
    (hDd : ∀ c ∈ D, isPyDigit c = true) (ha : isPyDigit a = true)
    (hb : isPyDigit b = true) :
    scan (matchKwPat pTotal) (kwAmtLine "TOPLAM: " D a b) = [] := by
  rw [show kwAmtLine "TOPLAM: " D a b
      = 'T' :: ('O' :: 'P' :: 'L' :: 'A' :: 'M' :: ':' :: ' '
          :: (D ++ ',' :: a :: b :: (' ' :: 'T' :: 'L' :: []))) from rfl]
  rw [scan_cons_none (pTotal_fail_TOP _)]
  rw [show ('O' :: 'P' :: 'L' :: 'A' :: 'M' :: ':' :: ' '
        :: (D ++ ',' :: a :: b :: (' ' :: 'T' :: 'L' :: [])) : Chars)
      = (['O', 'P', 'L', 'A', 'M', ':', ' '] ++ D)
          ++ (',' :: a :: b :: (' ' :: 'T' :: 'L' :: [])) from by simp]
  rw [scan_skip hsTotal _ _ (by
    intro c hc
    rcases List.mem_append.mp hc with hc | hc
    · fin_cases hc <;> decide
    · exact notin_of_digit (hDd c hc) (by decide))]
  rw [scan_cons_none (hsTotal ',' _ (by decide)),
    scan_cons_none (hsTotal a _ (notin_of_digit ha (by decide))),
    scan_cons_none (hsTotal b _ (notin_of_digit hb (by decide))),
    scan_cons_none (hsTotal ' ' _ (by decide)),
    scan_cons_none (pTotal_fail_TL _),
    scan_cons_none (hsTotal 'L' _ (by decide))]
  rfl

/-- Scan of any pattern whose head set is disjoint from the characters of
the `TOPLAM: D,ab TL` line. -/
theorem scan_T1_headset_nil {m : Chars → Option (Chars × Chars)} {S : List Char}
    (hh : HeadSet m S) {D : Chars} {a b : Char}
    (hDd : ∀ c ∈ D, isPyDigit c = true) (ha : isPyDigit a = true)
    (hb : isPyDigit b = true)
    (hS1 : ∀ c, isPyDigit c = true → c ∉ S)
    (hS2 : ∀ c ∈ ("TOPLAM: ,".data : Chars), c ∉ S) :
    scan m (kwAmtLine "TOPLAM: " D a b) = [] := by
  refine scan_eq_nil hh _ (fun c hc => ?_)
  rcases kwAmtLine_mem hDd ha hb hc with h | h | rfl | rfl | rfl | rfl
  · have h' : c ∈ (['T', 'O', 'P', 'L', 'A', 'M', ':', ' '] : List Char) := h
    fin_cases h' <;> exact hS2 _ (by decide)
  · exact hS1 c h
  · exact hS2 ',' (by decide)
  · exact hS2 ' ' (by decide)
  · exact hS2 'T' (by decide)
  · exact hS2 'L' (by decide)

/-! ### The collection loop -/

theorem foldl_toplam_ge9 {idx : Nat} (hidx : 9 ≤ idx) :
    ∀ (gs : List Chars) (a : AmountLists),
      (gs.foldl (collectStep idx) a).toplam = a.toplam := by
  intro gs
  induction gs with
  | nil => intro a; rfl
  | cons g gs ih =>
    intro a
    rw [List.foldl_cons, ih]
    unfold collectStep
    dsimp only
    split
    · rw [if_neg (by omega)]
    · rfl

theorem collectAll_toplam_ge9 :
    ∀ (ls : List (List Chars)) (idx : Nat) (a : AmountLists), 9 ≤ idx →
      (collectAll idx ls a).toplam = a.toplam := by
  intro ls
  induction ls with
  | nil => intro idx a _; rfl
  | cons gs rest ih =>
    intro idx a hidx
    show (collectAll (idx + 1) rest (gs.foldl (collectStep idx) a)).toplam = a.toplam
    rw [ih _ _ (by omega), foldl_toplam_ge9 hidx]

theorem collectStep_pos {idx : Nat} {a : AmountLists} {g : Chars}
    (hv : 0 < toDecimal (removeSpacesL g)) :
    collectStep idx a g =
      { found := a.found ++ [toDecimal (removeSpacesL g)]
        toplam := if idx < 9 then a.toplam ++ [toDecimal (removeSpacesL g)] else a.toplam
        payment := if 9 ≤ idx ∧ idx < 12 then a.payment ++ [toDecimal (removeSpacesL g)]
                   else a.payment } := by
  unfold collectStep
  dsimp only
  rw [if_pos hv]

theorem collectStep_nonpos {idx : Nat} {a : AmountLists} {g : Chars}
    (hv : ¬ 0 < toDecimal (removeSpacesL g)) :
    collectStep idx a g = a := by
  unfold collectStep
  dsimp only
  rw [if_neg hv]

theorem removeSpacesL_of_no_space {g : Chars} (h : ∀ c ∈ g, c ≠ ' ') :
    removeSpacesL g = g := by
  unfold removeSpacesL
  exact filter_eq_self_of_all (fun c hc => by simpa using h c hc)

theorem removeSpacesL_amt_group {D : Chars} {a b : Char}
    (hDd : ∀ c ∈ D, isPyDigit c = true)
    (ha : isPyDigit a = true) (hb : isPyDigit b = true) :
    removeSpacesL (D ++ ',' :: [a, b]) = D ++ ',' :: [a, b] := by
  refine removeSpacesL_of_no_space (fun c hc => ?_)
  rcases List.mem_append.mp hc with hc | hc
  · exact digit_ne (hDd c hc) (by decide)
  · rcases List.mem_cons.mp hc with rfl | hc
    · decide
    · rcases List.mem_cons.mp hc with rfl | hc
      · exact digit_ne ha (by decide)
      · rcases List.mem_cons.mp hc with rfl | hc
        · exact digit_ne hb (by decide)
        · simp at hc

/-- The `toplam_amounts` list when only the `TOPLAM` patterns (indices 0 and
6) match, each with the single group `g`. -/
theorem collectAmounts_toplam_single {s : Chars} {g : Chars}
    (h0 : scan (matchKwPat pToplam) s = [g])
    (h1 : scan (matchKwPat pGenelToplam) s = [])
    (h2 : scan (matchKwPat pToplamTutar) s = [])
    (h3 : scan (matchKwPat pAraToplam) s = [])
    (h4 : scan (matchKwPat pGenelTop) s = [])
    (h5 : scan (matchKwPat pTopkdv) s = [])
    (h6 : scan (matchKwPat pToplamTL) s = [g])
    (h7 : scan (matchKwPat pGenelToplamTL) s = [])
    (h8 : scan (matchKwPat pToplamTutarTL) s = []) :
    (collectAmounts s).toplam =
      if 0 < toDecimal (removeSpacesL g) then
        [toDecimal (removeSpacesL g), toDecimal (removeSpacesL g)]
      else [] := by
  have hps : patternScans s
      = [scan (matchKwPat pToplam) s, scan (matchKwPat pGenelToplam) s,
         scan (matchKwPat pToplamTutar) s, scan (matchKwPat pAraToplam) s,
         scan (matchKwPat pGenelTop) s, scan (matchKwPat pTopkdv) s,
         scan (matchKwPat pToplamTL) s, scan (matchKwPat pGenelToplamTL) s,
         scan (matchKwPat pToplamTutarTL) s, scan (matchKwPat pNakit) s,
         scan (matchKwPat pKrediKarti) s, scan (matchKwPat pOdenen) s,
         scan (matchKwPat pTotal) s, scan (matchKwPat pGrandTotal) s,
         scan14 s] := rfl
  unfold collectAmounts
  rw [hps, h0, h1, h2, h3, h4, h5, h6, h7, h8]
  show (collectAll 9 _ (collectStep 6 (collectStep 0 ⟨[], [], []⟩ g) g)).toplam = _
  rw [collectAll_toplam_ge9 _ _ _ (by omega)]
  by_cases hv : 0 < toDecimal (removeSpacesL g)
  · rw [collectStep_pos hv, collectStep_pos hv]
    simp [hv]
  · rw [collectStep_nonpos hv, collectStep_nonpos hv]
    simp [hv]

/-- The `toplam_amounts` list when pattern 0 and 6 match with group `g1` and
pattern 5 (`TOPKDV`) matches with group `g2`. -/
theorem collectAmounts_toplam_double {s : Chars} {g1 g2 : Chars}
    (h0 : scan (matchKwPat pToplam) s = [g1])
    (h1 : scan (matchKwPat pGenelToplam) s = [])
    (h2 : scan (matchKwPat pToplamTutar) s = [])
    (h3 : scan (matchKwPat pAraToplam) s = [])
    (h4 : scan (matchKwPat pGenelTop) s = [])
    (h5 : scan (matchKwPat pTopkdv) s = [g2])
    (h6 : scan (matchKwPat pToplamTL) s = [g1])
    (h7 : scan (matchKwPat pGenelToplamTL) s = [])
    (h8 : scan (matchKwPat pToplamTutarTL) s = [])
    (hv1 : 0 < toDecimal (removeSpacesL g1))
    (hv2 : 0 < toDecimal (removeSpacesL g2)) :
    (collectAmounts s).toplam =
      [toDecimal (removeSpacesL g1), toDecimal (removeSpacesL g2),
       toDecimal (removeSpacesL g1)] := by
  have hps : patternScans s
      = [scan (matchKwPat pToplam) s, scan (matchKwPat pGenelToplam) s,
         scan (matchKwPat pToplamTutar) s, scan (matchKwPat pAraToplam) s,
         scan (matchKwPat pGenelTop) s, scan (matchKwPat pTopkdv) s,
         scan (matchKwPat pToplamTL) s, scan (matchKwPat pGenelToplamTL) s,
         scan (matchKwPat pToplamTutarTL) s, scan (matchKwPat pNakit) s,
         scan (matchKwPat pKrediKarti) s, scan (matchKwPat pOdenen) s,
         scan (matchKwPat pTotal) s, scan (matchKwPat pGrandTotal) s,
         scan14 s] := rfl
  unfold collectAmounts
  rw [hps, h0, h1, h2, h3, h4, h5, h6, h7, h8]
  show (collectAll 9 _
      (collectStep 6 (collectStep 5 (collectStep 0 ⟨[], [], []⟩ g1) g2) g1)).toplam = _
  rw [collectAll_toplam_ge9 _ _ _ (by omega)]
  rw [collectStep_pos hv1, collectStep_pos hv2, collectStep_pos hv1]
  simp

/-! ### pyMin and pyMax -/

theorem pyMinE_pair (v : ℚ) : pyMinE [v, v] = .ok v := by
  simp [pyMinE]

theorem pyMinE_triple (v1 v2 : ℚ) : pyMinE [v1, v2, v1] = .ok (min v1 v2) := by
  show Except.ok (min (min v1 v2) v1) = _
  rw [min_eq_left (min_le_left v1 v2)]

theorem pyMinE_ok {l : List ℚ} (h : l ≠ []) : ∃ v, pyMinE l = .ok v := by
  cases l with
  | nil => exact absurd rfl h
  | cons x xs => exact ⟨_, rfl⟩

theorem pyMaxE_ok {l : List ℚ} (h : l ≠ []) : ∃ v, pyMaxE l = .ok v := by
  cases l with
  | nil => exact absurd rfl h
  | cons x xs => exact ⟨_, rfl⟩

/-! ### The upper-cased joined search text -/

theorem parseLines_single {cs : Chars} (hnl : ∀ c ∈ cs, c ≠ '\n')
    (hstrip : pyStrip cs = cs) (hne : cs ≠ []) : parseLines cs = [cs] := by
  unfold parseLines
  rw [splitNl_single hnl]
  simp [hstrip, hne]

theorem parseLines_two {l1 l2 : Chars} (h1 : ∀ c ∈ l1, c ≠ '\n')
    (hs1 : pyStrip l1 = l1) (hn1 : l1 ≠ [])
    (h2 : ∀ c ∈ l2, c ≠ '\n') (hs2 : pyStrip l2 = l2) (hn2 : l2 ≠ []) :
    parseLines (l1 ++ '\n' :: l2) = [l1, l2] := by
  unfold parseLines
  rw [splitNl_append l2 h1, splitNl_single h2]
  simp [hs1, hs2, hn1, hn2]

theorem upperText_single {cs : Chars} (hnl : ∀ c ∈ cs, c ≠ '\n')
    (hstrip : pyStrip cs = cs) (hne : cs ≠ [])
    (hfix : ∀ c ∈ cs, pyUpperChar c = c) : upperText cs = cs := by
  unfold upperText
  rw [parseLines_single hnl hstrip hne]
  show pyUpper cs = cs
  exact pyUpper_fix hfix

theorem upperText_two {l1 l2 : Chars} (h1 : ∀ c ∈ l1, c ≠ '\n')
    (hs1 : pyStrip l1 = l1) (hn1 : l1 ≠ [])
    (h2 : ∀ c ∈ l2, c ≠ '\n') (hs2 : pyStrip l2 = l2) (hn2 : l2 ≠ [])
    (hfix1 : ∀ c ∈ l1, pyUpperChar c = c) (hfix2 : ∀ c ∈ l2, pyUpperChar c = c) :
    upperText (l1 ++ '\n' :: l2) = l1 ++ '\n' :: l2 := by
  unfold upperText
  rw [parseLines_two h1 hs1 hn1 h2 hs2 hn2]
  show pyUpper (l1 ++ '\n' :: l2) = l1 ++ '\n' :: l2
  refine pyUpper_fix (fun c hc => ?_)
  rcases List.mem_append.mp hc with hc | hc
  · exact hfix1 c hc
  · rcases List.mem_cons.mp hc with rfl | hc
    · decide
    · exact hfix2 c hc

/-! ### Facts about the `kwAmtLine` texts -/

theorem kwAmtLine_no_nl {kw : String} {D : Chars} {a b : Char}
    (hkw : ∀ c ∈ kw.data, c ≠ '\n')
    (hDd : ∀ c ∈ D, isPyDigit c = true)
    (ha : isPyDigit a = true) (hb : isPyDigit b = true) :
    ∀ c ∈ kwAmtLine kw D a b, c ≠ '\n' := by
  intro c hc
  rcases kwAmtLine_mem hDd ha hb hc with h | h | rfl | rfl | rfl | rfl
  · exact hkw c h
  · exact digit_ne h (by decide)
  · decide
  · decide
  · decide
  · decide

theorem kwAmtLine_upper_fix {kw : String} {D : Chars} {a b : Char}
    (hkw : ∀ c ∈ kw.data, pyUpperChar c = c)
    (hDd : ∀ c ∈ D, isPyDigit c = true)
    (ha : isPyDigit a = true) (hb : isPyDigit b = true) :
    ∀ c ∈ kwAmtLine kw D a b, pyUpperChar c = c := by
  intro c hc
  rcases kwAmtLine_mem hDd ha hb hc with h | h | rfl | rfl | rfl | rfl
  · exact hkw c h
  · exact pyUpperChar_digit h
  · decide
  · decide
  · decide
  · decide

theorem kwAmtLine_strip {kw : String} {D : Chars} {a b : Char} {k : Char} {kr : Chars}
    (hk : kw.data = k :: kr) (hks : isPySpace k = false) :
    pyStrip (kwAmtLine kw D a b) = kwAmtLine kw D a b := by
  have h1 : (kwAmtLine kw D a b).dropWhile isPySpace = kwAmtLine kw D a b := by
    rw [show kwAmtLine kw D a b = k :: (kr ++ D ++ ',' :: a :: b :: " TL".data) from by
      rw [kwAmtLine, hk]; simp]
    exact dropWhile_cons_of_neg hks
  have h2 : (kwAmtLine kw D a b).reverse.dropWhile isPySpace
      = (kwAmtLine kw D a b).reverse := by
    rw [show (kwAmtLine kw D a b).reverse
        = 'L' :: ('T' :: ' ' :: b :: a :: ',' :: (D.reverse ++ kw.data.reverse)) from by
      rw [kwAmtLine]; simp]
    exact dropWhile_cons_of_neg (by decide)
  exact pyStrip_eq_self h1 h2

theorem kwAmtLine_ne_nil {kw : String} {D : Chars} {a b : Char} {k : Char} {kr : Chars}
    (hk : kw.data = k :: kr) : kwAmtLine kw D a b ≠ [] := by
  rw [show kwAmtLine kw D a b = k :: (kr ++ D ++ ',' :: a :: b :: " TL".data) from by
    rw [kwAmtLine, hk]; simp]
  simp

/-! ### Change-line filtering -/

theorem isChangeLine_false_of {line : Chars}
    (hR : 'R' ∉ line) (hU : 'U' ∉ line) (hUu : 'Ü' ∉ line)
    (hI1 : 'İ' ∉ line) (hI2 : 'I' ∉ line) :
    isChangeLine line = false := by
  unfold isChangeLine
  rw [containsL_eq_false_of_missing (show 'R' ∈ "PARA".data by decide) hR,
    containsL_eq_false_of_missing (show 'U' ∈ "UST".data by decide) hU,
    containsL_eq_false_of_missing (show 'Ü' ∈ "ÜST".data by decide) hUu,
    containsL_eq_false_of_missing (show 'İ' ∈ "İADE".data by decide) hI1,
    containsL_eq_false_of_missing (show 'I' ∈ "IADE".data by decide) hI2]
  simp

theorem isChangeLine_kwAmtLine_false {kw : String} {D : Chars} {a b : Char}
    (hkw : ∀ c ∈ kw.data, c ≠ 'R' ∧ c ≠ 'U' ∧ c ≠ 'Ü' ∧ c ≠ 'İ' ∧ c ≠ 'I')
    (hDd : ∀ c ∈ D, isPyDigit c = true)
    (ha : isPyDigit a = true) (hb : isPyDigit b = true) :
    isChangeLine (kwAmtLine kw D a b) = false := by
  have hnot : ∀ x : Char, isPyDigit x = false →
      x ∉ ([',', ' ', 'T', 'L'] : List Char) →
      (∀ c ∈ kw.data, c ≠ x) → x ∉ kwAmtLine kw D a b := by
    intro x hxd hxl hxkw hmem
    rcases kwAmtLine_mem hDd ha hb hmem with h | h | h | h | h | h
    · exact hxkw x h rfl
    · rw [hxd] at h; simp at h
    · exact hxl (by rw [h]; simp)
    · exact hxl (by rw [h]; simp)
    · exact hxl (by rw [h]; simp)
    · exact hxl (by rw [h]; simp)
  exact isChangeLine_false_of
    (hnot 'R' (by decide) (by decide) (fun c hc => (hkw c hc).1))
    (hnot 'U' (by decide) (by decide) (fun c hc => (hkw c hc).2.1))
    (hnot 'Ü' (by decide) (by decide) (fun c hc => (hkw c hc).2.2.1))
    (hnot 'İ' (by decide) (by decide) (fun c hc => (hkw c hc).2.2.2.1))
    (hnot 'I' (by decide) (by decide) (fun c hc => (hkw c hc).2.2.2.2))

theorem isChangeLine_true_of_UST {line : Chars}
    (h : containsL "ÜST".data line = true) : isChangeLine line = true := by
  unfold isChangeLine
  rw [h]
  simp

theorem containsL_UST_paraLine {E : Chars} {c d : Char} :
    containsL "ÜST".data (kwAmtLine "PARA ÜSTÜ: " E c d) = true := by
  have h : containsL "ÜST".data ("PARA ÜSTÜ: ".data : Chars) = true := by decide
  show containsL "ÜST".data ("PARA ÜSTÜ: ".data ++ (E ++ ',' :: c :: d :: " TL".data)) = true
  exact containsL_append_left _ h

theorem removeChangeLines_single {line : Chars} (hnl : ∀ c ∈ line, c ≠ '\n')
    (hline : isChangeLine line = false) : removeChangeLines line = [line] := by
  unfold removeChangeLines
  rw [splitNl_single hnl]
  simp [hline]

theorem removeChangeLines_drop_second {l1 l2 : Chars} (h1 : ∀ c ∈ l1, c ≠ '\n')
    (h2 : ∀ c ∈ l2, c ≠ '\n')
    (hc1 : isChangeLine l1 = false) (hc2 : isChangeLine l2 = true) :
    removeChangeLines (l1 ++ '\n' :: l2) = [l1] := by
  unfold removeChangeLines
  rw [splitNl_append l2 h1, splitNl_single h2]
  simp [hc1, hc2]

theorem removeChangeLines_drop_first {l1 l2 : Chars} (h1 : ∀ c ∈ l1, c ≠ '\n')
    (h2 : ∀ c ∈ l2, c ≠ '\n')
    (hc1 : isChangeLine l1 = true) (hc2 : isChangeLine l2 = false) :
    removeChangeLines (l1 ++ '\n' :: l2) = [l2] := by
  unfold removeChangeLines
  rw [splitNl_append l2 h1, splitNl_single h2]
  simp [hc1, hc2]

theorem removeChangeLines_keep_two {l1 l2 : Chars} (h1 : ∀ c ∈ l1, c ≠ '\n')
    (h2 : ∀ c ∈ l2, c ≠ '\n')
    (hc1 : isChangeLine l1 = false) (hc2 : isChangeLine l2 = false) :
    removeChangeLines (l1 ++ '\n' :: l2) = [l1, l2] := by
  unfold removeChangeLines
  rw [splitNl_append l2 h1, splitNl_single h2]
  simp [hc1, hc2]

/-! ### The tiers of `_extract_total_amount` -/

theorem extractTotalAmountE_of_toplam {upper : Chars} {l : List ℚ}
    (h : (collectAmounts (joinNl (removeChangeLines upper))).toplam = l)
    (hne : l ≠ []) : extractTotalAmountE upper = pyMinE l := by
  unfold extractTotalAmountE
  dsimp only
  rw [h, if_pos hne]

theorem extractTotalAmountE_isOk (upper : Chars) :
    ∃ v, extractTotalAmountE upper = .ok v := by
  unfold extractTotalAmountE
  dsimp only
  by_cases h1 : (collectAmounts (joinNl (removeChangeLines upper))).toplam ≠ []
  · rw [if_pos h1]
    exact pyMinE_ok h1
  · rw [if_neg h1]
    by_cases h2 : (collectAmounts (joinNl (removeChangeLines upper))).found ≠ []
    · rw [if_pos h2]
      exact pyMaxE_ok h2
    · rw [if_neg h2]
      by_cases h3 : trailingAmounts upper ≠ []
      · rw [if_pos h3]
        exact pyMaxE_ok h3
      · rw [if_neg h3]
        rcases hq : nearbyAmount? (splitNl upper) with _ | q
        · exact ⟨_, rfl⟩
        · exact ⟨q, rfl⟩

/-! ### Projections of `_parse_receipt_comprehensive` -/

theorem parseReceiptComprehensive_eq {s : String} {v : ℚ}
    (h : extractTotalAmountE (upperText s.data) = .ok v) :
    parseReceiptComprehensive s =
      { vendor_name := ⟨extractVendorName (parseLines s.data)⟩
        total_amount := v
        currency := "TL"
        date := extractPurchaseDate (upperText s.data)
        items := (extractPurchasedItems (parseLines s.data)).map (⟨·⟩)
        all_amounts := extractAllAmounts s.data
        line_items := extractLineItems (parseLines s.data)
        confidence := if v > 0 ∧ extractVendorName (parseLines s.data) ≠ "Unknown Vendor".data
                      then 95 / 100 else 7 / 10
        raw_text := ⟨s.data⟩ } := by
  unfold parseReceiptComprehensive parseReceiptComprehensiveE
  dsimp only
  rw [h]
  rfl

theorem parseReceiptComprehensiveE_eq_ok (s : String) :
    parseReceiptComprehensiveE s.data = .ok (parseReceiptComprehensive s) := by
  obtain ⟨v, hv⟩ := extractTotalAmountE_isOk (upperText s.data)
  rw [parseReceiptComprehensive_eq hv]
  unfold parseReceiptComprehensiveE
  dsimp only
  rw [hv]
  rfl

/-! ### General form of the collection loop -/

theorem foldl_collectStep_toplam {idx : Nat} (hidx : idx < 9) :
    ∀ (gs : List Chars) (a : AmountLists),
      (gs.foldl (collectStep idx) a).toplam
        = a.toplam ++ ((gs.map (fun g => toDecimal (removeSpacesL g))).filter
            (fun v => decide (0 < v))) := by
  intro gs
  induction gs with
  | nil => intro a; simp
  | cons g gs ih =>
    intro a
    rw [List.foldl_cons, ih]
    by_cases hv : 0 < toDecimal (removeSpacesL g)
    · rw [collectStep_pos hv]
      simp [hv, hidx]
    · rw [collectStep_nonpos hv]
      simp [hv]

theorem foldl_collectStep_found {idx : Nat} :
    ∀ (gs : List Chars) (a : AmountLists),
      (gs.foldl (collectStep idx) a).found
        = a.found ++ ((gs.map (fun g => toDecimal (removeSpacesL g))).filter
            (fun v => decide (0 < v))) := by
  intro gs
  induction gs with
  | nil => intro a; simp
  | cons g gs ih =>
    intro a
    rw [List.foldl_cons, ih]
    by_cases hv : 0 < toDecimal (removeSpacesL g)
    · rw [collectStep_pos hv]
      simp [hv]
    · rw [collectStep_nonpos hv]
      simp [hv]

theorem collectAll_cons (idx : Nat) (gs : List Chars) (rest : List (List Chars))
    (a : AmountLists) :
    collectAll idx (gs :: rest) a = collectAll (idx + 1) rest (gs.foldl (collectStep idx) a) :=
  rfl

theorem collectAll_nil (idx : Nat) (a : AmountLists) : collectAll idx [] a = a := rfl

/-- `toplam_amounts` as a function of the nine scans of patterns 0-8. -/
theorem collectAmounts_toplam_of_scans {s : Chars} {l0 l1 l2 l3 l4 l5 l6 l7 l8 : List Chars}
    (h0 : scan (matchKwPat pToplam) s = l0)
    (h1 : scan (matchKwPat pGenelToplam) s = l1)
    (h2 : scan (matchKwPat pToplamTutar) s = l2)
    (h3 : scan (matchKwPat pAraToplam) s = l3)
    (h4 : scan (matchKwPat pGenelTop) s = l4)
    (h5 : scan (matchKwPat pTopkdv) s = l5)
    (h6 : scan (matchKwPat pToplamTL) s = l6)
    (h7 : scan (matchKwPat pGenelToplamTL) s = l7)
    (h8 : scan (matchKwPat pToplamTutarTL) s = l8) :
    (collectAmounts s).toplam
      = (((l0 ++ l1 ++ l2 ++ l3 ++ l4 ++ l5 ++ l6 ++ l7 ++ l8).map
            (fun g => toDecimal (removeSpacesL g))).filter
          (fun v => decide (0 < v))) := by
  have hps : patternScans s
      = [scan (matchKwPat pToplam) s, scan (matchKwPat pGenelToplam) s,
         scan (matchKwPat pToplamTutar) s, scan (matchKwPat pAraToplam) s,
         scan (matchKwPat pGenelTop) s, scan (matchKwPat pTopkdv) s,
         scan (matchKwPat pToplamTL) s, scan (matchKwPat pGenelToplamTL) s,
         scan (matchKwPat pToplamTutarTL) s, scan (matchKwPat pNakit) s,
         scan (matchKwPat pKrediKarti) s, scan (matchKwPat pOdenen) s,
         scan (matchKwPat pTotal) s, scan (matchKwPat pGrandTotal) s,
         scan14 s] := rfl
  unfold collectAmounts
  rw [hps, h0, h1, h2, h3, h4, h5, h6, h7, h8]
  rw [collectAll_cons, collectAll_cons, collectAll_cons, collectAll_cons, collectAll_cons,
    collectAll_cons, collectAll_cons, collectAll_cons, collectAll_cons]
  rw [collectAll_toplam_ge9 _ _ _ (by omega)]
  rw [foldl_collectStep_toplam (by omega), foldl_collectStep_toplam (by omega),
    foldl_collectStep_toplam (by omega), foldl_collectStep_toplam (by omega),
    foldl_collectStep_toplam (by omega), foldl_collectStep_toplam (by omega),
    foldl_collectStep_toplam (by omega), foldl_collectStep_toplam (by omega),
    foldl_collectStep_toplam (by omega)]
  show ([] : List ℚ) ++ _ ++ _ ++ _ ++ _ ++ _ ++ _ ++ _ ++ _ ++ _ = _
  simp [List.filter_append]

/-- `found_amounts` as a function of all fifteen scans. -/
theorem collectAmounts_found_of_scans {s : Chars}
    {l0 l1 l2 l3 l4 l5 l6 l7 l8 l9 l10 l11 l12 l13 l14 : List Chars}
    (h0 : scan (matchKwPat pToplam) s = l0)
    (h1 : scan (matchKwPat pGenelToplam) s = l1)
    (h2 : scan (matchKwPat pToplamTutar) s = l2)
    (h3 : scan (matchKwPat pAraToplam) s = l3)
    (h4 : scan (matchKwPat pGenelTop) s = l4)
    (h5 : scan (matchKwPat pTopkdv) s = l5)
    (h6 : scan (matchKwPat pToplamTL) s = l6)
    (h7 : scan (matchKwPat pGenelToplamTL) s = l7)
    (h8 : scan (matchKwPat pToplamTutarTL) s = l8)
    (h9 : scan (matchKwPat pNakit) s = l9)
    (h10 : scan (matchKwPat pKrediKarti) s = l10)
    (h11 : scan (matchKwPat pOdenen) s = l11)
    (h12 : scan (matchKwPat pTotal) s = l12)
    (h13 : scan (matchKwPat pGrandTotal) s = l13)
    (h14 : scan14 s = l14) :
    (collectAmounts s).found
      = (((l0 ++ l1 ++ l2 ++ l3 ++ l4 ++ l5 ++ l6 ++ l7 ++ l8 ++ l9 ++ l10 ++ l11
            ++ l12 ++ l13 ++ l14).map (fun g => toDecimal (removeSpacesL g))).filter
          (fun v => decide (0 < v))) := by
  have hps : patternScans s
      = [scan (matchKwPat pToplam) s, scan (matchKwPat pGenelToplam) s,
         scan (matchKwPat pToplamTutar) s, scan (matchKwPat pAraToplam) s,
         scan (matchKwPat pGenelTop) s, scan (matchKwPat pTopkdv) s,
         scan (matchKwPat pToplamTL) s, scan (matchKwPat pGenelToplamTL) s,
         scan (matchKwPat pToplamTutarTL) s, scan (matchKwPat pNakit) s,
         scan (matchKwPat pKrediKarti) s, scan (matchKwPat pOdenen) s,
         scan (matchKwPat pTotal) s, scan (matchKwPat pGrandTotal) s,
         scan14 s] := rfl
  unfold collectAmounts
  rw [hps, h0, h1, h2, h3, h4, h5, h6, h7, h8, h9, h10, h11, h12, h13, h14]
  rw [collectAll_cons, collectAll_cons, collectAll_cons, collectAll_cons, collectAll_cons,
    collectAll_cons, collectAll_cons, collectAll_cons, collectAll_cons, collectAll_cons,
    collectAll_cons, collectAll_cons, collectAll_cons, collectAll_cons, collectAll_cons]
  rw [collectAll_nil]
  rw [foldl_collectStep_found, foldl_collectStep_found, foldl_collectStep_found,
    foldl_collectStep_found, foldl_collectStep_found, foldl_collectStep_found,
    foldl_collectStep_found, foldl_collectStep_found, foldl_collectStep_found,
    foldl_collectStep_found, foldl_collectStep_found, foldl_collectStep_found,
    foldl_collectStep_found, foldl_collectStep_found, foldl_collectStep_found]
  show ([] : List ℚ) ++ _ ++ _ ++ _ ++ _ ++ _ ++ _ ++ _ ++ _ ++ _ ++ _ ++ _ ++ _ ++ _ ++ _ = _
  simp [List.filter_append]

/-! ### The trailing-`TL` tier -/

theorem foldl_push_pos (gs : List Chars) (acc : List ℚ) :
    gs.foldl (fun a g => if toDecimal g > 0 then a ++ [toDecimal g] else a) acc
      = acc ++ (gs.map toDecimal).filter (fun v => decide (0 < v)) := by
  induction gs generalizing acc with
  | nil => simp
  | cons g gs ih =>
    rw [List.foldl_cons, ih]
    by_cases hv : 0 < toDecimal g
    · rw [if_pos hv]
      simp [hv]
    · rw [if_neg hv]
      simp [hv]

theorem trailingAmounts_single {l : Chars} (hnl : ∀ c ∈ l, c ≠ '\n') :
    trailingAmounts l
      = ((scan trailMatcher l).map toDecimal).filter (fun v => decide (0 < v)) := by
  unfold trailingAmounts
  rw [splitNl_single hnl]
  show ([l].reverse).foldl _ [] = _
  rw [show ([l].reverse : List Chars) = [l] from rfl]
  rw [List.foldl_cons, List.foldl_nil, foldl_push_pos]
  simp

theorem trailingAmounts_two {l1 l2 : Chars} (h1 : ∀ c ∈ l1, c ≠ '\n')
    (h2 : ∀ c ∈ l2, c ≠ '\n') :
    trailingAmounts (l1 ++ '\n' :: l2)
      = ((scan trailMatcher l2).map toDecimal).filter (fun v => decide (0 < v))
        ++ ((scan trailMatcher l1).map toDecimal).filter (fun v => decide (0 < v)) := by
  unfold trailingAmounts
  rw [splitNl_append l2 h1, splitNl_single h2]
  show ([l1, l2].reverse).foldl _ [] = _
  rw [show ([l1, l2].reverse : List Chars) = [l2, l1] from rfl]
  rw [List.foldl_cons, List.foldl_cons, List.foldl_nil, foldl_push_pos, foldl_push_pos]
  simp

/-! ### The remaining tiers of `_extract_total_amount` -/

theorem extractTotalAmountE_of_found {upper : Chars} {l : List ℚ}
    (ht : (collectAmounts (joinNl (removeChangeLines upper))).toplam = [])
    (h : (collectAmounts (joinNl (removeChangeLines upper))).found = l)
    (hne : l ≠ []) : extractTotalAmountE upper = pyMaxE l := by
  unfold extractTotalAmountE
  dsimp only
  rw [ht, h]
  rw [if_neg (by simp), if_pos hne]

theorem extractTotalAmountE_of_trailing {upper : Chars} {l : List ℚ}
    (ht : (collectAmounts (joinNl (removeChangeLines upper))).toplam = [])
    (hf : (collectAmounts (joinNl (removeChangeLines upper))).found = [])
    (h : trailingAmounts upper = l) (hne : l ≠ []) :
    extractTotalAmountE upper = pyMaxE l := by
  unfold extractTotalAmountE
  dsimp only
  rw [ht, hf, h]
  rw [if_neg (by simp), if_neg (by simp), if_pos hne]

theorem extractTotalAmountE_of_fallthrough {upper : Chars}
    (ht : (collectAmounts (joinNl (removeChangeLines upper))).toplam = [])
    (hf : (collectAmounts (joinNl (removeChangeLines upper))).found = [])
    (htr : trailingAmounts upper = [])
    (hn : nearbyAmount? (splitNl upper) = none)
    {s : ℚ} (hast : asteriskSum (splitNl upper) = s) :
    extractTotalAmountE upper = .ok (if s > 0 then s else 0) := by
  unfold extractTotalAmountE
  dsimp only
  rw [ht, hf, htr, hn, hast]
  rw [if_neg (by simp), if_neg (by simp), if_neg (by simp)]

theorem pyMaxE_single (v : ℚ) : pyMaxE [v] = .ok v := rfl

theorem pyMaxE_pair (v w : ℚ) : pyMaxE [v, w] = .ok (max v w) := rfl

/-! ### The trailing matcher on the claim texts -/

theorem matchAmountNum_nondigit {spaced : Bool} {c : Char} {cs : Chars}
    (h : isPyDigit c = false) : matchAmountNum spaced (c :: cs) = none := by
  unfold matchAmountNum
  rw [takeWhile_eq_nil_of_head h]
  simp

theorem trailMatcher_nondigit {c : Char} {cs : Chars}
    (h : isPyDigit c = false) : trailMatcher (c :: cs) = none := by
  unfold trailMatcher
  rw [matchAmountNum_nondigit h]
  rfl

theorem dropSpaces_spaceTL (rest : Chars) :
    dropSpaces (' ' :: 'T' :: 'L' :: rest) = 'T' :: 'L' :: rest := by
  unfold dropSpaces
  rw [List.dropWhile_cons]
  rw [if_pos (by decide)]
  exact dropWhile_cons_of_neg (by decide)

theorem matchTLSfx_req_spaceTL (rest : Chars) :
    matchTLSfx .reqSfx (' ' :: 'T' :: 'L' :: rest) = some rest := by
  show (if startsWithL "TL".data (dropSpaces (' ' :: 'T' :: 'L' :: rest)) = true then
      some ((dropSpaces (' ' :: 'T' :: 'L' :: rest)).drop 2)
    else if startsWithL "₺".data (dropSpaces (' ' :: 'T' :: 'L' :: rest)) = true then
      some ((dropSpaces (' ' :: 'T' :: 'L' :: rest)).drop 1)
    else none) = some rest
  rw [dropSpaces_spaceTL]
  rw [if_pos (by simp [startsWithL])]
  rfl

theorem trailMatcher_amt {D : Chars} {a b : Char} (rest : Chars) (hD : D ≠ [])
    (hDd : ∀ c ∈ D, isPyDigit c = true)
    (ha : isPyDigit a = true) (hb : isPyDigit b = true) :
    trailMatcher (D ++ ',' :: a :: b :: (' ' :: 'T' :: 'L' :: rest))
      = some (D ++ ',' :: [a, b], rest) := by
  unfold trailMatcher
  rw [matchAmountNum_comma false (' ' :: 'T' :: 'L' :: rest) hD hDd ha hb]
  dsimp only [Bind.bind, Option.bind]
  rw [matchTLSfx_req_spaceTL]
  rfl

theorem matchAmountNum_some_length_strict {spaced : Bool} {cs g r : Chars}
    (h : matchAmountNum spaced cs = some (g, r)) : r.length < cs.length := by
  have base : (cs.dropWhile isPyDigit).length ≤ cs.length := dropWhile_length_le _ cs
  unfold matchAmountNum at h
  split at h
  · exact absurd h (by simp)
  · split at h
    case h_2 => exact absurd h (by simp)
    case h_1 sep r3 heq =>
      have er3 : r3.length + 1 ≤ cs.length := by
        have : ((if spaced then (cs.dropWhile isPyDigit).dropWhile isPySpace
            else cs.dropWhile isPyDigit)).length ≤ (cs.dropWhile isPyDigit).length := by
          split
          · exact dropWhile_length_le _ _
          · exact le_refl _
        rw [heq] at this
        simp only [List.length_cons] at this
        omega
      split at h
      · split at h
        case h_2 => exact absurd h (by simp)
        case h_1 a b r5 heq2 =>
          have er5 : r5.length + 2 ≤ r3.length + 2 := by
            have : ((if spaced then r3.dropWhile isPySpace else r3)).length ≤ r3.length := by
              split
              · exact dropWhile_length_le _ _
              · exact le_refl _
            rw [heq2] at this
            simp only [List.length_cons] at this
            omega
          split at h
          · simp only [Option.some_inj, Prod.mk.injEq] at h
            rw [← h.2]
            omega
          · exact absurd h (by simp)
      · exact absurd h (by simp)

theorem consumes_trailMatcher : Consumes trailMatcher := by
  intro cs g r h
  unfold trailMatcher at h
  cases hm : matchAmountNum false cs with
  | none =>
    rw [hm] at h
    exact absurd h (by simp [Bind.bind, Option.bind])
  | some p =>
    obtain ⟨g0, r0⟩ := p
    rw [hm] at h
    dsimp only [Bind.bind, Option.bind] at h
    cases hs : matchTLSfx .reqSfx r0 with
    | none =>
      rw [hs] at h
      exact absurd h (by simp)
    | some r1 =>
      rw [hs] at h
      have hgr : g = g0 ∧ r = r1 := by
        have : (some (g0, r1) : Option (Chars × Chars)) = some (g, r) := h
        simp only [Option.some_inj, Prod.mk.injEq] at this
        exact ⟨this.1.symm, this.2.symm⟩
      have h1 := matchAmountNum_some_length_strict hm
      have h2 := matchTLSfx_length hs
      rw [hgr.2]
      omega

/-- `re.finditer` of the trailing pattern over the `TOPLAM: D,ab TL` line:
exactly the amount-plus-`TL` occurrence. -/
theorem scan_T1_trail {D : Chars} {a b : Char} (hD : D ≠ [])
    (hDd : ∀ c ∈ D, isPyDigit c = true) (ha : isPyDigit a = true)
    (hb : isPyDigit b = true) :
    scan trailMatcher (kwAmtLine "TOPLAM: " D a b) = [D ++ ',' :: [a, b]] := by
  obtain ⟨d, D', rfl⟩ : ∃ d D', D = d :: D' := by
    cases D with
    | nil => exact absurd rfl hD
    | cons d D' => exact ⟨d, D', rfl⟩
  have hm : trailMatcher (d :: (D' ++ ',' :: a :: b :: (' ' :: 'T' :: 'L' :: [])))
      = some ((d :: D') ++ ',' :: [a, b], ([] : Chars)) :=
    trailMatcher_amt ([] : Chars) (by simp) hDd ha hb
  rw [show kwAmtLine "TOPLAM: " (d :: D') a b
      = 'T' :: ('O' :: 'P' :: 'L' :: 'A' :: 'M' :: ':' :: ' '
          :: (d :: (D' ++ ',' :: a :: b :: (' ' :: 'T' :: 'L' :: [])))) from by
    rw [kwAmtLine]; simp]
  rw [scan_cons_none (trailMatcher_nondigit (by decide)),
    scan_cons_none (trailMatcher_nondigit (by decide)),
    scan_cons_none (trailMatcher_nondigit (by decide)),
    scan_cons_none (trailMatcher_nondigit (by decide)),
    scan_cons_none (trailMatcher_nondigit (by decide)),
    scan_cons_none (trailMatcher_nondigit (by decide)),
    scan_cons_none (trailMatcher_nondigit (by decide)),
    scan_cons_none (trailMatcher_nondigit (by decide))]
  rw [scan_cons_some consumes_trailMatcher hm]
  rfl

/-! ### The fallback pattern (index 14) on the claim texts -/

theorem try14core_nondigit {c : Char} {cs : Chars} (h : isPyDigit c = false) :
    try14core (c :: cs) = none := by
  unfold try14core
  rw [takeWhile_eq_nil_of_head h]
  simp

theorem try14core_single {d x : Char} {rest : Chars} (hd : isPyDigit d = true)
    (hx : isPyDigit x = false) : try14core (d :: x :: rest) = none := by
  have h1 : (d :: x :: rest).takeWhile isPyDigit = [d] := by
    rw [List.takeWhile_cons, if_pos hd, List.takeWhile_cons,
      if_neg (show ¬(isPyDigit x = true) from by simp [hx])]
  unfold try14core
  dsimp only
  rw [h1]
  rfl

theorem try14core_sep_space {a b : Char} {rest : Chars}
    (ha : isPyDigit a = true) (hb : isPyDigit b = true) :
    try14core (a :: b :: ' ' :: rest) = none := by
  have h1 : (a :: b :: ' ' :: rest).takeWhile isPyDigit = [a, b] := by
    rw [List.takeWhile_cons, if_pos ha, List.takeWhile_cons, if_pos hb,
      List.takeWhile_cons, if_neg (show ¬(isPyDigit ' ' = true) from by decide)]
  have h2 : (a :: b :: ' ' :: rest).dropWhile isPyDigit = ' ' :: rest := by
    rw [List.dropWhile_cons, if_pos ha, List.dropWhile_cons, if_pos hb,
      List.dropWhile_cons, if_neg (show ¬(isPyDigit ' ' = true) from by decide)]
  unfold try14core
  dsimp only
  rw [h1, h2]
  rfl

theorem lazy14_step {c : Char} {cs : Chars} (h1 : try14core (c :: cs) = none)
    (h2 : c ≠ '\n') : lazy14 (c :: cs) = lazy14 cs := by
  conv_lhs => unfold lazy14
  rw [h1]
  dsimp only
  rw [if_neg h2]

theorem lazy14_found {c : Char} {cs : Chars} {r : Chars × Chars × Bool}
    (h : try14core (c :: cs) = some r) : lazy14 (c :: cs) = some r := by
  unfold lazy14
  rw [h]

theorem try14core_long {d1 d2 : Char} {D'' : Chars} {a b : Char}
    (hDd : ∀ c ∈ d1 :: d2 :: D'', isPyDigit c = true)
    (ha : isPyDigit a = true) (hb : isPyDigit b = true) :
    try14core ((d1 :: d2 :: D'') ++ ',' :: a :: b :: (' ' :: 'T' :: 'L' :: []))
      = some ((d1 :: d2 :: D'') ++ ',' :: [a, b], [], true) := by
  have htake : ((d1 :: d2 :: D'') ++ ',' :: a :: b :: (' ' :: 'T' :: 'L' :: [])).takeWhile
      isPyDigit = d1 :: d2 :: D'' := by
    rw [takeWhile_append_all hDd, takeWhile_eq_nil_of_head (by decide)]
    simp
  have hdrop : ((d1 :: d2 :: D'') ++ ',' :: a :: b :: (' ' :: 'T' :: 'L' :: [])).dropWhile
      isPyDigit = ',' :: a :: b :: (' ' :: 'T' :: 'L' :: []) := by
    rw [dropWhile_append_all hDd, dropWhile_cons_of_neg (by decide)]
  unfold try14core
  dsimp only
  rw [htake, hdrop]
  rw [if_neg (show ¬((d1 :: d2 :: D'' : Chars).length < 2) from by simp)]
  dsimp only
  rw [if_pos (show (a.isDigit = true ∧ b.isDigit = true) from ⟨ha, hb⟩)]
  rfl

theorem scan14Aux_nil_input : ∀ (f : Nat) (b : Bool), scan14Aux f b [] = [] := by
  intro f b
  cases f <;> rfl

theorem scan14Aux_nil_noNl :
    ∀ {cs : Chars}, (∀ c ∈ cs, c ≠ '\n') → lazy14 cs = none →
      ∀ (f : Nat) (b : Bool), scan14Aux f b cs = [] := by
  intro cs
  induction cs with
  | nil => intro _ _ f b; exact scan14Aux_nil_input f b
  | cons c cs ih =>
    intro hnl hl f b
    have hc : c ≠ '\n' := hnl c (by simp)
    have hl' : try14core (c :: cs) = none ∧ lazy14 cs = none := by
      unfold lazy14 at hl
      cases ht : try14core (c :: cs) with
      | some r => rw [ht] at hl; simp at hl
      | none =>
        rw [ht, if_neg hc] at hl
        exact ⟨rfl, hl⟩
    have hih := ih (fun x hx => hnl x (by simp [hx])) hl'.2
    cases f with
    | zero => rfl
    | succ f =>
      show (if b = true then
          match lazy14 (c :: cs) with
          | some (g, rest, nl) => g :: scan14Aux f nl rest
          | none => scan14Aux f (decide (c = '\n')) cs
        else if c = '\n' then
          match lazy14 cs with
          | some (g, rest, nl) => g :: scan14Aux f nl rest
          | none => scan14Aux f true cs
        else scan14Aux f false cs) = []
      cases b
      · rw [if_neg (by simp), if_neg hc]
        exact hih f false
      · rw [if_pos rfl, hl]
        exact hih f (decide (c = '\n'))

theorem scan14_T1_long {d1 d2 : Char} {D'' : Chars} {a b : Char}
    (hDd : ∀ c ∈ d1 :: d2 :: D'', isPyDigit c = true)
    (ha : isPyDigit a = true) (hb : isPyDigit b = true) :
    scan14 (kwAmtLine "TOPLAM: " (d1 :: d2 :: D'') a b)
      = [(d1 :: d2 :: D'') ++ ',' :: [a, b]] := by
  have hlz : lazy14 (kwAmtLine "TOPLAM: " (d1 :: d2 :: D'') a b)
      = some ((d1 :: d2 :: D'') ++ ',' :: [a, b], [], true) := by
    rw [show kwAmtLine "TOPLAM: " (d1 :: d2 :: D'') a b
        = 'T' :: ('O' :: 'P' :: 'L' :: 'A' :: 'M' :: ':' :: ' '
            :: ((d1 :: d2 :: D'') ++ ',' :: a :: b :: (' ' :: 'T' :: 'L' :: []))) from by
      rw [kwAmtLine]; simp]
    rw [lazy14_step (try14core_nondigit (by decide)) (by decide),
      lazy14_step (try14core_nondigit (by decide)) (by decide),
      lazy14_step (try14core_nondigit (by decide)) (by decide),
      lazy14_step (try14core_nondigit (by decide)) (by decide),
      lazy14_step (try14core_nondigit (by decide)) (by decide),
      lazy14_step (try14core_nondigit (by decide)) (by decide),
      lazy14_step (try14core_nondigit (by decide)) (by decide),
      lazy14_step (try14core_nondigit (by decide)) (by decide)]
    rw [show ((d1 :: d2 :: D'') ++ ',' :: a :: b :: (' ' :: 'T' :: 'L' :: []) : Chars)
        = d1 :: (d2 :: D'' ++ ',' :: a :: b :: (' ' :: 'T' :: 'L' :: [])) from by simp]
    exact lazy14_found (by
      have := try14core_long hDd ha hb
      simpa using this)
  show scan14Aux ((kwAmtLine "TOPLAM: " (d1 :: d2 :: D'') a b).length + 1) true
      (kwAmtLine "TOPLAM: " (d1 :: d2 :: D'') a b) = _
  rw [show kwAmtLine "TOPLAM: " (d1 :: d2 :: D'') a b
      = 'T' :: ('O' :: 'P' :: 'L' :: 'A' :: 'M' :: ':' :: ' '
          :: ((d1 :: d2 :: D'') ++ ',' :: a :: b :: (' ' :: 'T' :: 'L' :: []))) from by
    rw [kwAmtLine]; simp] at hlz ⊢
  conv_lhs => unfold scan14Aux
  rw [if_pos rfl, hlz]
  dsimp only
  rw [scan14Aux_nil_input]

theorem scan14_T1_short {d : Char} {a b : Char} (hd : isPyDigit d = true)
    (ha : isPyDigit a = true) (hb : isPyDigit b = true) :
    scan14 (kwAmtLine "TOPLAM: " [d] a b) = [] := by
  have hnl : ∀ c ∈ kwAmtLine "TOPLAM: " [d] a b, c ≠ '\n' :=
    kwAmtLine_no_nl (by decide) (by intro c hc; simp at hc; rw [hc]; exact hd) ha hb
  have hlz : lazy14 (kwAmtLine "TOPLAM: " [d] a b) = none := by
    rw [show kwAmtLine "TOPLAM: " [d] a b
        = 'T' :: ('O' :: 'P' :: 'L' :: 'A' :: 'M' :: ':' :: ' '
            :: (d :: ',' :: a :: b :: (' ' :: 'T' :: 'L' :: []))) from by
      rw [kwAmtLine]; simp]
    rw [lazy14_step (try14core_nondigit (by decide)) (by decide),
      lazy14_step (try14core_nondigit (by decide)) (by decide),
      lazy14_step (try14core_nondigit (by decide)) (by decide),
      lazy14_step (try14core_nondigit (by decide)) (by decide),
      lazy14_step (try14core_nondigit (by decide)) (by decide),
      lazy14_step (try14core_nondigit (by decide)) (by decide),
      lazy14_step (try14core_nondigit (by decide)) (by decide),
      lazy14_step (try14core_nondigit (by decide)) (by decide)]
    rw [lazy14_step (try14core_single hd (by decide)) (digit_ne hd (by decide)),
      lazy14_step (try14core_nondigit (by decide)) (by decide),
      lazy14_step (try14core_sep_space ha hb) (digit_ne ha (by decide)),
      lazy14_step (try14core_single hb (by decide)) (digit_ne hb (by decide)),
      lazy14_step (try14core_nondigit (by decide)) (by decide),
      lazy14_step (try14core_nondigit (by decide)) (by decide),
      lazy14_step (try14core_nondigit (by decide)) (by decide)]
    rfl
  exact scan14Aux_nil_noNl hnl hlz _ _

/-! ### Nearby and item-sum tiers on the `TOPLAM: D,ab TL` line -/

theorem fullLineAmount_T1 {D : Chars} {a b : Char} :
    fullLineAmount? (kwAmtLine "TOPLAM: " D a b) = none := rfl

theorem nearby_T1 {D : Chars} {a b : Char} :
    nearbyScan [kwAmtLine "TOPLAM: " D a b] 0 [kwAmtLine "TOPLAM: " D a b] = none := rfl

theorem hs_astMatcher : HeadSet astMatcher ['*'] := by
  intro c cs hc
  have hne : c ≠ '*' := by simpa using hc
  unfold astMatcher
  split
  case h_1 t heq =>
    injection heq with h1 _
    exact absurd h1 hne
  case h_2 => rfl

theorem scan_T1_ast {D : Chars} {a b : Char}
    (hDd : ∀ c ∈ D, isPyDigit c = true) (ha : isPyDigit a = true)
    (hb : isPyDigit b = true) :
    scan astMatcher (kwAmtLine "TOPLAM: " D a b) = [] :=
  scan_eq_nil hs_astMatcher _ (fun c hc => by
    rcases kwAmtLine_mem hDd ha hb hc with h | h | rfl | rfl | rfl | rfl
    · have h' : c ∈ (['T', 'O', 'P', 'L', 'A', 'M', ':', ' '] : List Char) := h
      fin_cases h' <;> decide
    · exact notin_of_digit h (by decide)
    · decide
    · decide
    · decide
    · decide)

theorem asteriskSum_single_zero {l : Chars} (h : scan astMatcher l = []) :
    asteriskSum [l] = 0 := by
  unfold asteriskSum
  rw [List.foldl_cons, List.foldl_nil]
  dsimp only
  rw [h, List.foldl_nil]

theorem amtVal_nonneg (D : Chars) (a b : Char) : 0 ≤ amtVal D a b := by
  unfold amtVal
  positivity

/-- The core of claim C1: `_extract_total_amount` on the single line
`TOPLAM: D,ab TL` returns exactly the value `D.ab`, including the
all-zeros case, where every tier comes up empty and the final guard
returns `0.0`. -/
theorem extractTotal_T1 {D : Chars} {a b : Char} (hD : D ≠ [])
    (hDd : ∀ c ∈ D, isPyDigit c = true) (ha : isPyDigit a = true)
    (hb : isPyDigit b = true) :
    extractTotalAmountE (kwAmtLine "TOPLAM: " D a b) = .ok (amtVal D a b) := by
  have hnl : ∀ c ∈ kwAmtLine "TOPLAM: " D a b, c ≠ '\n' :=
    kwAmtLine_no_nl (by decide) hDd ha hb
  have hsearch : joinNl (removeChangeLines (kwAmtLine "TOPLAM: " D a b))
      = kwAmtLine "TOPLAM: " D a b := by
    rw [removeChangeLines_single hnl (isChangeLine_kwAmtLine_false (by decide) hDd ha hb)]
    rfl
  have hval : toDecimal (removeSpacesL (D ++ ',' :: [a, b])) = amtVal D a b := by
    rw [removeSpacesL_amt_group hDd ha hb, toDecimal_comma hD hDd ha hb]
  have hG1 : ∀ c : Char, isPyDigit c = true → c ∉ (['G'] : List Char) :=
    fun c h => notin_of_digit h (by decide)
  have hG2 : ∀ c ∈ ("TOPLAM: ,".data : Chars), c ∉ (['G'] : List Char) := by decide
  have htop : (collectAmounts (joinNl (removeChangeLines (kwAmtLine "TOPLAM: " D a b)))).toplam
      = if 0 < amtVal D a b then [amtVal D a b, amtVal D a b] else [] := by
    rw [hsearch]
    rw [collectAmounts_toplam_single (scan_T1_pToplam hD hDd ha hb)
      (scan_T1_headset_nil hsGenelToplam hDd ha hb hG1 hG2)
      (scan_T1_pToplamTutar hDd ha hb) (scan_T1_pAraToplam hDd ha hb)
      (scan_T1_headset_nil hsGenelTop hDd ha hb hG1 hG2)
      (scan_T1_pTopkdv hDd ha hb) (scan_T1_pToplamTL hD hDd ha hb)
      (scan_T1_headset_nil hsGenelToplamTL hDd ha hb hG1 hG2)
      (scan_T1_pToplamTutarTL hDd ha hb)]
    rw [hval]
  by_cases hv : 0 < amtVal D a b
  · rw [extractTotalAmountE_of_toplam (htop.trans (if_pos hv)) (by simp), pyMinE_pair]
  · have hv0 : amtVal D a b = 0 := le_antisymm (not_lt.mp hv) (amtVal_nonneg D a b)
    have hN1 : ∀ c : Char, isPyDigit c = true → c ∉ (['N'] : List Char) :=
      fun c h => notin_of_digit h (by decide)
    have hN2 : ∀ c ∈ ("TOPLAM: ,".data : Chars), c ∉ (['N'] : List Char) := by decide
    have hK1 : ∀ c : Char, isPyDigit c = true → c ∉ (['K'] : List Char) :=
      fun c h => notin_of_digit h (by decide)
    have hK2 : ∀ c ∈ ("TOPLAM: ,".data : Chars), c ∉ (['K'] : List Char) := by decide
    have hfound : (collectAmounts (joinNl
        (removeChangeLines (kwAmtLine "TOPLAM: " D a b)))).found = [] := by
      rw [hsearch]
      obtain ⟨d, D', rfl⟩ : ∃ d D', D = d :: D' := by
        cases D with
        | nil => exact absurd rfl hD
        | cons d D' => exact ⟨d, D', rfl⟩
      cases D' with
      | nil =>
        rw [collectAmounts_found_of_scans (scan_T1_pToplam hD hDd ha hb)
          (scan_T1_headset_nil hsGenelToplam hDd ha hb hG1 hG2)
          (scan_T1_pToplamTutar hDd ha hb) (scan_T1_pAraToplam hDd ha hb)
          (scan_T1_headset_nil hsGenelTop hDd ha hb hG1 hG2)
          (scan_T1_pTopkdv hDd ha hb) (scan_T1_pToplamTL hD hDd ha hb)
          (scan_T1_headset_nil hsGenelToplamTL hDd ha hb hG1 hG2)
          (scan_T1_pToplamTutarTL hDd ha hb)
          (scan_T1_headset_nil hsNakit hDd ha hb hN1 hN2)
          (scan_T1_headset_nil hsKrediKarti hDd ha hb hK1 hK2)
          (scan_T1_pOdenen hDd ha hb) (scan_T1_pTotal hDd ha hb)
          (scan_T1_headset_nil hsGrandTotal hDd ha hb hG1 hG2)
          (scan14_T1_short (hDd _ (by simp)) ha hb)]
        simp only [List.append_nil, List.nil_append, List.map_cons, List.map_nil,
          List.filter, hval, hv0]
        simp
      | cons d2 D'' =>
        rw [collectAmounts_found_of_scans (scan_T1_pToplam hD hDd ha hb)
          (scan_T1_headset_nil hsGenelToplam hDd ha hb hG1 hG2)
          (scan_T1_pToplamTutar hDd ha hb) (scan_T1_pAraToplam hDd ha hb)
          (scan_T1_headset_nil hsGenelTop hDd ha hb hG1 hG2)
          (scan_T1_pTopkdv hDd ha hb) (scan_T1_pToplamTL hD hDd ha hb)
          (scan_T1_headset_nil hsGenelToplamTL hDd ha hb hG1 hG2)
          (scan_T1_pToplamTutarTL hDd ha hb)
          (scan_T1_headset_nil hsNakit hDd ha hb hN1 hN2)
          (scan_T1_headset_nil hsKrediKarti hDd ha hb hK1 hK2)
          (scan_T1_pOdenen hDd ha hb) (scan_T1_pTotal hDd ha hb)
          (scan_T1_headset_nil hsGrandTotal hDd ha hb hG1 hG2)
          (scan14_T1_long hDd ha hb)]
        simp only [List.append_nil, List.nil_append, List.map_cons, List.map_nil,
          List.filter, hval, hv0]
        simp
    have hsp : splitNl (kwAmtLine "TOPLAM: " D a b) = [kwAmtLine "TOPLAM: " D a b] :=
      splitNl_single hnl
    have htrail : trailingAmounts (kwAmtLine "TOPLAM: " D a b) = [] := by
      rw [trailingAmounts_single hnl, scan_T1_trail hD hDd ha hb]
      simp only [List.map_cons, List.map_nil, List.filter]
      rw [show toDecimal (D ++ ',' :: [a, b]) = amtVal D a b from
        toDecimal_comma hD hDd ha hb, hv0]
      simp
    have hnear : nearbyAmount? (splitNl (kwAmtLine "TOPLAM: " D a b)) = none := by
      rw [hsp]
      exact nearby_T1
    have hast : asteriskSum (splitNl (kwAmtLine "TOPLAM: " D a b)) = 0 := by
      rw [hsp]
      exact asteriskSum_single_zero (scan_T1_ast hDd ha hb)
    rw [extractTotalAmountE_of_fallthrough (htop.trans (if_neg hv)) hfound htrail hnear hast]
    rw [hv0]
    norm_num

theorem upperText_T1 {D : Chars} {a b : Char}
    (hDd : ∀ c ∈ D, isPyDigit c = true) (ha : isPyDigit a = true)
    (hb : isPyDigit b = true) :
    upperText (kwAmtLine "TOPLAM: " D a b) = kwAmtLine "TOPLAM: " D a b :=
  upperText_single (kwAmtLine_no_nl (by decide) hDd ha hb)
    (kwAmtLine_strip rfl (by decide)) (kwAmtLine_ne_nil rfl)
    (kwAmtLine_upper_fix (by decide) hDd ha hb)

theorem parseReceipt_T1_proj {D : Chars} {a b : Char} (hD : D ≠ [])
    (hDd : ∀ c ∈ D, isPyDigit c = true) (ha : isPyDigit a = true)
    (hb : isPyDigit b = true) :
    (parseReceiptComprehensive (String.mk (kwAmtLine "TOPLAM: " D a b))).total_amount
        = amtVal D a b
    ∧ (parseReceiptComprehensive (String.mk (kwAmtLine "TOPLAM: " D a b))).currency
        = "TL" := by
  have h : extractTotalAmountE (upperText (String.mk (kwAmtLine "TOPLAM: " D a b)).data)
      = .ok (amtVal D a b) := by
    show extractTotalAmountE (upperText (kwAmtLine "TOPLAM: " D a b)) = _
    rw [upperText_T1 hDd ha hb]
    exact extractTotal_T1 hD hDd ha hb
  rw [parseReceiptComprehensive_eq h]
  exact ⟨rfl, rfl⟩

/-- `GENEL TOPLAM: 118,89 TL` alone: the keyword tier matches patterns
0, 1, 6 and 7, all with the group `118,89`. -/
theorem extractTotal_genel :
    extractTotalAmountE ("GENEL TOPLAM: 118,89 TL".data) = .ok (11889 / 100) := by
  have hval : toDecimal (removeSpacesL ("118,89".data)) = 11889 / 100 := by
    rw [show removeSpacesL ("118,89".data) = ("118,89".data : Chars) from rfl]
    rw [show ("118,89".data : Chars) = (['1', '1', '8'] : Chars) ++ ',' :: ['8', '9'] from rfl]
    rw [toDecimal_comma (by decide) (by decide) (by decide) (by decide)]
    unfold amtVal
    rw [show digitsToNat ['1', '1', '8'] = 118 from rfl,
      show (('8' : Char).toNat - 48) * 10 + (('9' : Char).toNat - 48) = 89 from rfl]
    norm_num
  have h0 : scan (matchKwPat pToplam) ("GENEL TOPLAM: 118,89 TL".data)
      = ["118,89".data] := by decide
  have h1 : scan (matchKwPat pGenelToplam) ("GENEL TOPLAM: 118,89 TL".data)
      = ["118,89".data] := by decide
  have h2 : scan (matchKwPat pToplamTutar) ("GENEL TOPLAM: 118,89 TL".data) = [] := by decide
  have h3 : scan (matchKwPat pAraToplam) ("GENEL TOPLAM: 118,89 TL".data) = [] := by decide
  have h4 : scan (matchKwPat pGenelTop) ("GENEL TOPLAM: 118,89 TL".data) = [] := by decide
  have h5 : scan (matchKwPat pTopkdv) ("GENEL TOPLAM: 118,89 TL".data) = [] := by decide
  have h6 : scan (matchKwPat pToplamTL) ("GENEL TOPLAM: 118,89 TL".data)
      = ["118,89".data] := by decide
  have h7 : scan (matchKwPat pGenelToplamTL) ("GENEL TOPLAM: 118,89 TL".data)
      = ["118,89".data] := by decide
  have h8 : scan (matchKwPat pToplamTutarTL) ("GENEL TOPLAM: 118,89 TL".data) = [] := by decide
  have hpos : (0 : ℚ) < 11889 / 100 := by norm_num
  have htop : (collectAmounts (joinNl
      (removeChangeLines ("GENEL TOPLAM: 118,89 TL".data)))).toplam
      = [11889 / 100, 11889 / 100, 11889 / 100, 11889 / 100] := by
    rw [show joinNl (removeChangeLines ("GENEL TOPLAM: 118,89 TL".data))
        = "GENEL TOPLAM: 118,89 TL".data from by decide]
    rw [collectAmounts_toplam_of_scans h0 h1 h2 h3 h4 h5 h6 h7 h8]
    simp only [List.append_nil, List.nil_append, List.map_cons, List.map_nil,
      List.filter, hval]
    simp [hpos]
  rw [extractTotalAmountE_of_toplam htop (by simp)]
  simp [pyMinE]

/-! ### Scans over the two-line text `TOPLAM: D,ab TL \n TOPKDV: E,cd TL` -/

theorem mem_twoKw {kw1 kw2 : String} {D : Chars} {a b : Char} {E : Chars} {c d x : Char}
    (hDd : ∀ y ∈ D, isPyDigit y = true) (ha : isPyDigit a = true) (hb : isPyDigit b = true)
    (hEd : ∀ y ∈ E, isPyDigit y = true) (hc : isPyDigit c = true) (hd : isPyDigit d = true)
    (hx : x ∈ kwAmtLine kw1 D a b ++ '\n' :: kwAmtLine kw2 E c d) :
    (x ∈ kw1.data ∨ x ∈ kw2.data) ∨ isPyDigit x = true
      ∨ x ∈ ([',', ' ', 'T', 'L', '\n'] : List Char) := by
  rcases List.mem_append.mp hx with hx | hx
  · rcases kwAmtLine_mem hDd ha hb hx with h | h | rfl | rfl | rfl | rfl
    · exact Or.inl (Or.inl h)
    · exact Or.inr (Or.inl h)
    · exact Or.inr (Or.inr (by decide))
    · exact Or.inr (Or.inr (by decide))
    · exact Or.inr (Or.inr (by decide))
    · exact Or.inr (Or.inr (by decide))
  · rcases List.mem_cons.mp hx with rfl | hx
    · exact Or.inr (Or.inr (by decide))
    · rcases kwAmtLine_mem hEd hc hd hx with h | h | rfl | rfl | rfl | rfl
      · exact Or.inl (Or.inr h)
      · exact Or.inr (Or.inl h)
      · exact Or.inr (Or.inr (by decide))
      · exact Or.inr (Or.inr (by decide))
      · exact Or.inr (Or.inr (by decide))
      · exact Or.inr (Or.inr (by decide))

/-- Scan of a `G`-headed pattern over the two-line text: no `G` occurs. -/
theorem scan_T3_G_nil {m : Chars → Option (Chars × Chars)}
    (hh : HeadSet m ['G']) {D : Chars} {a b : Char} {E : Chars} {c d : Char}
    (hDd : ∀ y ∈ D, isPyDigit y = true) (ha : isPyDigit a = true) (hb : isPyDigit b = true)
    (hEd : ∀ y ∈ E, isPyDigit y = true) (hc : isPyDigit c = true) (hd : isPyDigit d = true) :
    scan m (kwAmtLine "TOPLAM: " D a b ++ '\n' :: kwAmtLine "TOPKDV: " E c d) = [] :=
  scan_eq_nil hh _ (fun x hx => by
    rcases mem_twoKw hDd ha hb hEd hc hd hx with (h | h) | h | h
    · have h' : x ∈ (['T', 'O', 'P', 'L', 'A', 'M', ':', ' '] : List Char) := h
      fin_cases h' <;> decide
    · have h' : x ∈ (['T', 'O', 'P', 'K', 'D', 'V', ':', ' '] : List Char) := h
      fin_cases h' <;> decide
    · exact notin_of_digit h (by decide)
    · fin_cases h <;> decide)

/-- Scan over the `TOPKDV: E,cd TL` line for a `T`-headed pattern that fails
on `TOPK` and on `TL`. -/
theorem scan_kwTOPKDV_nil_T {m : Chars → Option (Chars × Chars)}
    (hh : HeadSet m ['T'])
    (hfK : ∀ rest, m ('T' :: 'O' :: 'P' :: 'K' :: rest) = none)
    (hfTL : ∀ rest, m ('T' :: 'L' :: rest) = none)
    {E : Chars} {c d : Char} (hEd : ∀ y ∈ E, isPyDigit y = true)
    (hc : isPyDigit c = true) (hd : isPyDigit d = true) :
    scan m (kwAmtLine "TOPKDV: " E c d) = [] := by
  rw [show kwAmtLine "TOPKDV: " E c d
      = 'T' :: ('O' :: 'P' :: 'K' :: 'D' :: 'V' :: ':' :: ' '
          :: (E ++ ',' :: c :: d :: (' ' :: 'T' :: 'L' :: []))) from rfl]
  rw [scan_cons_none (hfK _)]
  rw [show ('O' :: 'P' :: 'K' :: 'D' :: 'V' :: ':' :: ' '
        :: (E ++ ',' :: c :: d :: (' ' :: 'T' :: 'L' :: [])) : Chars)
      = (['O', 'P', 'K', 'D', 'V', ':', ' '] ++ E)
          ++ (',' :: c :: d :: (' ' :: 'T' :: 'L' :: [])) from by simp]
  rw [scan_skip hh _ _ (by
    intro x hx
    rcases List.mem_append.mp hx with hx | hx
    · fin_cases hx <;> decide
    · exact notin_of_digit (hEd x hx) (by decide))]
  rw [scan_cons_none (hh ',' _ (by decide)),
    scan_cons_none (hh c _ (notin_of_digit hc (by decide))),
    scan_cons_none (hh d _ (notin_of_digit hd (by decide))),
    scan_cons_none (hh ' ' _ (by decide)),
    scan_cons_none (hfTL _),
    scan_cons_none (hh 'L' _ (by decide))]
  rfl

/-- Scan of a `T`-headed pattern that fails everywhere on the two-line text. -/
theorem scan_T3_nil_T {m : Chars → Option (Chars × Chars)}
    (hh : HeadSet m ['T']) {D : Chars} {a b : Char} {E : Chars} {c d : Char}
    (hDd : ∀ y ∈ D, isPyDigit y = true) (ha : isPyDigit a = true) (hb : isPyDigit b = true)
    (hEd : ∀ y ∈ E, isPyDigit y = true) (hc : isPyDigit c = true) (hd : isPyDigit d = true)
    (hfL1 : m (kwAmtLine "TOPLAM: " D a b ++ '\n' :: kwAmtLine "TOPKDV: " E c d) = none)
    (hfK : ∀ rest, m ('T' :: 'O' :: 'P' :: 'K' :: rest) = none)
    (hfTL : ∀ rest, m ('T' :: 'L' :: rest) = none) :
    scan m (kwAmtLine "TOPLAM: " D a b ++ '\n' :: kwAmtLine "TOPKDV: " E c d) = [] := by
  have e : kwAmtLine "TOPLAM: " D a b ++ '\n' :: kwAmtLine "TOPKDV: " E c d
      = 'T' :: ('O' :: 'P' :: 'L' :: 'A' :: 'M' :: ':' :: ' '
          :: (D ++ ',' :: a :: b :: (' ' :: 'T' :: 'L'
            :: ('\n' :: kwAmtLine "TOPKDV: " E c d)))) := by
    rw [kwAmtLine]
    simp
  rw [e] at hfL1 ⊢
  rw [scan_cons_none hfL1]
  rw [show ('O' :: 'P' :: 'L' :: 'A' :: 'M' :: ':' :: ' '
        :: (D ++ ',' :: a :: b :: (' ' :: 'T' :: 'L'
          :: ('\n' :: kwAmtLine "TOPKDV: " E c d))) : Chars)
      = (['O', 'P', 'L', 'A', 'M', ':', ' '] ++ D)
          ++ (',' :: a :: b :: (' ' :: 'T' :: 'L'
            :: ('\n' :: kwAmtLine "TOPKDV: " E c d))) from by simp]
  rw [scan_skip hh _ _ (by
    intro x hx
    rcases List.mem_append.mp hx with hx | hx
    · fin_cases hx <;> decide
    · exact notin_of_digit (hDd x hx) (by decide))]
  rw [scan_cons_none (hh ',' _ (by decide)),
    scan_cons_none (hh a _ (notin_of_digit ha (by decide))),
    scan_cons_none (hh b _ (notin_of_digit hb (by decide))),
    scan_cons_none (hh ' ' _ (by decide)),
    scan_cons_none (hfTL _),
    scan_cons_none (hh 'L' _ (by decide)),
    scan_cons_none (hh '\n' _ (by decide))]
  exact scan_kwTOPKDV_nil_T hh hfK hfTL hEd hc hd

theorem scan_T3_pToplam {D : Chars} {a b : Char} {E : Chars} {c d : Char} (hD : D ≠ [])
    (hDd : ∀ y ∈ D, isPyDigit y = true) (ha : isPyDigit a = true) (hb : isPyDigit b = true)
    (hEd : ∀ y ∈ E, isPyDigit y = true) (hc : isPyDigit c = true) (hd : isPyDigit d = true) :
    scan (matchKwPat pToplam)
        (kwAmtLine "TOPLAM: " D a b ++ '\n' :: kwAmtLine "TOPKDV: " E c d)
      = [D ++ ',' :: [a, b]] := by
  have e : kwAmtLine "TOPLAM: " D a b ++ '\n' :: kwAmtLine "TOPKDV: " E c d
      = 'T' :: ('O' :: 'P' :: 'L' :: 'A' :: 'M' :: ':' :: ' '
          :: (D ++ ',' :: a :: b :: (' ' :: 'T' :: 'L'
            :: ('\n' :: kwAmtLine "TOPKDV: " E c d)))) := by
    rw [kwAmtLine]
    simp
  rw [e]
  have hm : matchKwPat pToplam
      ('T' :: ('O' :: 'P' :: 'L' :: 'A' :: 'M' :: ':' :: ' '
          :: (D ++ ',' :: a :: b :: (' ' :: 'T' :: 'L'
            :: ('\n' :: kwAmtLine "TOPKDV: " E c d)))))
      = some (D ++ ',' :: [a, b], ' ' :: 'T' :: 'L' :: ('\n' :: kwAmtLine "TOPKDV: " E c d)) :=
    matchKwPat_single_success "TOPLAM" true true
      (' ' :: 'T' :: 'L' :: ('\n' :: kwAmtLine "TOPKDV: " E c d)) hD hDd ha hb
  rw [scan_cons_some csToplam hm]
  rw [scan_cons_none (hsToplam ' ' _ (by decide)),
    scan_cons_none (pToplam_fail_TL _),
    scan_cons_none (hsToplam 'L' _ (by decide)),
    scan_cons_none (hsToplam '\n' _ (by decide))]
  rw [scan_kwTOPKDV_nil_T hsToplam pToplam_fail_TOPK pToplam_fail_TL hEd hc hd]

theorem scan_T3_pToplamTL {D : Chars} {a b : Char} {E : Chars} {c d : Char} (hD : D ≠ [])
    (hDd : ∀ y ∈ D, isPyDigit y = true) (ha : isPyDigit a = true) (hb : isPyDigit b = true)
    (hEd : ∀ y ∈ E, isPyDigit y = true) (hc : isPyDigit c = true) (hd : isPyDigit d = true) :
    scan (matchKwPat pToplamTL)
        (kwAmtLine "TOPLAM: " D a b ++ '\n' :: kwAmtLine "TOPKDV: " E c d)
      = [D ++ ',' :: [a, b]] := by
  have e : kwAmtLine "TOPLAM: " D a b ++ '\n' :: kwAmtLine "TOPKDV: " E c d
      = 'T' :: ('O' :: 'P' :: 'L' :: 'A' :: 'M' :: ':' :: ' '
          :: (D ++ ',' :: a :: b :: (' ' :: 'T' :: 'L'
            :: ('\n' :: kwAmtLine "TOPKDV: " E c d)))) := by
    rw [kwAmtLine]
    simp
  rw [e]
  have hm : matchKwPat pToplamTL
      ('T' :: ('O' :: 'P' :: 'L' :: 'A' :: 'M' :: ':' :: ' '
          :: (D ++ ',' :: a :: b :: (' ' :: 'T' :: 'L'
            :: ('\n' :: kwAmtLine "TOPKDV: " E c d)))))
      = some (D ++ ',' :: [a, b], '\n' :: kwAmtLine "TOPKDV: " E c d) :=
    matchKwPat_single_reqTL "TOPLAM" ('\n' :: kwAmtLine "TOPKDV: " E c d) hD hDd ha hb
  rw [scan_cons_some csToplamTL hm]
  rw [scan_cons_none (hsToplamTL '\n' _ (by decide))]
  rw [scan_kwTOPKDV_nil_T hsToplamTL pToplamTL_fail_TOPK pToplamTL_fail_TL hEd hc hd]

theorem scan_T3_pTopkdv {D : Chars} {a b : Char} {E : Chars} {c d : Char} (hE : E ≠ [])
    (hDd : ∀ y ∈ D, isPyDigit y = true) (ha : isPyDigit a = true) (hb : isPyDigit b = true)
    (hEd : ∀ y ∈ E, isPyDigit y = true) (hc : isPyDigit c = true) (hd : isPyDigit d = true) :
    scan (matchKwPat pTopkdv)
        (kwAmtLine "TOPLAM: " D a b ++ '\n' :: kwAmtLine "TOPKDV: " E c d)
      = [E ++ ',' :: [c, d]] := by
  have e : kwAmtLine "TOPLAM: " D a b ++ '\n' :: kwAmtLine "TOPKDV: " E c d
      = 'T' :: ('O' :: 'P' :: 'L' :: 'A' :: 'M' :: ':' :: ' '
          :: (D ++ ',' :: a :: b :: (' ' :: 'T' :: 'L'
            :: ('\n' :: kwAmtLine "TOPKDV: " E c d)))) := by
    rw [kwAmtLine]
    simp
  rw [e]
  rw [scan_cons_none (pTopkdv_fail_TOPL _)]
  rw [show ('O' :: 'P' :: 'L' :: 'A' :: 'M' :: ':' :: ' '
        :: (D ++ ',' :: a :: b :: (' ' :: 'T' :: 'L'
          :: ('\n' :: kwAmtLine "TOPKDV: " E c d))) : Chars)
      = (['O', 'P', 'L', 'A', 'M', ':', ' '] ++ D)
          ++ (',' :: a :: b :: (' ' :: 'T' :: 'L'
            :: ('\n' :: kwAmtLine "TOPKDV: " E c d))) from by simp]
  rw [scan_skip hsTopkdv _ _ (by
    intro x hx
    rcases List.mem_append.mp hx with hx | hx
    · fin_cases hx <;> decide
    · exact notin_of_digit (hDd x hx) (by decide))]
  rw [scan_cons_none (hsTopkdv ',' _ (by decide)),
    scan_cons_none (hsTopkdv a _ (notin_of_digit ha (by decide))),
    scan_cons_none (hsTopkdv b _ (notin_of_digit hb (by decide))),
    scan_cons_none (hsTopkdv ' ' _ (by decide)),
    scan_cons_none (pTopkdv_fail_TL _),
    scan_cons_none (hsTopkdv 'L' _ (by decide)),
    scan_cons_none (hsTopkdv '\n' _ (by decide))]
  have hm2 : matchKwPat pTopkdv (kwAmtLine "TOPKDV: " E c d)
      = some (E ++ ',' :: [c, d], [' ', 'T', 'L']) :=
    matchKwPat_single_success "TOPKDV" true true ([' ', 'T', 'L'] : Chars) hE hEd hc hd
  rw [show kwAmtLine "TOPKDV: " E c d
      = 'T' :: ('O' :: 'P' :: 'K' :: 'D' :: 'V' :: ':' :: ' '
          :: (E ++ ',' :: c :: d :: (' ' :: 'T' :: 'L' :: []))) from rfl] at hm2 ⊢
  rw [scan_cons_some csTopkdv hm2]
  rw [scan_cons_none (hsTopkdv ' ' _ (by decide)),
    scan_cons_none (pTopkdv_fail_TL _),
    scan_cons_none (hsTopkdv 'L' _ (by decide))]
  rfl

theorem scan_T3_pAraToplam {D : Chars} {a b : Char} {E : Chars} {c d : Char}
    (hDd : ∀ y ∈ D, isPyDigit y = true) (ha : isPyDigit a = true) (hb : isPyDigit b = true)
    (hEd : ∀ y ∈ E, isPyDigit y = true) (hc : isPyDigit c = true) (hd : isPyDigit d = true) :
    scan (matchKwPat pAraToplam)
        (kwAmtLine "TOPLAM: " D a b ++ '\n' :: kwAmtLine "TOPKDV: " E c d) = [] := by
  have e : kwAmtLine "TOPLAM: " D a b ++ '\n' :: kwAmtLine "TOPKDV: " E c d
      = ['T', 'O', 'P', 'L'] ++ ('A' :: 'M' :: ':' :: ' '
          :: (D ++ ',' :: a :: b :: (' ' :: 'T' :: 'L'
            :: ('\n' :: kwAmtLine "TOPKDV: " E c d)))) := by
    rw [kwAmtLine]
    simp
  rw [e]
  rw [scan_skip hsAraToplam _ _ (by decide)]
  rw [scan_cons_none (pAraToplam_fail_AM _)]
  rw [show ('M' :: ':' :: ' ' :: (D ++ ',' :: a :: b :: (' ' :: 'T' :: 'L'
        :: ('\n' :: kwAmtLine "TOPKDV: " E c d))) : Chars)
      = (['M', ':', ' '] ++ D) ++ (',' :: a :: b :: (' ' :: 'T' :: 'L'
          :: ('\n' :: kwAmtLine "TOPKDV: " E c d))) from by simp]
  rw [scan_skip hsAraToplam _ _ (by
    intro x hx
    rcases List.mem_append.mp hx with hx | hx
    · fin_cases hx <;> decide
    · exact notin_of_digit (hDd x hx) (by decide))]
  rw [scan_cons_none (hsAraToplam ',' _ (by decide)),
    scan_cons_none (hsAraToplam a _ (notin_of_digit ha (by decide))),
    scan_cons_none (hsAraToplam b _ (notin_of_digit hb (by decide))),
    scan_cons_none (hsAraToplam ' ' _ (by decide)),
    scan_cons_none (hsAraToplam 'T' _ (by decide)),
    scan_cons_none (hsAraToplam 'L' _ (by decide)),
    scan_cons_none (hsAraToplam '\n' _ (by decide))]
  refine scan_eq_nil hsAraToplam _ (fun x hx => ?_)
  rcases kwAmtLine_mem hEd hc hd hx with h | h | rfl | rfl | rfl | rfl
  · have h' : x ∈ (['T', 'O', 'P', 'K', 'D', 'V', ':', ' '] : List Char) := h
    fin_cases h' <;> decide
  · exact notin_of_digit h (by decide)
  · decide
  · decide
  · decide
  · decide

/-- `toplam_amounts` for the two-keyword-line text, with no payment keyword
anywhere on the receipt. -/
theorem collectAmounts_T3_toplam {D : Chars} {a b : Char} {E : Chars} {c d : Char}
    (hD : D ≠ []) (hE : E ≠ [])
    (hDd : ∀ y ∈ D, isPyDigit y = true) (ha : isPyDigit a = true) (hb : isPyDigit b = true)
    (hEd : ∀ y ∈ E, isPyDigit y = true) (hc : isPyDigit c = true) (hd : isPyDigit d = true)
    (hv1 : 0 < amtVal D a b) (hv2 : 0 < amtVal E c d) :
    (collectAmounts (kwAmtLine "TOPLAM: " D a b ++ '\n' :: kwAmtLine "TOPKDV: " E c d)).toplam
      = [amtVal D a b, amtVal E c d, amtVal D a b] := by
  have hval1 : toDecimal (removeSpacesL (D ++ ',' :: [a, b])) = amtVal D a b := by
    rw [removeSpacesL_amt_group hDd ha hb, toDecimal_comma hD hDd ha hb]
  have hval2 : toDecimal (removeSpacesL (E ++ ',' :: [c, d])) = amtVal E c d := by
    rw [removeSpacesL_amt_group hEd hc hd, toDecimal_comma hE hEd hc hd]
  rw [collectAmounts_toplam_double (scan_T3_pToplam hD hDd ha hb hEd hc hd)
    (scan_T3_G_nil hsGenelToplam hDd ha hb hEd hc hd)
    (scan_T3_nil_T hsToplamTutar hDd ha hb hEd hc hd
      (pToplamTutar_fail_colon _) pToplamTutar_fail_TOPK pToplamTutar_fail_TL)
    (scan_T3_pAraToplam hDd ha hb hEd hc hd)
    (scan_T3_G_nil hsGenelTop hDd ha hb hEd hc hd)
    (scan_T3_pTopkdv hE hDd ha hb hEd hc hd)
    (scan_T3_pToplamTL hD hDd ha hb hEd hc hd)
    (scan_T3_G_nil hsGenelToplamTL hDd ha hb hEd hc hd)
    (scan_T3_nil_T hsToplamTutarTL hDd ha hb hEd hc hd
      (pToplamTutarTL_fail_colon _) pToplamTutarTL_fail_TOPK pToplamTutarTL_fail_TL)
    (by rw [hval1]; exact hv1) (by rw [hval2]; exact hv2)]
  rw [hval1, hval2]

/-! ### `_extract_total_amount` on the change-line and two-keyword texts -/

theorem extractTotal_T2 {D : Chars} {a b : Char} {E : Chars} {c d : Char} (hD : D ≠ [])
    (hDd : ∀ y ∈ D, isPyDigit y = true) (ha : isPyDigit a = true) (hb : isPyDigit b = true)
    (hEd : ∀ y ∈ E, isPyDigit y = true) (hc : isPyDigit c = true) (hd : isPyDigit d = true)
    (hv : 0 < amtVal D a b) :
    extractTotalAmountE
        (kwAmtLine "TOPLAM: " D a b ++ '\n' :: kwAmtLine "PARA ÜSTÜ: " E c d)
      = .ok (amtVal D a b) := by
  have hnl1 : ∀ x ∈ kwAmtLine "TOPLAM: " D a b, x ≠ '\n' :=
    kwAmtLine_no_nl (by decide) hDd ha hb
  have hnl2 : ∀ x ∈ kwAmtLine "PARA ÜSTÜ: " E c d, x ≠ '\n' :=
    kwAmtLine_no_nl (by decide) hEd hc hd
  have hsearch : joinNl (removeChangeLines
      (kwAmtLine "TOPLAM: " D a b ++ '\n' :: kwAmtLine "PARA ÜSTÜ: " E c d))
      = kwAmtLine "TOPLAM: " D a b := by
    rw [removeChangeLines_drop_second hnl1 hnl2
      (isChangeLine_kwAmtLine_false (by decide) hDd ha hb)
      (isChangeLine_true_of_UST containsL_UST_paraLine)]
    rfl
  have hval : toDecimal (removeSpacesL (D ++ ',' :: [a, b])) = amtVal D a b := by
    rw [removeSpacesL_amt_group hDd ha hb, toDecimal_comma hD hDd ha hb]
  have hG1 : ∀ x : Char, isPyDigit x = true → x ∉ (['G'] : List Char) :=
    fun x h => notin_of_digit h (by decide)
  have hG2 : ∀ x ∈ ("TOPLAM: ,".data : Chars), x ∉ (['G'] : List Char) := by decide
  have htop : (collectAmounts (joinNl (removeChangeLines
      (kwAmtLine "TOPLAM: " D a b ++ '\n' :: kwAmtLine "PARA ÜSTÜ: " E c d)))).toplam
      = [amtVal D a b, amtVal D a b] := by
    rw [hsearch]
    rw [collectAmounts_toplam_single (scan_T1_pToplam hD hDd ha hb)
      (scan_T1_headset_nil hsGenelToplam hDd ha hb hG1 hG2)
      (scan_T1_pToplamTutar hDd ha hb) (scan_T1_pAraToplam hDd ha hb)
      (scan_T1_headset_nil hsGenelTop hDd ha hb hG1 hG2)
      (scan_T1_pTopkdv hDd ha hb) (scan_T1_pToplamTL hD hDd ha hb)
      (scan_T1_headset_nil hsGenelToplamTL hDd ha hb hG1 hG2)
      (scan_T1_pToplamTutarTL hDd ha hb)]
    rw [hval, if_pos hv]
  rw [extractTotalAmountE_of_toplam htop (by simp), pyMinE_pair]

theorem extractTotal_T2R {D : Chars} {a b : Char} {E : Chars} {c d : Char} (hD : D ≠ [])
    (hDd : ∀ y ∈ D, isPyDigit y = true) (ha : isPyDigit a = true) (hb : isPyDigit b = true)
    (hEd : ∀ y ∈ E, isPyDigit y = true) (hc : isPyDigit c = true) (hd : isPyDigit d = true)
    (hv : 0 < amtVal D a b) :
    extractTotalAmountE
        (kwAmtLine "PARA ÜSTÜ: " E c d ++ '\n' :: kwAmtLine "TOPLAM: " D a b)
      = .ok (amtVal D a b) := by
  have hnl1 : ∀ x ∈ kwAmtLine "PARA ÜSTÜ: " E c d, x ≠ '\n' :=
    kwAmtLine_no_nl (by decide) hEd hc hd
  have hnl2 : ∀ x ∈ kwAmtLine "TOPLAM: " D a b, x ≠ '\n' :=
    kwAmtLine_no_nl (by decide) hDd ha hb
  have hsearch : joinNl (removeChangeLines
      (kwAmtLine "PARA ÜSTÜ: " E c d ++ '\n' :: kwAmtLine "TOPLAM: " D a b))
      = kwAmtLine "TOPLAM: " D a b := by
    rw [removeChangeLines_drop_first hnl1 hnl2
      (isChangeLine_true_of_UST containsL_UST_paraLine)
      (isChangeLine_kwAmtLine_false (by decide) hDd ha hb)]
    rfl
  have hval : toDecimal (removeSpacesL (D ++ ',' :: [a, b])) = amtVal D a b := by
    rw [removeSpacesL_amt_group hDd ha hb, toDecimal_comma hD hDd ha hb]
  have hG1 : ∀ x : Char, isPyDigit x = true → x ∉ (['G'] : List Char) :=
    fun x h => notin_of_digit h (by decide)
  have hG2 : ∀ x ∈ ("TOPLAM: ,".data : Chars), x ∉ (['G'] : List Char) := by decide
  have htop : (collectAmounts (joinNl (removeChangeLines
      (kwAmtLine "PARA ÜSTÜ: " E c d ++ '\n' :: kwAmtLine "TOPLAM: " D a b)))).toplam
      = [amtVal D a b, amtVal D a b] := by
    rw [hsearch]
    rw [collectAmounts_toplam_single (scan_T1_pToplam hD hDd ha hb)
      (scan_T1_headset_nil hsGenelToplam hDd ha hb hG1 hG2)
      (scan_T1_pToplamTutar hDd ha hb) (scan_T1_pAraToplam hDd ha hb)
      (scan_T1_headset_nil hsGenelTop hDd ha hb hG1 hG2)
      (scan_T1_pTopkdv hDd ha hb) (scan_T1_pToplamTL hD hDd ha hb)
      (scan_T1_headset_nil hsGenelToplamTL hDd ha hb hG1 hG2)
      (scan_T1_pToplamTutarTL hDd ha hb)]
    rw [hval, if_pos hv]
  rw [extractTotalAmountE_of_toplam htop (by simp), pyMinE_pair]

theorem extractTotal_T3 {D : Chars} {a b : Char} {E : Chars} {c d : Char}
    (hD : D ≠ []) (hE : E ≠ [])
    (hDd : ∀ y ∈ D, isPyDigit y = true) (ha : isPyDigit a = true) (hb : isPyDigit b = true)
    (hEd : ∀ y ∈ E, isPyDigit y = true) (hc : isPyDigit c = true) (hd : isPyDigit d = true)
    (hv1 : 0 < amtVal D a b) (hv2 : 0 < amtVal E c d) :
    extractTotalAmountE
        (kwAmtLine "TOPLAM: " D a b ++ '\n' :: kwAmtLine "TOPKDV: " E c d)
      = .ok (min (amtVal D a b) (amtVal E c d)) := by
  have hnl1 : ∀ x ∈ kwAmtLine "TOPLAM: " D a b, x ≠ '\n' :=
    kwAmtLine_no_nl (by decide) hDd ha hb
  have hnl2 : ∀ x ∈ kwAmtLine "TOPKDV: " E c d, x ≠ '\n' :=
    kwAmtLine_no_nl (by decide) hEd hc hd
  have hsearch : joinNl (removeChangeLines
      (kwAmtLine "TOPLAM: " D a b ++ '\n' :: kwAmtLine "TOPKDV: " E c d))
      = kwAmtLine "TOPLAM: " D a b ++ '\n' :: kwAmtLine "TOPKDV: " E c d := by
    rw [removeChangeLines_keep_two hnl1 hnl2
      (isChangeLine_kwAmtLine_false (by decide) hDd ha hb)
      (isChangeLine_kwAmtLine_false (by decide) hEd hc hd)]
    rfl
  have htop : (collectAmounts (joinNl (removeChangeLines
      (kwAmtLine "TOPLAM: " D a b ++ '\n' :: kwAmtLine "TOPKDV: " E c d)))).toplam
      = [amtVal D a b, amtVal E c d, amtVal D a b] := by
    rw [hsearch]
    exact collectAmounts_T3_toplam hD hE hDd ha hb hEd hc hd hv1 hv2
  rw [extractTotalAmountE_of_toplam htop (by simp), pyMinE_triple]

theorem upperText_twoKw {kw1 kw2 : String} {D : Chars} {a b : Char} {E : Chars} {c d : Char}
    {k1 k2 : Char} {kr1 kr2 : Chars}
    (hk1 : kw1.data = k1 :: kr1) (hks1 : isPySpace k1 = false)
    (hk2 : kw2.data = k2 :: kr2) (hks2 : isPySpace k2 = false)
    (hnk1 : ∀ x ∈ kw1.data, x ≠ '\n') (hnk2 : ∀ x ∈ kw2.data, x ≠ '\n')
    (hfk1 : ∀ x ∈ kw1.data, pyUpperChar x = x) (hfk2 : ∀ x ∈ kw2.data, pyUpperChar x = x)
    (hDd : ∀ y ∈ D, isPyDigit y = true) (ha : isPyDigit a = true) (hb : isPyDigit b = true)
    (hEd : ∀ y ∈ E, isPyDigit y = true) (hc : isPyDigit c = true) (hd : isPyDigit d = true) :
    upperText (kwAmtLine kw1 D a b ++ '\n' :: kwAmtLine kw2 E c d)
      = kwAmtLine kw1 D a b ++ '\n' :: kwAmtLine kw2 E c d :=
  upperText_two (kwAmtLine_no_nl hnk1 hDd ha hb) (kwAmtLine_strip hk1 hks1)
    (kwAmtLine_ne_nil hk1) (kwAmtLine_no_nl hnk2 hEd hc hd)
    (kwAmtLine_strip hk2 hks2) (kwAmtLine_ne_nil hk2)
    (kwAmtLine_upper_fix hfk1 hDd ha hb) (kwAmtLine_upper_fix hfk2 hEd hc hd)

theorem parseReceipt_T2_total {D : Chars} {a b : Char} {E : Chars} {c d : Char} (hD : D ≠ [])
    (hDd : ∀ y ∈ D, isPyDigit y = true) (ha : isPyDigit a = true) (hb : isPyDigit b = true)
    (hEd : ∀ y ∈ E, isPyDigit y = true) (hc : isPyDigit c = true) (hd : isPyDigit d = true)
    (hv : 0 < amtVal D a b) :
    (parseReceiptComprehensive (String.mk
        (kwAmtLine "TOPLAM: " D a b ++ '\n' :: kwAmtLine "PARA ÜSTÜ: " E c d))).total_amount
      = amtVal D a b := by
  have h : extractTotalAmountE (upperText (String.mk
      (kwAmtLine "TOPLAM: " D a b ++ '\n' :: kwAmtLine "PARA ÜSTÜ: " E c d)).data)
      = .ok (amtVal D a b) := by
    show extractTotalAmountE (upperText
      (kwAmtLine "TOPLAM: " D a b ++ '\n' :: kwAmtLine "PARA ÜSTÜ: " E c d)) = _
    rw [upperText_twoKw rfl (by decide) rfl (by decide) (by decide) (by decide)
      (by decide) (by decide) hDd ha hb hEd hc hd]
    exact extractTotal_T2 hD hDd ha hb hEd hc hd hv
  rw [parseReceiptComprehensive_eq h]

theorem parseReceipt_T2R_total {D : Chars} {a b : Char} {E : Chars} {c d : Char}
    (hD : D ≠ [])
    (hDd : ∀ y ∈ D, isPyDigit y = true) (ha : isPyDigit a = true) (hb : isPyDigit b = true)
    (hEd : ∀ y ∈ E, isPyDigit y = true) (hc : isPyDigit c = true) (hd : isPyDigit d = true)
    (hv : 0 < amtVal D a b) :
    (parseReceiptComprehensive (String.mk
        (kwAmtLine "PARA ÜSTÜ: " E c d ++ '\n' :: kwAmtLine "TOPLAM: " D a b))).total_amount
      = amtVal D a b := by
  have h : extractTotalAmountE (upperText (String.mk
      (kwAmtLine "PARA ÜSTÜ: " E c d ++ '\n' :: kwAmtLine "TOPLAM: " D a b)).data)
      = .ok (amtVal D a b) := by
    show extractTotalAmountE (upperText
      (kwAmtLine "PARA ÜSTÜ: " E c d ++ '\n' :: kwAmtLine "TOPLAM: " D a b)) = _
    rw [upperText_twoKw rfl (by decide) rfl (by decide) (by decide) (by decide)
      (by decide) (by decide) hEd hc hd hDd ha hb]
    exact extractTotal_T2R hD hDd ha hb hEd hc hd hv
  rw [parseReceiptComprehensive_eq h]

theorem parseReceipt_T3_total {D : Chars} {a b : Char} {E : Chars} {c d : Char}
    (hD : D ≠ []) (hE : E ≠ [])
    (hDd : ∀ y ∈ D, isPyDigit y = true) (ha : isPyDigit a = true) (hb : isPyDigit b = true)
    (hEd : ∀ y ∈ E, isPyDigit y = true) (hc : isPyDigit c = true) (hd : isPyDigit d = true)
    (hv1 : 0 < amtVal D a b) (hv2 : 0 < amtVal E c d) :
    (parseReceiptComprehensive (String.mk
        (kwAmtLine "TOPLAM: " D a b ++ '\n' :: kwAmtLine "TOPKDV: " E c d))).total_amount
      = min (amtVal D a b) (amtVal E c d) := by
  have h : extractTotalAmountE (upperText (String.mk
      (kwAmtLine "TOPLAM: " D a b ++ '\n' :: kwAmtLine "TOPKDV: " E c d)).data)
      = .ok (min (amtVal D a b) (amtVal E c d)) := by
    show extractTotalAmountE (upperText
      (kwAmtLine "TOPLAM: " D a b ++ '\n' :: kwAmtLine "TOPKDV: " E c d)) = _
    rw [upperText_twoKw rfl (by decide) rfl (by decide) (by decide) (by decide)
      (by decide) (by decide) hDd ha hb hEd hc hd]
    exact extractTotal_T3 hD hE hDd ha hb hEd hc hd hv1 hv2
  rw [parseReceiptComprehensive_eq h]

/-! ### The change-amount leak through the trailing tier -/

theorem toDecimal_000 : toDecimal (['0', ',', '0', '0'] : Chars) = 0 := by
  rw [show (['0', ',', '0', '0'] : Chars) = (['0'] : Chars) ++ ',' :: ['0', '0'] from rfl]
  rw [toDecimal_comma (by decide) (by decide) (by decide) (by decide)]
  unfold amtVal
  rw [show digitsToNat ['0'] = 0 from rfl,
    show (('0' : Char).toNat - 48) * 10 + (('0' : Char).toNat - 48) = 0 from rfl]
  norm_num

theorem toDecimal_285 : toDecimal (['2', ',', '8', '5'] : Chars) = 57 / 20 := by
  rw [show (['2', ',', '8', '5'] : Chars) = (['2'] : Chars) ++ ',' :: ['8', '5'] from rfl]
  rw [toDecimal_comma (by decide) (by decide) (by decide) (by decide)]
  unfold amtVal
  rw [show digitsToNat ['2'] = 2 from rfl,
    show (('8' : Char).toNat - 48) * 10 + (('5' : Char).toNat - 48) = 85 from rfl]
  norm_num

theorem extractTotal_change_leak :
    extractTotalAmountE ("TOPLAM: 0,00 TL\nPARA ÜSTÜ: 2,85 TL".data) = .ok (57 / 20) := by
  have hv00 : toDecimal (removeSpacesL ("0,00".data)) = 0 := by
    rw [show removeSpacesL ("0,00".data) = (['0', ',', '0', '0'] : Chars) from rfl]
    exact toDecimal_000
  have hsearch : joinNl (removeChangeLines
      ("TOPLAM: 0,00 TL\nPARA ÜSTÜ: 2,85 TL".data))
      = ("TOPLAM: 0,00 TL".data : Chars) := by decide
  have h0 : scan (matchKwPat pToplam) ("TOPLAM: 0,00 TL".data) = ["0,00".data] := by decide
  have h1 : scan (matchKwPat pGenelToplam) ("TOPLAM: 0,00 TL".data) = [] := by decide
  have h2 : scan (matchKwPat pToplamTutar) ("TOPLAM: 0,00 TL".data) = [] := by decide
  have h3 : scan (matchKwPat pAraToplam) ("TOPLAM: 0,00 TL".data) = [] := by decide
  have h4 : scan (matchKwPat pGenelTop) ("TOPLAM: 0,00 TL".data) = [] := by decide
  have h5 : scan (matchKwPat pTopkdv) ("TOPLAM: 0,00 TL".data) = [] := by decide
  have h6 : scan (matchKwPat pToplamTL) ("TOPLAM: 0,00 TL".data) = ["0,00".data] := by decide
  have h7 : scan (matchKwPat pGenelToplamTL) ("TOPLAM: 0,00 TL".data) = [] := by decide
  have h8 : scan (matchKwPat pToplamTutarTL) ("TOPLAM: 0,00 TL".data) = [] := by decide
  have h9 : scan (matchKwPat pNakit) ("TOPLAM: 0,00 TL".data) = [] := by decide
  have h10 : scan (matchKwPat pKrediKarti) ("TOPLAM: 0,00 TL".data) = [] := by decide
  have h11 : scan (matchKwPat pOdenen) ("TOPLAM: 0,00 TL".data) = [] := by decide
  have h12 : scan (matchKwPat pTotal) ("TOPLAM: 0,00 TL".data) = [] := by decide
  have h13 : scan (matchKwPat pGrandTotal) ("TOPLAM: 0,00 TL".data) = [] := by decide
  have h14 : scan14 ("TOPLAM: 0,00 TL".data) = [] := by decide
  have htop : (collectAmounts (joinNl (removeChangeLines
      ("TOPLAM: 0,00 TL\nPARA ÜSTÜ: 2,85 TL".data)))).toplam = [] := by
    rw [hsearch, collectAmounts_toplam_of_scans h0 h1 h2 h3 h4 h5 h6 h7 h8]
    simp [hv00]
  have hfound : (collectAmounts (joinNl (removeChangeLines
      ("TOPLAM: 0,00 TL\nPARA ÜSTÜ: 2,85 TL".data)))).found = [] := by
    rw [hsearch, collectAmounts_found_of_scans h0 h1 h2 h3 h4 h5 h6 h7 h8 h9 h10 h11
      h12 h13 h14]
    simp [hv00]
  have htrail : trailingAmounts ("TOPLAM: 0,00 TL\nPARA ÜSTÜ: 2,85 TL".data)
      = [57 / 20] := by
    rw [show ("TOPLAM: 0,00 TL\nPARA ÜSTÜ: 2,85 TL".data : Chars)
        = ("TOPLAM: 0,00 TL".data : Chars) ++ '\n' :: ("PARA ÜSTÜ: 2,85 TL".data : Chars)
      from by decide]
    rw [trailingAmounts_two (by decide) (by decide)]
    rw [show scan trailMatcher ("PARA ÜSTÜ: 2,85 TL".data)
        = [(['2', ',', '8', '5'] : Chars)] from by decide,
      show scan trailMatcher ("TOPLAM: 0,00 TL".data)
        = [(['0', ',', '0', '0'] : Chars)] from by decide]
    have hpos : (0 : ℚ) < 57 / 20 := by norm_num
    simp [toDecimal_285, toDecimal_000, hpos]
  rw [extractTotalAmountE_of_trailing htop hfound htrail (by simp)]
  exact pyMaxE_single _

/-! ## The claims -/

/-- C1: for every input of the form `TOPLAM: D,ab TL` with `D` a digit
sequence and `a`, `b` digits, the comprehensive parser returns a total
amount equal to the decimal value `D.ab` (comma read as decimal separator)
and the currency `TL`; and the concrete input `GENEL TOPLAM: 118,89 TL`
alone yields the total 118.89 with currency `TL`. -/
theorem C1_toplam_line (D : Chars) (a b : Char) (hD : D ≠ [])
    (hDd : ∀ c ∈ D, isPyDigit c = true) (ha : isPyDigit a = true)
    (hb : isPyDigit b = true) :
    ((parseReceiptComprehensive (String.mk (kwAmtLine "TOPLAM: " D a b))).total_amount
        = amtVal D a b
      ∧ (parseReceiptComprehensive (String.mk (kwAmtLine "TOPLAM: " D a b))).currency
        = "TL")
    ∧ ((parseReceiptComprehensive "GENEL TOPLAM: 118,89 TL").total_amount = 11889 / 100
      ∧ (parseReceiptComprehensive "GENEL TOPLAM: 118,89 TL").currency = "TL") := by
  refine ⟨parseReceipt_T1_proj hD hDd ha hb, ?_⟩
  have h : extractTotalAmountE (upperText ("GENEL TOPLAM: 118,89 TL" : String).data)
      = .ok (11889 / 100) := by
    rw [show upperText (("GENEL TOPLAM: 118,89 TL" : String).data)
        = ("GENEL TOPLAM: 118,89 TL".data : Chars) from by decide]
    exact extractTotal_genel
  rw [parseReceiptComprehensive_eq h]
  exact ⟨rfl, rfl⟩

theorem C1_witness :
    (['1'] : Chars) ≠ [] ∧
    (((parseReceiptComprehensive (String.mk (kwAmtLine "TOPLAM: " ['1'] '5' '0'))).total_amount
        = amtVal ['1'] '5' '0'
      ∧ (parseReceiptComprehensive
          (String.mk (kwAmtLine "TOPLAM: " ['1'] '5' '0'))).currency = "TL")
    ∧ ((parseReceiptComprehensive "GENEL TOPLAM: 118,89 TL").total_amount = 11889 / 100
      ∧ (parseReceiptComprehensive "GENEL TOPLAM: 118,89 TL").currency = "TL")) :=
  ⟨by decide, C1_toplam_line ['1'] '5' '0' (by decide) (by decide) (by decide) (by decide)⟩

/-- C2 counterexample: the change-line filter applies only to the keyword
tier.  On `TOPLAM: 0,00 TL` together with `PARA ÜSTÜ: 2,85 TL` the keyword
tier collects nothing positive and the trailing tier, which runs on the
unfiltered text, returns the change amount 2.85. -/
theorem C2_change_cex :
    (parseReceiptComprehensive "TOPLAM: 0,00 TL\nPARA ÜSTÜ: 2,85 TL").total_amount = 57 / 20
    ∧ (57 / 20 : ℚ) ≠ 0 := by
  constructor
  · have h : extractTotalAmountE
        (upperText (("TOPLAM: 0,00 TL\nPARA ÜSTÜ: 2,85 TL" : String).data))
        = .ok (57 / 20) := by
      rw [show upperText (("TOPLAM: 0,00 TL\nPARA ÜSTÜ: 2,85 TL" : String).data)
          = ("TOPLAM: 0,00 TL\nPARA ÜSTÜ: 2,85 TL".data : Chars) from by decide]
      exact extractTotal_change_leak
    rw [parseReceiptComprehensive_eq h]
  · norm_num

/-- C2 amended: on a receipt consisting of a total line `TOPLAM: D,ab TL`
with positive value and a change line `PARA ÜSTÜ: E,cd TL`, in either
order, the extracted total is the TOPLAM amount: the change line is
filtered out of the keyword tier before matching, so the change amount
never reaches it.  (The filter does not cover the trailing tier — see the
counterexample — and further keyword lines would join the min.) -/
theorem C2_change_filtered (D : Chars) (a b : Char) (E : Chars) (c d : Char)
    (hD : D ≠ [])
    (hDd : ∀ y ∈ D, isPyDigit y = true) (ha : isPyDigit a = true) (hb : isPyDigit b = true)
    (hEd : ∀ y ∈ E, isPyDigit y = true) (hc : isPyDigit c = true) (hd : isPyDigit d = true)
    (hv : 0 < amtVal D a b) :
    (parseReceiptComprehensive (String.mk
        (kwAmtLine "TOPLAM: " D a b ++ '\n' :: kwAmtLine "PARA ÜSTÜ: " E c d))).total_amount
      = amtVal D a b
    ∧ (parseReceiptComprehensive (String.mk
        (kwAmtLine "PARA ÜSTÜ: " E c d ++ '\n' :: kwAmtLine "TOPLAM: " D a b))).total_amount
      = amtVal D a b :=
  ⟨parseReceipt_T2_total hD hDd ha hb hEd hc hd hv,
   parseReceipt_T2R_total hD hDd ha hb hEd hc hd hv⟩

theorem C2_change_filtered_witness :
    0 < amtVal ['4', '7'] '5' '0' ∧
    ((parseReceiptComprehensive (String.mk
        (kwAmtLine "TOPLAM: " ['4', '7'] '5' '0'
          ++ '\n' :: kwAmtLine "PARA ÜSTÜ: " ['2'] '8' '5'))).total_amount
      = amtVal ['4', '7'] '5' '0'
    ∧ (parseReceiptComprehensive (String.mk
        (kwAmtLine "PARA ÜSTÜ: " ['2'] '8' '5'
          ++ '\n' :: kwAmtLine "TOPLAM: " ['4', '7'] '5' '0'))).total_amount
      = amtVal ['4', '7'] '5' '0') := by
  have hv : 0 < amtVal ['4', '7'] '5' '0' := by
    unfold amtVal
    rw [show digitsToNat ['4', '7'] = 47 from rfl,
      show (('5' : Char).toNat - 48) * 10 + (('0' : Char).toNat - 48) = 50 from rfl]
    norm_num
  exact ⟨hv, C2_change_filtered ['4', '7'] '5' '0' ['2'] '8' '5' (by decide) (by decide)
    (by decide) (by decide) (by decide) (by decide) (by decide) hv⟩

/-- C3 counterexample: the smallest-candidate rule is applied even when no
payment-method amount appears anywhere on the receipt: with candidates 50
and 30 and no payment line, the extractor returns 30. -/
theorem C3_min_cex :
    (parseReceiptComprehensive "TOPLAM: 50,00 TL\nTOPKDV: 30,00 TL").total_amount = 30
    ∧ (30 : ℚ) ≠ 50 := by
  have hv50 : amtVal ['5', '0'] '0' '0' = 50 := by
    unfold amtVal
    rw [show digitsToNat ['5', '0'] = 50 from rfl,
      show (('0' : Char).toNat - 48) * 10 + (('0' : Char).toNat - 48) = 0 from rfl]
    norm_num
  have hv30 : amtVal ['3', '0'] '0' '0' = 30 := by
    unfold amtVal
    rw [show digitsToNat ['3', '0'] = 30 from rfl,
      show (('0' : Char).toNat - 48) * 10 + (('0' : Char).toNat - 48) = 0 from rfl]
    norm_num
  constructor
  · have h := parseReceipt_T3_total (show (['5', '0'] : Chars) ≠ [] from by decide)
      (show (['3', '0'] : Chars) ≠ [] from by decide)
      (show ∀ y ∈ (['5', '0'] : Chars), isPyDigit y = true from by decide)
      (show isPyDigit '0' = true from by decide)
      (show isPyDigit '0' = true from by decide)
      (show ∀ y ∈ (['3', '0'] : Chars), isPyDigit y = true from by decide)
      (show isPyDigit '0' = true from by decide)
      (show isPyDigit '0' = true from by decide)
      (by rw [hv50]; norm_num) (by rw [hv30]; norm_num)
    rw [hv50, hv30] at h
    rw [show min (50 : ℚ) 30 = 30 from by
      rw [min_def]
      norm_num] at h
    exact h
  · norm_num

theorem foldl_min_mem (v : ℚ) (l : List ℚ) : List.foldl min v l ∈ v :: l := by
  induction l generalizing v with
  | nil => simp
  | cons w l ih =>
    rw [List.foldl_cons]
    rcases List.mem_cons.mp (ih (min v w)) with h | h
    · rw [h]
      rcases min_choice v w with hm | hm <;> rw [hm] <;> simp
    · exact List.mem_cons_of_mem _ (List.mem_cons_of_mem _ h)

theorem foldl_min_le (v : ℚ) (l : List ℚ) : ∀ x ∈ v :: l, List.foldl min v l ≤ x := by
  induction l generalizing v with
  | nil =>
    intro x hx
    rw [List.mem_singleton] at hx
    subst hx
    simp
  | cons w l ih =>
    intro x hx
    rw [List.foldl_cons]
    rcases List.mem_cons.mp hx with rfl | hx'
    · exact le_trans (ih (min x w) (min x w) (by simp)) (min_le_left _ _)
    · rcases List.mem_cons.mp hx' with rfl | hx''
      · exact le_trans (ih (min v x) (min v x) (by simp)) (min_le_right _ _)
      · exact ih (min v w) x (List.mem_cons_of_mem _ hx'')

/-- C3 amended: whenever the keyword-total tier yields any candidate list
at all — one candidate or several, with or without a payment-method amount
anywhere on the receipt (nothing about payment lines is assumed) — the
extractor returns the minimum of those candidates unconditionally: the
returned total is itself a candidate and is below every candidate. -/
theorem C3_min_unconditional (s : String) (v : ℚ) (l : List ℚ)
    (h : (collectAmounts (joinNl (removeChangeLines (upperText s.data)))).toplam
      = v :: l) :
    (parseReceiptComprehensive s).total_amount = List.foldl min v l
    ∧ List.foldl min v l ∈ v :: l
    ∧ ∀ x ∈ v :: l, List.foldl min v l ≤ x := by
  have he : extractTotalAmountE (upperText s.data) = .ok (List.foldl min v l) := by
    rw [extractTotalAmountE_of_toplam h (by simp)]
    rfl
  rw [parseReceiptComprehensive_eq he]
  exact ⟨rfl, foldl_min_mem v l, foldl_min_le v l⟩

theorem C3_min_unconditional_witness :
    (collectAmounts (joinNl (removeChangeLines (upperText
        ("TOPLAM: 50,00 TL\nTOPKDV: 30,00 TL" : String).data)))).toplam
      = [(50 : ℚ), 30, 50]
    ∧ ((parseReceiptComprehensive "TOPLAM: 50,00 TL\nTOPKDV: 30,00 TL").total_amount
        = List.foldl min 50 [(30 : ℚ), 50]
      ∧ List.foldl min 50 [(30 : ℚ), 50] ∈ [(50 : ℚ), 30, 50]
      ∧ ∀ x ∈ [(50 : ℚ), 30, 50], List.foldl min 50 [(30 : ℚ), 50] ≤ x) := by
  have hv50 : amtVal ['5', '0'] '0' '0' = 50 := by
    unfold amtVal
    rw [show digitsToNat ['5', '0'] = 50 from rfl,
      show (('0' : Char).toNat - 48) * 10 + (('0' : Char).toNat - 48) = 0 from rfl]
    norm_num
  have hv30 : amtVal ['3', '0'] '0' '0' = 30 := by
    unfold amtVal
    rw [show digitsToNat ['3', '0'] = 30 from rfl,
      show (('0' : Char).toNat - 48) * 10 + (('0' : Char).toNat - 48) = 0 from rfl]
    norm_num
  have hup : upperText (("TOPLAM: 50,00 TL\nTOPKDV: 30,00 TL" : String).data)
      = kwAmtLine "TOPLAM: " ['5', '0'] '0' '0'
        ++ '\n' :: kwAmtLine "TOPKDV: " ['3', '0'] '0' '0' := by decide
  have htop : (collectAmounts (joinNl (removeChangeLines (upperText
      ("TOPLAM: 50,00 TL\nTOPKDV: 30,00 TL" : String).data)))).toplam
      = [(50 : ℚ), 30, 50] := by
    rw [hup]
    have hs : joinNl (removeChangeLines (kwAmtLine "TOPLAM: " ['5', '0'] '0' '0'
        ++ '\n' :: kwAmtLine "TOPKDV: " ['3', '0'] '0' '0'))
        = kwAmtLine "TOPLAM: " ['5', '0'] '0' '0'
          ++ '\n' :: kwAmtLine "TOPKDV: " ['3', '0'] '0' '0' := by
      rw [removeChangeLines_keep_two
        (kwAmtLine_no_nl (by decide) (by decide) (by decide) (by decide))
        (kwAmtLine_no_nl (by decide) (by decide) (by decide) (by decide))
        (isChangeLine_kwAmtLine_false (by decide) (by decide) (by decide) (by decide))
        (isChangeLine_kwAmtLine_false (by decide) (by decide) (by decide) (by decide))]
      rfl
    rw [hs]
    have h3 := @collectAmounts_T3_toplam ['5', '0'] '0' '0' ['3', '0'] '0' '0'
      (by decide) (by decide) (by decide) (by decide) (by decide) (by decide)
      (by decide) (by decide) (by rw [hv50]; norm_num) (by rw [hv30]; norm_num)
    rw [h3, hv50, hv30]
  exact ⟨htop,
    C3_min_unconditional "TOPLAM: 50,00 TL\nTOPKDV: 30,00 TL" 50 [30, 50] htop⟩

/-! ### Date bounds -/

theorem parseDateString_bounds {raw : Chars} {ymd : YMD}
    (h : parseDateString raw = some ymd) :
    1900 ≤ ymd.year ∧ ymd.year ≤ 2100 ∧ 1 ≤ ymd.month ∧ ymd.month ≤ 12
    ∧ 1 ≤ ymd.day ∧ ymd.day ≤ daysInMonth ymd.year ymd.month := by
  unfold parseDateString at h
  dsimp only at h
  split at h
  case h_2 => exact absurd h (by simp)
  case h_1 pd pm py heq =>
    cases hd : parseIntDigits? pd with
    | none => rw [hd] at h; exact absurd h (by simp [Bind.bind, Option.bind])
    | some dd =>
      rw [hd] at h
      dsimp only [Bind.bind, Option.bind] at h
      cases hm : parseIntDigits? pm with
      | none => rw [hm] at h; exact absurd h (by simp)
      | some mm =>
        rw [hm] at h
        dsimp only at h
        cases hy : parseIntDigits? py with
        | none => rw [hy] at h; exact absurd h (by simp)
        | some yy =>
          rw [hy] at h
          dsimp only at h
          generalize (if yy < 100 then (if yy < 50 then 2000 + yy else 1900 + yy) else yy)
            = Y at h
          split at h
          · rename_i hcond
            have hinj : ymd = ⟨Y, mm, dd⟩ := by
              have := h
              simp only [Option.some_inj] at this
              exact this.symm
            subst hinj
            obtain ⟨h1, h2, h3, h4, h5, h6, h7⟩ := hcond
            exact ⟨h5, h6, h3, h4, h1, h7⟩
          · exact absurd h (by simp)

theorem firstDate_bounds :
    ∀ {ps : List (Chars → Option Chars)} {t : Chars} {ymd : YMD},
      firstDate ps t = some ymd →
      1900 ≤ ymd.year ∧ ymd.year ≤ 2100 ∧ 1 ≤ ymd.month ∧ ymd.month ≤ 12
      ∧ 1 ≤ ymd.day ∧ ymd.day ≤ daysInMonth ymd.year ymd.month := by
  intro ps
  induction ps with
  | nil => intro t ymd h; exact absurd h (by simp [firstDate])
  | cons p ps ih =>
    intro t ymd h
    unfold firstDate at h
    split at h
    · rename_i d heq
      have hd : d = ymd := by simpa using h
      subst hd
      obtain ⟨r, _, hparse⟩ := Option.bind_eq_some.mp heq
      exact parseDateString_bounds hparse
    · exact ih h

theorem parseReceipt_date (s : String) :
    (parseReceiptComprehensive s).date = extractPurchaseDate (upperText s.data) := by
  obtain ⟨v, hv⟩ := extractTotalAmountE_isOk (upperText s.data)
  rw [parseReceiptComprehensive_eq hv]

/-! ### Confidence facts -/

theorem parseReceipt_items (s : String) :
    (parseReceiptComprehensive s).items
      = (extractPurchasedItems (parseLines s.data)).map (⟨·⟩) := by
  obtain ⟨v, hv⟩ := extractTotalAmountE_isOk (upperText s.data)
  rw [parseReceiptComprehensive_eq hv]

theorem length_take_le {α : Type} (l : List α) (n : Nat) : (l.take n).length ≤ n := by
  rw [List.length_take]
  exact min_le_left _ _

/-! ## The remaining claims -/

/-- C4 counterexample: on the empty receipt text, where every cascade comes
up empty, the enhanced extractor populates vendor and total from the
md5-keyed mock tables (md5 of the receipt id `test` selects the vendor
`Shell Gas Station` and the amount 134.67), values that appear nowhere in
the input. -/
theorem C4_mock_cex :
    (extractReceiptDataEnhanced [] ("test".data) ⟨2026, 10, 12⟩).vendor
        = some ("Shell Gas Station".data)
    ∧ (extractReceiptDataEnhanced [] ("test".data) ⟨2026, 10, 12⟩).total
        = some (13467 / 100) := by
  constructor
  · rfl
  · rfl

/-- C4 amended: the enhanced extractor never leaves the vendor or the total
absent: when either is missing after the cascades, `data.update(mock_data)`
fills all fields from the deterministic mock tables. -/
theorem C4_mock_fallback (text receiptId : Chars) (today : YMD) :
    (extractReceiptDataEnhanced text receiptId today).vendor ≠ none
    ∧ (extractReceiptDataEnhanced text receiptId today).total ≠ none := by
  unfold extractReceiptDataEnhanced
  dsimp only
  split
  · exact ⟨by simp [generateMockData], by simp [generateMockData]⟩
  · rename_i hcond
    rw [Bool.or_eq_true, not_or] at hcond
    constructor
    · show enhExtractVendor _ _ ≠ none
      intro hnone
      exact hcond.1 (by rw [hnone]; rfl)
    · show enhExtractTotal _ ≠ none
      intro hnone
      exact hcond.2 (by rw [hnone]; rfl)

/-- C5: the comprehensive parser is total and never raises: on every input
string the exception-carrying model returns `ok` with exactly the value the
plain parser produces. -/
theorem C5_no_raise (s : String) :
    parseReceiptComprehensiveE s.data = Except.ok (parseReceiptComprehensive s) :=
  parseReceiptComprehensiveE_eq_ok s

/-- C6 counterexample: on `ACME STORE` with `TOTAL $40.76` the result
carries the hardcoded currency `TL` (not a dollar currency), and the
dollar amount defeats every pattern, leaving the total 0 rather than
40.76. -/
theorem C6_currency_cex :
    (parseReceiptComprehensive "ACME STORE\nTOTAL $40.76").currency = "TL"
    ∧ (parseReceiptComprehensive "ACME STORE\nTOTAL $40.76").total_amount = 0 := by
  have h : extractTotalAmountE (upperText ("ACME STORE\nTOTAL $40.76" : String).data)
      = .ok 0 := by rfl
  rw [parseReceiptComprehensive_eq h]
  exact ⟨rfl, rfl⟩

/-- C6 amended: the currency field of the comprehensive parser is the
constant `TL` on every input; no pattern family ever selects another
currency. -/
theorem C6_currency_hardcoded (s : String) :
    (parseReceiptComprehensive s).currency = "TL" := by
  obtain ⟨v, hv⟩ := extractTotalAmountE_isOk (upperText s.data)
  rw [parseReceiptComprehensive_eq hv]

/-- C7 counterexample: the date `05.09.1975` is accepted although it lies
far before 2000: the source validates years against 1900-2100, not against
the interval from 2000-01-01 to tomorrow. -/
theorem C7_date_cex :
    (parseReceiptComprehensive "TARİH: 05.09.1975").date = some ⟨1975, 9, 5⟩
    ∧ ¬(2000 ≤ (1975 : Nat)) := by
  constructor
  · rw [parseReceipt_date]
    decide
  · decide

/-- C7 amended: every date the comprehensive parser returns satisfies the
source's checks: a real calendar day-month pair and a year between 1900 and
2100 (not the spec's 2000-to-tomorrow window). -/
theorem C7_date_range (s : String) (ymd : YMD)
    (h : (parseReceiptComprehensive s).date = some ymd) :
    1900 ≤ ymd.year ∧ ymd.year ≤ 2100 ∧ 1 ≤ ymd.month ∧ ymd.month ≤ 12
    ∧ 1 ≤ ymd.day ∧ ymd.day ≤ daysInMonth ymd.year ymd.month := by
  rw [parseReceipt_date] at h
  exact firstDate_bounds h

theorem C7_date_range_witness :
    (parseReceiptComprehensive "TARİH: 05.09.1975").date = some ⟨1975, 9, 5⟩
    ∧ (1900 ≤ (1975 : Nat) ∧ (1975 : Nat) ≤ 2100 ∧ 1 ≤ (9 : Nat) ∧ (9 : Nat) ≤ 12
      ∧ 1 ≤ (5 : Nat) ∧ (5 : Nat) ≤ daysInMonth 1975 9) := by
  have hd : (parseReceiptComprehensive "TARİH: 05.09.1975").date = some ⟨1975, 9, 5⟩ := by
    rw [parseReceipt_date]
    decide
  exact ⟨hd, C7_date_range "TARİH: 05.09.1975" ⟨1975, 9, 5⟩ hd⟩

/-- C9: the confidence score is always between 0 and 1, and populating any
single field (vendor, amount or date) never lowers it. -/
theorem C9_confidence (vendor : Option String) (amount : Option ℚ) (d : Option YMD)
    (today : YMD) :
    (0 ≤ calculateConfidence vendor amount d today
      ∧ calculateConfidence vendor amount d today ≤ 1)
    ∧ (∀ v, calculateConfidence none amount d today
        ≤ calculateConfidence (some v) amount d today)
    ∧ (∀ q, calculateConfidence vendor none d today
        ≤ calculateConfidence vendor (some q) d today)
    ∧ (∀ dd, calculateConfidence vendor amount none today
        ≤ calculateConfidence vendor amount (some dd) today) := by
  refine ⟨⟨?_, ?_⟩, ?_, ?_, ?_⟩
  · unfold calculateConfidence
    dsimp only
    refine le_min ?_ (by norm_num)
    rcases vendor with _ | v <;> rcases amount with _ | q <;> rcases d with _ | dd <;>
      dsimp only <;> first
      | (split_ifs <;> norm_num)
      | norm_num
  · exact min_le_right _ _
  · intro v
    unfold calculateConfidence
    dsimp only
    refine min_le_min (add_le_add_right (add_le_add_right ?_ _) _) le_rfl
    split_ifs <;> norm_num
  · intro q
    unfold calculateConfidence
    dsimp only
    refine min_le_min (add_le_add_right (add_le_add_left ?_ _) _) le_rfl
    split_ifs <;> norm_num
  · intro dd
    unfold calculateConfidence
    dsimp only
    refine min_le_min (add_le_add_left ?_ _) le_rfl
    split_ifs <;> norm_num

/-- C10: both extractors cap the purchased-item list at ten entries — the
comprehensive parser on every input string, and the enhanced extractor on
every line list. -/
theorem C10_items_cap (s : String) (lines : List Chars) :
    (parseReceiptComprehensive s).items.length ≤ 10
    ∧ (enhExtractLineItems lines).length ≤ 10 := by
  constructor
  · rw [parseReceipt_items, List.length_map]
    unfold extractPurchasedItems
    exact length_take_le _ _
  · unfold enhExtractLineItems
    exact length_take_le _ _

/-! ### The item-sum texts -/

theorem toDecimal_5000 : toDecimal (['5', '0', ',', '0', '0'] : Chars) = 50 := by
  rw [show (['5', '0', ',', '0', '0'] : Chars) = (['5', '0'] : Chars) ++ ',' :: ['0', '0']
    from rfl]
  rw [toDecimal_comma (by decide) (by decide) (by decide) (by decide)]
  unfold amtVal
  rw [show digitsToNat ['5', '0'] = 50 from rfl,
    show (('0' : Char).toNat - 48) * 10 + (('0' : Char).toNat - 48) = 0 from rfl]
  norm_num

theorem toDecimal_1700 : toDecimal (['1', '7', ',', '0', '0'] : Chars) = 17 := by
  rw [show (['1', '7', ',', '0', '0'] : Chars) = (['1', '7'] : Chars) ++ ',' :: ['0', '0']
    from rfl]
  rw [toDecimal_comma (by decide) (by decide) (by decide) (by decide)]
  unfold amtVal
  rw [show digitsToNat ['1', '7'] = 17 from rfl,
    show (('0' : Char).toNat - 48) * 10 + (('0' : Char).toNat - 48) = 0 from rfl]
  norm_num

theorem toDecimal_1290 : toDecimal (['1', '2', ',', '9', '0'] : Chars) = 129 / 10 := by
  rw [show (['1', '2', ',', '9', '0'] : Chars) = (['1', '2'] : Chars) ++ ',' :: ['9', '0']
    from rfl]
  rw [toDecimal_comma (by decide) (by decide) (by decide) (by decide)]
  unfold amtVal
  rw [show digitsToNat ['1', '2'] = 12 from rfl,
    show (('9' : Char).toNat - 48) * 10 + (('0' : Char).toNat - 48) = 90 from rfl]
  norm_num

theorem extractTotal_C8cex :
    extractTotalAmountE (("2 ADET EKMEK *17,00\n1 ADET SÜT *12,90\nNAKİT: 50,00 TL"
      : String).data) = .ok 50 := by
  have hsearch : joinNl (removeChangeLines
      (("2 ADET EKMEK *17,00\n1 ADET SÜT *12,90\nNAKİT: 50,00 TL" : String).data))
      = ("2 ADET EKMEK *17,00\n1 ADET SÜT *12,90\nNAKİT: 50,00 TL" : String).data := by decide
  have h0 : scan (matchKwPat pToplam)
      (("2 ADET EKMEK *17,00\n1 ADET SÜT *12,90\nNAKİT: 50,00 TL" : String).data) = [] := by
    decide
  have h1 : scan (matchKwPat pGenelToplam)
      (("2 ADET EKMEK *17,00\n1 ADET SÜT *12,90\nNAKİT: 50,00 TL" : String).data) = [] := by
    decide
  have h2 : scan (matchKwPat pToplamTutar)
      (("2 ADET EKMEK *17,00\n1 ADET SÜT *12,90\nNAKİT: 50,00 TL" : String).data) = [] := by
    decide
  have h3 : scan (matchKwPat pAraToplam)
      (("2 ADET EKMEK *17,00\n1 ADET SÜT *12,90\nNAKİT: 50,00 TL" : String).data) = [] := by
    decide
  have h4 : scan (matchKwPat pGenelTop)
      (("2 ADET EKMEK *17,00\n1 ADET SÜT *12,90\nNAKİT: 50,00 TL" : String).data) = [] := by
    decide
  have h5 : scan (matchKwPat pTopkdv)
      (("2 ADET EKMEK *17,00\n1 ADET SÜT *12,90\nNAKİT: 50,00 TL" : String).data) = [] := by
    decide
  have h6 : scan (matchKwPat pToplamTL)
      (("2 ADET EKMEK *17,00\n1 ADET SÜT *12,90\nNAKİT: 50,00 TL" : String).data) = [] := by
    decide
  have h7 : scan (matchKwPat pGenelToplamTL)
      (("2 ADET EKMEK *17,00\n1 ADET SÜT *12,90\nNAKİT: 50,00 TL" : String).data) = [] := by
    decide
  have h8 : scan (matchKwPat pToplamTutarTL)
      (("2 ADET EKMEK *17,00\n1 ADET SÜT *12,90\nNAKİT: 50,00 TL" : String).data) = [] := by
    decide
  have h9 : scan (matchKwPat pNakit)
      (("2 ADET EKMEK *17,00\n1 ADET SÜT *12,90\nNAKİT: 50,00 TL" : String).data)
      = [['5', '0', ',', '0', '0']] := by decide
  have h10 : scan (matchKwPat pKrediKarti)
      (("2 ADET EKMEK *17,00\n1 ADET SÜT *12,90\nNAKİT: 50,00 TL" : String).data) = [] := by
    decide
  have h11 : scan (matchKwPat pOdenen)
      (("2 ADET EKMEK *17,00\n1 ADET SÜT *12,90\nNAKİT: 50,00 TL" : String).data) = [] := by
    decide
  have h12 : scan (matchKwPat pTotal)
      (("2 ADET EKMEK *17,00\n1 ADET SÜT *12,90\nNAKİT: 50,00 TL" : String).data) = [] := by
    decide
  have h13 : scan (matchKwPat pGrandTotal)
      (("2 ADET EKMEK *17,00\n1 ADET SÜT *12,90\nNAKİT: 50,00 TL" : String).data) = [] := by
    decide
  have h14 : scan14
      (("2 ADET EKMEK *17,00\n1 ADET SÜT *12,90\nNAKİT: 50,00 TL" : String).data)
      = [['5', '0', ',', '0', '0']] := by decide
  have hg : toDecimal (removeSpacesL (['5', '0', ',', '0', '0'] : Chars)) = 50 := by
    rw [show removeSpacesL (['5', '0', ',', '0', '0'] : Chars)
      = (['5', '0', ',', '0', '0'] : Chars) from rfl]
    exact toDecimal_5000
  have ht : (collectAmounts (joinNl (removeChangeLines
      (("2 ADET EKMEK *17,00\n1 ADET SÜT *12,90\nNAKİT: 50,00 TL" : String).data)))).toplam
      = [] := by
    rw [hsearch, collectAmounts_toplam_of_scans h0 h1 h2 h3 h4 h5 h6 h7 h8]
    simp
  have hf : (collectAmounts (joinNl (removeChangeLines
      (("2 ADET EKMEK *17,00\n1 ADET SÜT *12,90\nNAKİT: 50,00 TL" : String).data)))).found
      = [50, 50] := by
    rw [hsearch,
      collectAmounts_found_of_scans h0 h1 h2 h3 h4 h5 h6 h7 h8 h9 h10 h11 h12 h13 h14]
    rw [show (([] ++ [] ++ [] ++ [] ++ [] ++ [] ++ [] ++ [] ++ []
        ++ [['5', '0', ',', '0', '0']] ++ [] ++ [] ++ [] ++ []
        ++ [['5', '0', ',', '0', '0']]) : List Chars)
      = [['5', '0', ',', '0', '0'], ['5', '0', ',', '0', '0']] from by simp]
    rw [List.map_cons, List.map_cons, List.map_nil, hg]
    simp only [List.filter_cons, List.filter_nil]
    norm_num
  rw [extractTotalAmountE_of_found ht hf (by simp), pyMaxE_pair, max_self]

theorem extractTotal_C8sum :
    extractTotalAmountE (("2 ADET EKMEK *17,00\n1 ADET SÜT *12,90" : String).data)
      = .ok (299 / 10) := by
  have hsearch : joinNl (removeChangeLines
      (("2 ADET EKMEK *17,00\n1 ADET SÜT *12,90" : String).data))
      = ("2 ADET EKMEK *17,00\n1 ADET SÜT *12,90" : String).data := by decide
  have h0 : scan (matchKwPat pToplam)
      (("2 ADET EKMEK *17,00\n1 ADET SÜT *12,90" : String).data) = [] := by decide
  have h1 : scan (matchKwPat pGenelToplam)
      (("2 ADET EKMEK *17,00\n1 ADET SÜT *12,90" : String).data) = [] := by decide
  have h2 : scan (matchKwPat pToplamTutar)
      (("2 ADET EKMEK *17,00\n1 ADET SÜT *12,90" : String).data) = [] := by decide
  have h3 : scan (matchKwPat pAraToplam)
      (("2 ADET EKMEK *17,00\n1 ADET SÜT *12,90" : String).data) = [] := by decide
  have h4 : scan (matchKwPat pGenelTop)
      (("2 ADET EKMEK *17,00\n1 ADET SÜT *12,90" : String).data) = [] := by decide
  have h5 : scan (matchKwPat pTopkdv)
      (("2 ADET EKMEK *17,00\n1 ADET SÜT *12,90" : String).data) = [] := by decide
  have h6 : scan (matchKwPat pToplamTL)
      (("2 ADET EKMEK *17,00\n1 ADET SÜT *12,90" : String).data) = [] := by decide
  have h7 : scan (matchKwPat pGenelToplamTL)
      (("2 ADET EKMEK *17,00\n1 ADET SÜT *12,90" : String).data) = [] := by decide
  have h8 : scan (matchKwPat pToplamTutarTL)
      (("2 ADET EKMEK *17,00\n1 ADET SÜT *12,90" : String).data) = [] := by decide
  have h9 : scan (matchKwPat pNakit)
      (("2 ADET EKMEK *17,00\n1 ADET SÜT *12,90" : String).data) = [] := by decide
  have h10 : scan (matchKwPat pKrediKarti)
      (("2 ADET EKMEK *17,00\n1 ADET SÜT *12,90" : String).data) = [] := by decide
  have h11 : scan (matchKwPat pOdenen)
      (("2 ADET EKMEK *17,00\n1 ADET SÜT *12,90" : String).data) = [] := by decide
  have h12 : scan (matchKwPat pTotal)
      (("2 ADET EKMEK *17,00\n1 ADET SÜT *12,90" : String).data) = [] := by decide
  have h13 : scan (matchKwPat pGrandTotal)
      (("2 ADET EKMEK *17,00\n1 ADET SÜT *12,90" : String).data) = [] := by decide
  have h14 : scan14
      (("2 ADET EKMEK *17,00\n1 ADET SÜT *12,90" : String).data) = [] := by decide
  have ht : (collectAmounts (joinNl (removeChangeLines
      (("2 ADET EKMEK *17,00\n1 ADET SÜT *12,90" : String).data)))).toplam = [] := by
    rw [hsearch, collectAmounts_toplam_of_scans h0 h1 h2 h3 h4 h5 h6 h7 h8]
    simp
  have hf : (collectAmounts (joinNl (removeChangeLines
      (("2 ADET EKMEK *17,00\n1 ADET SÜT *12,90" : String).data)))).found = [] := by
    rw [hsearch,
      collectAmounts_found_of_scans h0 h1 h2 h3 h4 h5 h6 h7 h8 h9 h10 h11 h12 h13 h14]
    simp
  have htr : trailingAmounts
      (("2 ADET EKMEK *17,00\n1 ADET SÜT *12,90" : String).data) = [] := by decide
  have hn : nearbyAmount? (splitNl
      (("2 ADET EKMEK *17,00\n1 ADET SÜT *12,90" : String).data)) = none := by decide
  have hsplit : splitNl (("2 ADET EKMEK *17,00\n1 ADET SÜT *12,90" : String).data)
      = [['2', ' ', 'A', 'D', 'E', 'T', ' ', 'E', 'K', 'M', 'E', 'K', ' ', '*', '1', '7',
          ',', '0', '0'],
         ['1', ' ', 'A', 'D', 'E', 'T', ' ', 'S', 'Ü', 'T', ' ', '*', '1', '2', ',', '9',
          '0']] := by decide
  have hscan1 : scan astMatcher
      ['2', ' ', 'A', 'D', 'E', 'T', ' ', 'E', 'K', 'M', 'E', 'K', ' ', '*', '1', '7', ',',
        '0', '0'] = [['1', '7', ',', '0', '0']] := by decide
  have hscan2 : scan astMatcher
      ['1', ' ', 'A', 'D', 'E', 'T', ' ', 'S', 'Ü', 'T', ' ', '*', '1', '2', ',', '9', '0']
      = [['1', '2', ',', '9', '0']] := by decide
  have hast : asteriskSum (splitNl
      (("2 ADET EKMEK *17,00\n1 ADET SÜT *12,90" : String).data)) = 299 / 10 := by
    rw [hsplit]
    unfold asteriskSum
    rw [List.foldl_cons, List.foldl_cons, List.foldl_nil]
    rw [hscan1, hscan2]
    rw [List.foldl_cons, List.foldl_nil, List.foldl_cons, List.foldl_nil]
    rw [toDecimal_1700, toDecimal_1290]
    dsimp only
    rw [if_pos (show ¬(([] : List (ℚ × Chars)).contains
        ((17 : ℚ), List.take 20 ['2', ' ', 'A', 'D', 'E', 'T', ' ', 'E', 'K', 'M', 'E',
          'K', ' ', '*', '1', '7', ',', '0', '0'])) = true
        ∧ (0 : ℚ) < 17 ∧ (17 : ℚ) < 1000 from ⟨by simp, by norm_num, by norm_num⟩)]
    dsimp only
    rw [if_pos (show ¬((([] ++ [((17 : ℚ), List.take 20 ['2', ' ', 'A', 'D', 'E', 'T', ' ',
          'E', 'K', 'M', 'E', 'K', ' ', '*', '1', '7', ',', '0', '0'])]) : List (ℚ × Chars)
          ).contains ((129 : ℚ) / 10, List.take 20 ['1', ' ', 'A', 'D', 'E', 'T', ' ', 'S',
          'Ü', 'T', ' ', '*', '1', '2', ',', '9', '0'])) = true
        ∧ (0 : ℚ) < 129 / 10 ∧ (129 : ℚ) / 10 < 1000 from
      ⟨by
        intro hcon
        have hmem : ((129 : ℚ) / 10, List.take 20 ['1', ' ', 'A', 'D', 'E', 'T', ' ', 'S',
            'Ü', 'T', ' ', '*', '1', '2', ',', '9', '0'])
            ∈ ([((17 : ℚ), List.take 20 ['2', ' ', 'A', 'D', 'E', 'T', ' ', 'E', 'K', 'M',
              'E', 'K', ' ', '*', '1', '7', ',', '0', '0'])] : List (ℚ × Chars)) := by
          simp at hcon
        have h17 : (129 : ℚ) / 10 = 17 := congrArg Prod.fst (List.mem_singleton.mp hmem)
        norm_num at h17,
       by norm_num, by norm_num⟩)]
    dsimp only
    norm_num
  rw [extractTotalAmountE_of_fallthrough ht hf htr hn hast]
  rw [if_pos (show (299 : ℚ) / 10 > 0 from by norm_num)]

/-- C8 counterexample: adding the payment line `NAKİT: 50,00 TL` to the two
item lines makes the payment tier (pattern `NAKİT` and the generic
trailing-`TL` pattern) intercept extraction before the item-sum fallback:
the result is the tendered 50, not the item sum 29.90. -/
theorem C8_nakit_cex :
    (parseReceiptComprehensive "2 ADET Ekmek *17,00\n1 ADET Süt *12,90\nNAKİT: 50,00 TL"
      ).total_amount = 50
    ∧ (50 : ℚ) ≠ 299 / 10 := by
  have hup : upperText
      (("2 ADET Ekmek *17,00\n1 ADET Süt *12,90\nNAKİT: 50,00 TL" : String).data)
      = ("2 ADET EKMEK *17,00\n1 ADET SÜT *12,90\nNAKİT: 50,00 TL" : String).data := by
    decide
  have h : extractTotalAmountE (upperText
      (("2 ADET Ekmek *17,00\n1 ADET Süt *12,90\nNAKİT: 50,00 TL" : String).data))
      = .ok 50 := by
    rw [hup]
    exact extractTotal_C8cex
  rw [parseReceiptComprehensive_eq h]
  exact ⟨rfl, by norm_num⟩

/-- C8 amended: with the two item lines alone (no keyword, payment or
trailing-`TL` line), extraction falls through to the item-sum tier and
returns 17.00 + 12.90 = 29.90, deduplicated by price plus 20-character
line context and bounded to (0, 1000). -/
theorem C8_item_sum :
    (parseReceiptComprehensive "2 ADET Ekmek *17,00\n1 ADET Süt *12,90").total_amount
      = 299 / 10 := by
  have hup : upperText (("2 ADET Ekmek *17,00\n1 ADET Süt *12,90" : String).data)
      = ("2 ADET EKMEK *17,00\n1 ADET SÜT *12,90" : String).data := by decide
  have h : extractTotalAmountE (upperText
      (("2 ADET Ekmek *17,00\n1 ADET Süt *12,90" : String).data)) = .ok (299 / 10) := by
    rw [hup]
    exact extractTotal_C8sum
  rw [parseReceiptComprehensive_eq h]

end NecfOCR
